import Mathlib

/-!
Game of Life (`game.h`): cell rules and the toroidal grid

A shallow embedding of the cell classes (`Cell`, `AgingCell`, `RuleBasedCell`,
`CustomCell`) and of `Grid` from `src/game.h`, followed by theorems about them.

Conventions of the embedding

* `enum class CellState` is held by its integer code (`static_cast<CellState>` of any
  `int` is a value of the type, and `main.cpp` builds seeds that way).
* A `const Cell*` is the coordinate `(row, col)` of the cell it points to inside
  `Grid::cells`; dereferencing is `Grid.deref`.
* The four classes share one record `Cell`; the field `cls` is the dynamic type, and the
  functions `Cell.callIsAlive`, `Cell.callSetState`, `Cell.callComputeNextState`
  are the virtual calls.
* `int` values are `Int`.  The `size_t` results of `std::string::find` and `size` are
  natural numbers, `size_t` arithmetic is modulo `2^64` (`sizeAdd`, `sizeSub`,
  `sizeOfInt`), and the conversion of a `size_t` to `int` is `toInt32`.
* The `int` product `m * n` of `CustomCell::lcm` and the increment `age++` of
  `AgingCell::computeNextState` are taken with two's complement wrap-around (`intWrap`);
  the other `int` expressions stay within range wherever the theorems use them (state
  codes, neighbour counts; the age of a `CustomCell` is only compared with 3 and reset).
* The rule string is a list of `Char`, one per `char` (byte) of the `std::string`; the
  value of a `char` in arithmetic is `charValue` (signed 8-bit; ASCII characters have their
  code as value).
* The window position `x`, `y` of a cell (two `float`s used only for drawing) is left out.
-/

namespace GameOfLife

/-! ## Cell states and colours -/

/-- CellState is `enum class CellState`, held by its integer code. -/
abbrev CellState := Int

namespace CellState
abbrev DEAD : CellState := 0
abbrev ALIVE : CellState := 1
abbrev OLD : CellState := 2
abbrev R : CellState := 3
abbrev G : CellState := 4
abbrev B : CellState := 5
abbrev R_AND_G : CellState := 12
abbrev G_AND_B : CellState := 20
abbrev B_AND_R : CellState := 15
abbrev R_AND_G_AND_B : CellState := 60
end CellState

/-- Color is `sf::Color`: red, green, blue and alpha components. -/
structure Color where
  r : Nat
  g : Nat
  b : Nat
  a : Nat := 255
deriving DecidableEq, Repr

/-- The value of a default-constructed `sf::Color()`: opaque black. -/
def Color.dflt : Color := ⟨0, 0, 0, 255⟩

def ALIVE_COLOR : Color := ⟨0, 0, 0, 255⟩
def OLD_COLOR : Color := ⟨100, 100, 100, 255⟩
def RED : Color := ⟨255, 0, 0, 255⟩
def GREEN : Color := ⟨0, 255, 0, 255⟩
def BLUE : Color := ⟨0, 0, 255, 255⟩
def YELLOW : Color := ⟨255, 255, 0, 255⟩
def CYAN : Color := ⟨0, 255, 255, 255⟩
def MAGENTA : Color := ⟨255, 0, 255, 255⟩
def BLACK : Color := ⟨0, 0, 0, 255⟩

/-! ## Cells -/

/-- The dynamic type of a cell object. -/
inductive CellClass where
  | basic      -- `Cell`
  | aging      -- `AgingCell`
  | ruleBased  -- `RuleBasedCell`
  | custom     -- `CustomCell`
deriving DecidableEq, Repr

/-- The data members of `Cell` and of its subclasses (`age` of `AgingCell` and
`CustomCell`, `b` and `s` of `RuleBasedCell`), with the in-class initialisers. -/
structure Cell where
  cls : CellClass
  color : Color := ALIVE_COLOR
  state : CellState := CellState.DEAD
  nextState : CellState := CellState.DEAD
  neighbors : List (Nat × Nat) := []
  age : Int := 0
  b : List Int := []
  s : List Int := []
deriving DecidableEq, Repr

instance : Inhabited Cell := ⟨{ cls := CellClass.basic }⟩

/-- `Cell::getState`. -/
def Cell.getState (c : Cell) : CellState := c.state

/-- `Cell::isAlive`: true exactly for `ALIVE`. -/
def Cell.isAlive (c : Cell) : Bool :=
  if c.state = CellState.ALIVE then true else false

/-- `AgingCell::isAlive`: true for `ALIVE` or `OLD`. -/
def AgingCell.isAlive (c : Cell) : Bool :=
  if c.state = CellState.ALIVE ∨ c.state = CellState.OLD then true else false

/-- `CustomCell::isAlive`: true for the seven colour states and `OLD`. -/
def CustomCell.isAlive (c : Cell) : Bool :=
  if c.getState = CellState.R ∨ c.getState = CellState.G ∨ c.getState = CellState.B
      ∨ c.getState = CellState.R_AND_G ∨ c.getState = CellState.G_AND_B
      ∨ c.getState = CellState.B_AND_R ∨ c.getState = CellState.R_AND_G_AND_B
      ∨ c.getState = CellState.OLD then true else false

/-- `CustomCell::isProducable`: true for the seven colour states. -/
def CustomCell.isProducable (c : Cell) : Bool :=
  if c.getState = CellState.R ∨ c.getState = CellState.G ∨ c.getState = CellState.B
      ∨ c.getState = CellState.R_AND_G ∨ c.getState = CellState.G_AND_B
      ∨ c.getState = CellState.B_AND_R ∨ c.getState = CellState.R_AND_G_AND_B
  then true else false

/-- The virtual call `cell->isAlive()` (`RuleBasedCell` inherits `Cell::isAlive`). -/
def Cell.callIsAlive (c : Cell) : Bool :=
  match c.cls with
  | CellClass.basic => Cell.isAlive c
  | CellClass.aging => AgingCell.isAlive c
  | CellClass.ruleBased => Cell.isAlive c
  | CellClass.custom => CustomCell.isAlive c

/-- `Cell::update`: `state = nextState`. -/
def Cell.update (c : Cell) : Cell := { c with state := c.nextState }

/-- The counting loop at the head of the three `computeNextState` bodies that use
`live_cell`: the number of neighbours whose `isAlive()` is true. -/
def liveCount (nbrs : List Cell) : Int := (nbrs.countP Cell.callIsAlive : Nat)

/-- `Cell::computeNextState`; `nbrs` are the cells the `neighbors` pointers refer to. -/
def Cell.computeNextState (c : Cell) (nbrs : List Cell) : Cell :=
  let live_cell := liveCount nbrs
  if c.callIsAlive = true ∧ live_cell < 2 then { c with nextState := CellState.DEAD }
  else if c.callIsAlive = true ∧ live_cell > 3 then { c with nextState := CellState.DEAD }
  else if c.callIsAlive = false ∧ live_cell = 3 then { c with nextState := CellState.ALIVE }
  else { c with nextState := c.getState }

/-- The value an `int` expression holds when its mathematical result is `x`: `x` itself
within `[-2^31, 2^31)`, and the two's complement wrap-around outside. -/
def intWrap (x : Int) : Int := (x + 2 ^ 31) % 2 ^ 32 - 2 ^ 31

/-- `AgingCell::setState`. -/
def AgingCell.setState (c : Cell) (newState : CellState) : Cell :=
  let c1 := { c with state := newState }
  let c2 := if c1.state = CellState.ALIVE then { c1 with color := ALIVE_COLOR } else c1
  if c2.state = CellState.OLD then { c2 with color := OLD_COLOR } else c2

/-- `AgingCell::computeNextState`; `age++` is an `int` increment. -/
def AgingCell.computeNextState (c : Cell) (nbrs : List Cell) : Cell :=
  let live_cell := liveCount nbrs
  let c1 := if c.callIsAlive = true then { c with age := intWrap (c.age + 1) } else c
  let c2 :=
    if c1.callIsAlive = true ∧ live_cell < 2 then { c1 with nextState := CellState.DEAD }
    else if c1.callIsAlive = true ∧ live_cell > 3 then { c1 with nextState := CellState.DEAD }
    else if c1.callIsAlive = false ∧ live_cell = 3 then { c1 with nextState := CellState.ALIVE }
    else if c1.getState = CellState.OLD then { c1 with nextState := CellState.DEAD }
    else { c1 with nextState := c1.getState }
  let c3 := if c2.nextState = CellState.DEAD then { c2 with age := 0, color := ALIVE_COLOR } else c2
  if c3.nextState = CellState.ALIVE ∧ c3.age = 3 then
    { c3 with nextState := CellState.OLD, color := OLD_COLOR }
  else c3

/-- `RuleBasedCell::computeNextState`; `find(...) == s.end()` is non-membership. -/
def RuleBasedCell.computeNextState (c : Cell) (nbrs : List Cell) : Cell :=
  let live_cell := liveCount nbrs
  if c.callIsAlive = true ∧ live_cell ∉ c.s then { c with nextState := CellState.DEAD }
  else if c.callIsAlive = false ∧ live_cell ∈ c.b then { c with nextState := CellState.ALIVE }
  else { c with nextState := c.getState }

/-! ## The custom cell -/

/-- Dict is `std::map<CellState, int>`: the entries in increasing key order. -/
abbrev Dict := List (CellState × Int)

/-- The call `dict.insert(std::make_pair(k, v))`: adds the entry unless the key is present. -/
def Dict.insert : Dict → CellState → Int → Dict
  | [], k, v => [(k, v)]
  | (k', v') :: rest, k, v =>
    if k = k' then (k', v') :: rest
    else if k < k' then (k, v) :: (k', v') :: rest
    else (k', v') :: Dict.insert rest k v

/-- The statement `dict[k]++`: `operator[]` creates the entry with value 0 when the key
is absent, then the value is incremented. -/
def Dict.incr : Dict → CellState → Dict
  | [], k => [(k, 0 + 1)]
  | (k', v') :: rest, k =>
    if k = k' then (k', v' + 1) :: rest
    else if k < k' then (k, 0 + 1) :: (k', v') :: rest
    else (k', v') :: Dict.incr rest k

/-- The seven `dict.insert` calls that open `CustomCell::computeNextState`. -/
def CustomCell.initDict : Dict :=
  let d : Dict := []
  let d := d.insert CellState.R 0
  let d := d.insert CellState.G 0
  let d := d.insert CellState.B 0
  let d := d.insert CellState.R_AND_G 0
  let d := d.insert CellState.G_AND_B 0
  let d := d.insert CellState.B_AND_R 0
  d.insert CellState.R_AND_G_AND_B 0

/-- The tallying loop of `CustomCell::computeNextState`: every neighbour that is alive
and not `OLD` increments the entry of its state. -/
def CustomCell.tally (nbrs : List Cell) : Dict :=
  nbrs.foldl
    (fun dict a_cell =>
      if a_cell.callIsAlive = true ∧ a_cell.getState ≠ CellState.OLD then
        dict.incr a_cell.getState
      else dict)
    CustomCell.initDict

/-- `CustomCell::maxDict`: the largest value (at least 0) and the keys holding it,
in key order. -/
def CustomCell.maxDict (dict : Dict) : Int × List CellState :=
  let max_amount := dict.foldl (fun m it => if it.2 > m then it.2 else m) (0 : Int)
  let states := (dict.filter (fun it => it.2 == max_amount)).map Prod.fst
  (max_amount, states)

/-- The `while (b != 0)` loop of `CustomCell::lcm`, run for at most `fuel` tests of
the loop condition; `a %= b` is the truncating remainder.  `none`: fuel exhausted. -/
def CustomCell.lcmLoop : Nat → Int → Int → Option Int
  | 0, _, _ => none
  | fuel + 1, a, b =>
    if b ≠ 0 then
      let a1 := if a < b then b else a
      let b1 := if a < b then a else b
      let a2 := if b1 ≠ 0 then Int.tmod a1 b1 else a1
      CustomCell.lcmLoop fuel a2 b1
    else some a

/-- `CustomCell::lcm`: `m * n / gcd` with `gcd` the value of `a` when the loop ends; the
product `m * n` is an `int`.  `none` when the loop does not end within `|m| + |n| + 1`
tests or `gcd` is 0 (a division by zero). -/
def CustomCell.lcm (m n : Int) : Option Int :=
  match CustomCell.lcmLoop (m.natAbs + n.natAbs + 1) m n with
  | none => none
  | some gcd => if gcd = 0 then none else some (Int.tdiv (intWrap (m * n)) gcd)

/-- The member `StateToColor` of `CustomCell` as filled by the constructor, read through
`operator[]`: a key that is absent is created with the default colour, so a later read
of it returns the same value and the table can be held as a function. -/
def CustomCell.StateToColor (k : CellState) : Color :=
  if k = CellState.OLD then OLD_COLOR
  else if k = CellState.R then RED
  else if k = CellState.G then GREEN
  else if k = CellState.B then BLUE
  else if k = CellState.R_AND_G then YELLOW
  else if k = CellState.G_AND_B then CYAN
  else if k = CellState.B_AND_R then MAGENTA
  else if k = CellState.R_AND_G_AND_B then BLACK
  else Color.dflt

/-- `CustomCell::setState`. -/
def CustomCell.setState (c : Cell) (newState : CellState) : Cell :=
  let c1 := { c with state := newState }
  if c1.state ≠ CellState.DEAD then { c1 with color := CustomCell.StateToColor c1.state } else c1

/-- `CustomCell::computeNextState`.  `maxStates[0]` and `maxStates[1]` are read under the
size tests that guard them.  `lcm` is only ever applied to keys of the dictionary, which
are positive codes, where it returns a value (`lcm_isSome_of_pos`, `tally_keys_pos`); the
fallback of `Option.getD` is therefore never taken. -/
def CustomCell.computeNextState (c : Cell) (nbrs : List Cell) : Cell :=
  let dict := CustomCell.tally nbrs
  let max_amount := (CustomCell.maxDict dict).1
  let maxStates := (CustomCell.maxDict dict).2
  let c5 :=
    if c.callIsAlive = true then
      if CustomCell.isProducable c = true then
        let c1 := { c with age := c.age + 1 }
        let c2 :=
          if max_amount ≤ 1 then { c1 with nextState := CellState.DEAD }
          else if max_amount > 1 ∧ max_amount ≤ 4 then
            if c1.getState ∈ maxStates then { c1 with nextState := c1.getState }
            else { c1 with nextState := CellState.DEAD }
          else if max_amount > 4 then { c1 with nextState := CellState.DEAD }
          else c1
        if c2.nextState ≠ CellState.DEAD then
          let c3 := if c2.age = 3 then { c2 with nextState := CellState.OLD } else c2
          { c3 with color := CustomCell.StateToColor c3.nextState }
        else c2
      else { c with nextState := CellState.DEAD }
    else
      if max_amount = 2 ∨ max_amount = 3 then
        let c1 :=
          if maxStates.length = 1 then { c with nextState := maxStates.getD 0 CellState.DEAD }
          else c
        let c2 :=
          if maxStates.length = 2 then
            { c1 with nextState :=
                (CustomCell.lcm (maxStates.getD 0 CellState.DEAD)
                  (maxStates.getD 1 CellState.DEAD)).getD c1.nextState }
          else c1
        { c2 with color := CustomCell.StateToColor c2.nextState }
      else { c with nextState := c.getState }
  if c5.nextState = CellState.DEAD then { c5 with age := 0 } else c5

/-! ## Virtual dispatch -/

/-- The virtual call `cell->setState(newState)`; `Cell` and `RuleBasedCell` use
`Cell::setState`, which only assigns `state`. -/
def Cell.callSetState (c : Cell) (newState : CellState) : Cell :=
  match c.cls with
  | CellClass.basic => { c with state := newState }
  | CellClass.aging => AgingCell.setState c newState
  | CellClass.ruleBased => { c with state := newState }
  | CellClass.custom => CustomCell.setState c newState

/-- The virtual call `cell->computeNextState()`. -/
def Cell.callComputeNextState (c : Cell) (nbrs : List Cell) : Cell :=
  match c.cls with
  | CellClass.basic => Cell.computeNextState c nbrs
  | CellClass.aging => AgingCell.computeNextState c nbrs
  | CellClass.ruleBased => RuleBasedCell.computeNextState c nbrs
  | CellClass.custom => CustomCell.computeNextState c nbrs

/-! ## Configuration and the rule string -/

/-- GameMode is `enum class GameMode`. -/
inductive GameMode where
  | BASIC
  | AGING
  | RULE_BASED
  | CUSTOM
deriving DecidableEq, Repr

/-- The fields of `GameConfig` that the grid logic reads (the rest configure the window). -/
structure GameConfig where
  numRows : Int := 10
  numCols : Int := 10
  gameMode : GameMode := GameMode.BASIC
  gameRule : List Char := []
deriving DecidableEq, Repr

/-- `std::string::npos` for a 64-bit `size_t`. -/
def npos : Nat := 2 ^ 64 - 1

/-- Conversion of a `size_t` value to `int`: the low 32 bits, read as two's complement. -/
def toInt32 (x : Nat) : Int :=
  if x % 2 ^ 32 < 2 ^ 31 then ((x % 2 ^ 32 : Nat) : Int) else ((x % 2 ^ 32 : Nat) : Int) - 2 ^ 32

/-- Conversion of an `int` to `size_t`: the value modulo `2^64`. -/
def sizeOfInt (i : Int) : Nat := (i % 2 ^ 64).toNat

/-- Addition of two `size_t` values, modulo `2^64`. -/
def sizeAdd (a b : Nat) : Nat := (a + b) % 2 ^ 64

/-- Subtraction `a - b` of two `size_t` values, modulo `2^64`. -/
def sizeSub (a b : Nat) : Nat := (((a : Int) - (b : Int)) % 2 ^ 64).toNat

/-- Whether `pat` occurs at the head of `s`. -/
def matchesAt : List Char → List Char → Bool
  | [], _ => true
  | _ :: _, [] => false
  | p :: ps, c :: cs => p == c && matchesAt ps cs

/-- Search of `pat` in `s` from its head, `pos` being the index of the head. -/
def findFrom (pat : List Char) : List Char → Nat → Nat
  | [], pos => if matchesAt pat [] then pos else npos
  | c :: cs, pos => if matchesAt pat (c :: cs) then pos else findFrom pat cs (pos + 1)

/-- `std::string::find(pat)`: index of the first occurrence, `npos` if there is none. -/
def strFind (s pat : List Char) : Nat := findFrom pat s 0

/-- `std::string::at(i)` for an `int` index (converted to `size_t`); `none` stands for
the `std::out_of_range` exception. -/
def strAt (s : List Char) (i : Int) : Option Char := s[sizeOfInt i]?

/-- The values of `i` taken by `for (int i = lo; i <= hi; i++)`. -/
def intRange (lo hi : Int) : List Int :=
  (List.range (hi + 1 - lo).toNat).map (fun (k : Nat) => lo + (k : Int))

/-- Runs `f` over a list in order; `none` as soon as one call fails. -/
def collect {α β : Type} (f : α → Option β) : List α → Option (List β)
  | [] => some []
  | a :: as =>
    match f a with
    | none => none
    | some v =>
      match collect f as with
      | none => none
      | some vs => some (v :: vs)

/-- The `int` value of a `char` of the rule string.  A `Char` of code 0 to 255 stands for
the byte of that code, and `char` is a signed 8-bit type: the bytes 0 to 127 (ASCII) have
their code as value, the bytes 128 to 255 the code minus 256.  (A code above 255, which is
no byte, is reduced modulo 256.) -/
def charValue (ch : Char) : Int :=
  if ch.toNat % 256 < 128 then ((ch.toNat % 256 : Nat) : Int)
  else ((ch.toNat % 256 : Nat) : Int) - 256

/-- One of the two loops of the `RuleBasedCell` constructor:
`for (int i = lo; i <= hi; i++) v.push_back(rule.at(i) - '0')`, with `'0'` of value 48. -/
def RuleBasedCell.digits (rule : List Char) (lo hi : Int) : Option (List Int) :=
  collect (fun i => (strAt rule i).map (fun ch => charValue ch - 48)) (intRange lo hi)

/-- The `RuleBasedCell` constructor; `none` if `rule.at` throws. -/
def RuleBasedCell.new (rule : List Char) : Option Cell :=
  let b_start := toInt32 (sizeAdd (strFind rule ['B']) 1)
  let s_start := toInt32 (sizeAdd (strFind rule ['S']) 1)
  let b_end := toInt32 (sizeSub (strFind rule ['S']) 2)
  let s_end := toInt32 (sizeSub rule.length 1)
  match RuleBasedCell.digits rule b_start b_end with
  | none => none
  | some b =>
    match RuleBasedCell.digits rule s_start s_end with
    | none => none
    | some s => some { cls := CellClass.ruleBased, b := b, s := s }

/-! ## The grid -/

/-- The members of `Grid`: the configuration and the matrix of cells. -/
structure Grid where
  config : GameConfig
  cells : List (List Cell)
deriving DecidableEq, Repr

/-- CellCoord is `struct CellCoord`. -/
structure CellCoord where
  row : Int
  col : Int
  state : CellState
deriving DecidableEq, Repr

/-- The cell a pointer refers to. -/
def Grid.deref (g : Grid) (p : Nat × Nat) : Cell := (g.cells.getD p.1 []).getD p.2 default

/-- Overwrites the cell a pointer refers to. -/
def Grid.store (g : Grid) (p : Nat × Nat) (c : Cell) : Grid :=
  { g with cells := g.cells.set p.1 ((g.cells.getD p.1 []).set p.2 c) }

/-- The expression `cells.at(y).at(x)` for `int` indices: the pointer stored there, or
`none` for the `std::out_of_range` exception. -/
def cellAt (cells : List (List Cell)) (y x : Int) : Option (Nat × Nat) :=
  if sizeOfInt y < cells.length ∧ sizeOfInt x < (cells.getD (sizeOfInt y) []).length then
    some (sizeOfInt y, sizeOfInt x)
  else none

/-- The object created by the `new` expression of the `Grid` constructor for the
configured mode. -/
def newCell (cfg : GameConfig) : Option Cell :=
  match cfg.gameMode with
  | GameMode.BASIC => some { cls := CellClass.basic }
  | GameMode.AGING => some { cls := CellClass.aging }
  | GameMode.RULE_BASED => RuleBasedCell.new cfg.gameRule
  | GameMode.CUSTOM => some { cls := CellClass.custom }

/-- The array `neighbor_index` that the `Grid` constructor computes for the cell in row
`i` and column `j`. -/
def neighborIndex (cfg : GameConfig) (i j : Int) : List (Int × Int) :=
  let left := j - 1
  let right := j + 1
  let up := i - 1
  let down := i + 1
  let left := if left = -1 then cfg.numCols - 1 else left
  let right := if right = cfg.numCols then 0 else right
  let up := if up = -1 then cfg.numRows - 1 else up
  let down := if down = cfg.numRows then 0 else down
  [(up, left), (i, left), (down, left), (up, j), (down, j), (up, right), (i, right), (down, right)]

/-- The first loop nest of the `Grid` constructor: the matrix of freshly created cells. -/
def Grid.allocate (cfg : GameConfig) : Option (List (List Cell)) :=
  collect (fun _ => collect (fun _ => newCell cfg) (List.range cfg.numCols.toNat))
    (List.range cfg.numRows.toNat)

/-- The second loop nest of the `Grid` constructor: every cell receives, through
`setNeighbor` (a `push_back`), the pointers `cells.at(y).at(x)` of its eight entries of
`neighbor_index`, in order. -/
def Grid.link (cfg : GameConfig) (cells : List (List Cell)) : Option (List (List Cell)) :=
  collect
    (fun (i : Nat) => collect
      (fun (j : Nat) =>
        match collect (fun yx => cellAt cells yx.1 yx.2) (neighborIndex cfg (i : Int) (j : Int)) with
        | none => none
        | some ptrs =>
          let c := (cells.getD i []).getD j default
          some { c with neighbors := c.neighbors ++ ptrs })
      (List.range cfg.numCols.toNat))
    (List.range cfg.numRows.toNat)

/-- The `Grid` constructor; `none` if an exception leaves it. -/
def Grid.new (cfg : GameConfig) : Option Grid :=
  match Grid.allocate cfg with
  | none => none
  | some cells0 =>
    match Grid.link cfg cells0 with
    | none => none
    | some cells => some { config := cfg, cells := cells }

/-- `Grid::initializeCells`; `none` if `cells.at` throws. -/
def Grid.initializeCells (g : Grid) : List CellCoord → Option Grid
  | [] => some g
  | a_cell :: rest =>
    match cellAt g.cells a_cell.row a_cell.col with
    | none => none
    | some p => Grid.initializeCells (g.store p ((g.deref p).callSetState a_cell.state)) rest

/-- `Grid::resetCells`: `setState(DEAD)` on every cell (each call touches its own cell only). -/
def Grid.resetCells (g : Grid) : Grid :=
  { g with cells := g.cells.map (fun a_row => a_row.map (fun c => c.callSetState CellState.DEAD)) }

/-- The pointers visited by `for (a_row : cells) for (a_cell : a_row)`, in order. -/
def Grid.coords (g : Grid) : List (Nat × Nat) :=
  (List.range g.cells.length).flatMap
    (fun i => (List.range (g.cells.getD i []).length).map (fun j => (i, j)))

/-- One `a_cell->computeNextState()`: the cell reads the cells its neighbour pointers
refer to in the grid as it is at that moment. -/
def Grid.computeAt (g : Grid) (p : Nat × Nat) : Grid :=
  g.store p ((g.deref p).callComputeNextState ((g.deref p).neighbors.map g.deref))

/-- One `a_cell->update()`. -/
def Grid.commitAt (g : Grid) (p : Nat × Nat) : Grid :=
  g.store p (g.deref p).update

/-- The two loops of `Grid::updateCells`, the first visiting the cells in the order
`ord1` and the second in the order `ord2`. -/
def Grid.updateCellsIn (ord1 ord2 : List (Nat × Nat)) (g : Grid) : Grid :=
  ord2.foldl Grid.commitAt (ord1.foldl Grid.computeAt g)

/-- `Grid::updateCells`: both loops run over the matrix in row-major order. -/
def Grid.updateCells (g : Grid) : Grid :=
  let g1 := g.coords.foldl Grid.computeAt g
  g1.coords.foldl Grid.commitAt g1

/-- `Grid::getCell`; `none` if `cells.at` throws. -/
def Grid.getCell (g : Grid) (rowIdx colIdx : Int) : Option Cell :=
  (cellAt g.cells rowIdx colIdx).map g.deref

/-- The committed states of all cells, row by row. -/
def Grid.states (g : Grid) : List (List CellState) :=
  g.cells.map (fun a_row => a_row.map Cell.getState)

/-! ## Synchronous update in the words of the specification -/

/-- Whether a pointer refers to a cell of the grid. -/
def Grid.inRange (g : Grid) (p : Nat × Nat) : Prop :=
  p.1 < g.cells.length ∧ p.2 < (g.cells.getD p.1 []).length

instance (g : Grid) (p : Nat × Nat) : Decidable (g.inRange p) := by
  unfold Grid.inRange
  exact inferInstance

/-- The staged cell that `computeNextState` produces for the cell `c` when all its
neighbours are read from the grid `g`. -/
def Grid.nextCell (g : Grid) (c : Cell) : Cell :=
  c.callComputeNextState (c.neighbors.map g.deref)

/-- One synchronous generation: every cell is replaced by the result of its rule on the
states of the grid before the generation, then committed. -/
def Grid.synchronous (g : Grid) : Grid :=
  { g with cells := g.cells.map (fun a_row => a_row.map (fun c => (g.nextCell c).update)) }

/-- What `computeNextState` can observe of a neighbour through `isAlive()` and
`getState()`: its dynamic type and its committed state. -/
def Cell.obs (a : Cell) : CellClass × CellState := (a.cls, a.state)

/-- The result of `isAlive()` on a cell with the given dynamic type and state. -/
def aliveObs (o : CellClass × CellState) : Bool :=
  Cell.callIsAlive { cls := o.1, state := o.2 }

/-- Two cell records agree on everything except the staged fields `nextState`, `age` and
`color`. -/
def Cell.sameCore (x y : Cell) : Prop :=
  x.state = y.state ∧ x.cls = y.cls ∧ x.neighbors = y.neighbors ∧ x.b = y.b ∧ x.s = y.s

/-! ## The toroidal wiring in the words of the specification -/

/-- Whether an integer is a value of the 32-bit type `int`. -/
def isInt32 (x : Int) : Prop := -2 ^ 31 ≤ x ∧ x < 2 ^ 31

instance (x : Int) : Decidable (isInt32 x) := by
  unfold isInt32
  exact inferInstance

/-- A configuration the program can hold: `numRows` and `numCols` are `int` values and the
rule string is shorter than `2^31` characters (its indices are held in `int`s). -/
def GameConfig.valid (cfg : GameConfig) : Prop :=
  isInt32 cfg.numRows ∧ isInt32 cfg.numCols ∧ cfg.gameRule.length < 2 ^ 31

instance (cfg : GameConfig) : Decidable cfg.valid := by
  unfold GameConfig.valid
  exact inferInstance

/-- A seed entry whose `row` and `col` are `int` values. -/
def CellCoord.valid (a : CellCoord) : Prop := isInt32 a.row ∧ isInt32 a.col

instance (a : CellCoord) : Decidable a.valid := by
  unfold CellCoord.valid
  exact inferInstance

/-- The eight offsets `(di, dj)` of the Moore neighbourhood, in the order in which the
constructor fills `neighbor_index`. -/
def mooreOffsets : List (Int × Int) :=
  [(-1, -1), (0, -1), (1, -1), (-1, 0), (1, 0), (-1, 1), (0, 1), (1, 1)]

/-- The toroidal neighbours of `(i, j)` in a grid of `R` rows and `C` columns:
`((i + di) mod R, (j + dj) mod C)` for the eight offsets. -/
def torusNeighbors (R C i j : Nat) : List (Nat × Nat) :=
  mooreOffsets.map
    (fun d => ((((i : Int) + d.1) % (R : Int)).toNat, (((j : Int) + d.2) % (C : Int)).toNat))

/-- The grid the specification describes for a configuration: `numRows` rows of `numCols`
fresh cells of the configured variant, each wired to its eight toroidal neighbours. -/
def Grid.built (cfg : GameConfig) : Grid :=
  { config := cfg
    cells := (List.range cfg.numRows.toNat).map (fun i =>
      (List.range cfg.numCols.toNat).map (fun j =>
        { (newCell cfg).getD default with
          neighbors := torusNeighbors cfg.numRows.toNat cfg.numCols.toNat i j })) }

/-- The dynamic type of the cells of a grid in the given mode. -/
def classOf (mode : GameMode) : CellClass :=
  match mode with
  | GameMode.BASIC => CellClass.basic
  | GameMode.AGING => CellClass.aging
  | GameMode.RULE_BASED => CellClass.ruleBased
  | GameMode.CUSTOM => CellClass.custom

/-- The relation between a Basic grid and a RuleBased grid of rule `B3/S23` that hold the
same states: same shape, and at every pointer the same state and neighbour pointers, a
`Cell` on the left and a `Cell` or a `RuleBasedCell` with `b = [3]`, `s = [2, 3]` on the
right. -/
def BasicRuleSim (g g' : Grid) : Prop :=
  g.cells.map List.length = g'.cells.map List.length
  ∧ ∀ p, (g.deref p).state = (g'.deref p).state
      ∧ (g.deref p).neighbors = (g'.deref p).neighbors
      ∧ (g.deref p).cls = CellClass.basic
      ∧ ((g'.deref p).cls = CellClass.basic
          ∨ ((g'.deref p).cls = CellClass.ruleBased ∧ (g'.deref p).b = [3]
              ∧ (g'.deref p).s = [2, 3]))

/-- The configuration of a Basic grid of the given size. -/
def basicConfig (numRows numCols : Int) : GameConfig :=
  { numRows := numRows, numCols := numCols, gameMode := GameMode.BASIC }

/-- The configuration of a RuleBased grid of the given size and rule. -/
def ruleConfig (numRows numCols : Int) (rule : String) : GameConfig :=
  { numRows := numRows, numCols := numCols, gameMode := GameMode.RULE_BASED,
    gameRule := rule.toList }

/-- The states of a grid built from `cfg`, seeded with `coords` and advanced by `N` calls
of `updateCells`; `none` if the constructor or `initializeCells` throws. -/
def runStates (cfg : GameConfig) (coords : List CellCoord) (N : Nat) :
    Option (List (List CellState)) :=
  match Grid.new cfg with
  | none => none
  | some g =>
    match g.initializeCells coords with
    | none => none
    | some g1 => some (Grid.updateCells^[N] g1).states

/-! ## Seeding, restart and the configuration check -/

/-- A seed entry names a cell of the grid: `row` and `col` are non-negative and within
the matrix. -/
def Grid.inBounds (g : Grid) (a : CellCoord) : Prop :=
  0 ≤ a.row ∧ 0 ≤ a.col ∧ g.inRange (a.row.toNat, a.col.toNat)

instance (g : Grid) (a : CellCoord) : Decidable (g.inBounds a) := by
  unfold Grid.inBounds
  exact inferInstance

/-- The last entry of a seed list that names the cell `p`, if any. -/
def lastSeed (coords : List CellCoord) (p : Nat × Nat) : Option CellCoord :=
  coords.reverse.find? (fun a => decide (a.row = (p.1 : Int) ∧ a.col = (p.2 : Int)))

/-- The format check of `readConfigFile` on the rule string:
`gameRule[0] == 'B' && gameRule.find("/S") != npos` (`gameRule[0]` of the empty string is
the terminating `'\0'`). -/
def ruleAccepted (rule : List Char) : Bool :=
  rule.getD 0 (Char.ofNat 0) == 'B' && strFind rule ['/', 'S'] != npos

/-- The path of `main` from the values read by `readConfigFile` to the grid:
`readConfigFile` ends the program (`exit(1)`, here `none`) when the mode is `RULE_BASED` and
the rule string fails the format check; otherwise the `GameManager` constructor builds the
`Grid`. -/
def mainGrid (cfg : GameConfig) : Option Grid :=
  if cfg.gameMode = GameMode.RULE_BASED ∧ ruleAccepted cfg.gameRule = false then none
  else Grid.new cfg

/-- The restart of the driver (key `R`): `resetCells` followed by `initializeCells`. -/
def Grid.restart (g : Grid) (coords : List CellCoord) : Option Grid :=
  g.resetCells.initializeCells coords

/-- The seed entries that set the listed cells to the given state. -/
def seedsOf (state : CellState) (ps : List (Int × Int)) : List CellCoord :=
  ps.map (fun p => { row := p.1, col := p.2, state := state })

/-- The matrix of states with `ALIVE` at the listed cells and `DEAD` elsewhere. -/
def paint (R C : Nat) (alive : List (Nat × Nat)) : List (List CellState) :=
  (List.range R).map (fun i => (List.range C).map (fun j =>
    if (i, j) ∈ alive then CellState.ALIVE else CellState.DEAD))

/-- The glider of the specification's end-to-end scenario. -/
def glider : List (Nat × Nat) := [(0, 1), (1, 2), (2, 0), (2, 1), (2, 2)]

/-- A pattern translated by `(dr, dc)` on the 5 x 5 torus. -/
def shift5 (dr dc : Nat) (ps : List (Nat × Nat)) : List (Nat × Nat) :=
  ps.map (fun p => ((p.1 + dr) % 5, (p.2 + dc) % 5))

/-- The seed list that sets the cells of a pattern `ALIVE`. -/
def aliveSeeds (ps : List (Nat × Nat)) : List CellCoord :=
  ps.map (fun p => { row := (p.1 : Int), col := (p.2 : Int), state := CellState.ALIVE })

/-- A configuration of the given mode and size. -/
def modeConfig (mode : GameMode) (numRows numCols : Int) : GameConfig :=
  { numRows := numRows, numCols := numCols, gameMode := mode }

/-- The age invariant of an Aging cell: Dead with age 0, Alive with age 0, 1 or 2, or Old
with age 3. -/
def ageInv (c : Cell) : Prop :=
  (c.state = CellState.DEAD ∧ c.age = 0)
  ∨ (c.state = CellState.ALIVE ∧ 0 ≤ c.age ∧ c.age ≤ 2)
  ∨ (c.state = CellState.OLD ∧ c.age = 3)

instance (c : Cell) : Decidable (ageInv c) := by
  unfold ageInv
  exact inferInstance

/-- The grid after construction in Aging mode, `initializeCells(coords)` and `N` calls of
`updateCells`; `none` if the constructor or `initializeCells` throws. -/
def agingRun (numRows numCols : Int) (coords : List CellCoord) (N : Nat) : Option Grid :=
  match Grid.new (modeConfig GameMode.AGING numRows numCols) with
  | none => none
  | some g =>
    match g.initializeCells coords with
    | none => none
    | some g1 => some (Grid.updateCells^[N] g1)

/-- What the claim of synchrony lets the rule of a cell depend on, besides the states of
the neighbours: the cell with its staged `nextState` and its colour blanked out, that is its
dynamic type, committed state, age, neighbour pointers and rule lists. -/
def Cell.core (c : Cell) : Cell :=
  { c with nextState := CellState.DEAD, color := ALIVE_COLOR }

/-- The cores of all cells of a grid, row by row. -/
def Grid.cores (g : Grid) : List (List Cell) :=
  g.cells.map (fun a_row => a_row.map Cell.core)

/-- A seed list for the 3 x 3 grid that surrounds the cell `(1,1)` with two cells of each of
the states R, G, B and RG. -/
def tieSeeds : List CellCoord :=
  seedsOf CellState.R [(0, 0), (0, 1)] ++ seedsOf CellState.G [(0, 2), (1, 0)]
    ++ seedsOf CellState.B [(1, 2), (2, 0)] ++ seedsOf CellState.R_AND_G [(2, 1), (2, 2)]

/-- The freshly constructed 3 x 3 Custom grid after `initializeCells(tieSeeds)`. -/
def tieFresh : Option Grid :=
  (Grid.new (modeConfig GameMode.CUSTOM 3 3)).bind (fun g => g.initializeCells tieSeeds)

/-- The 3 x 3 Custom grid seeded with G at `(0,0)` and `(0,1)`, advanced by one
`updateCells`, then reset and seeded with `tieSeeds`. -/
def tieRestarted : Option Grid :=
  ((Grid.new (modeConfig GameMode.CUSTOM 3 3)).bind
      (fun g => g.initializeCells (seedsOf CellState.G [(0, 0), (0, 1)]))).bind
    (fun g => g.updateCells.restart tieSeeds)

/-! ## The custom rule in the words of the specification -/

/-- The seven producible states (R, G, B, RG, BR, GB, RGB), by increasing code. -/
def producibleStates : List CellState :=
  [CellState.R, CellState.G, CellState.B, CellState.R_AND_G, CellState.B_AND_R,
    CellState.G_AND_B, CellState.R_AND_G_AND_B]

/-- The tally of the producible state `k`: the number of neighbours in state `k`. -/
def tallyOf (nbrs : List Cell) (k : CellState) : Int :=
  (nbrs.countP (fun x => decide (x.state = k)) : Nat)

/-- Specification `maxCount`: the highest tally among the seven producible states. -/
def maxCountOf (nbrs : List Cell) : Int :=
  (producibleStates.map (tallyOf nbrs)).foldl max 0

/-- Specification `maxStates`: the producible states whose tally is `maxCount`. -/
def maxStatesOf (nbrs : List Cell) : List CellState :=
  producibleStates.filter (fun k => decide (tallyOf nbrs k = maxCountOf nbrs))

/-! ## The rule string in the words of the specification -/

/-- The value of a decimal digit character (`'0'` is 0, ..., `'9'` is 9). -/
def digitValue (ch : Char) : Int := ((ch.toNat - '0'.toNat : Nat) : Int)

/-- The rule string `"B" + d1 + "/S" + d2`. -/
def ruleString (d1 d2 : List Char) : List Char := 'B' :: (d1 ++ '/' :: 'S' :: d2)

/-! ## Theorems: the counting loop -/

theorem intWrap_of_range (x : Int) (h0 : -2 ^ 31 ≤ x) (h1 : x < 2 ^ 31) : intWrap x = x := by
  unfold intWrap
  omega

theorem intWrap_succ_three (a : Int) (h : isInt32 a) : intWrap (a + 1) = 3 ↔ a + 1 = 3 := by
  unfold isInt32 at h
  unfold intWrap
  omega

theorem liveCount_basic (nbrs : List Cell) (hn : ∀ x ∈ nbrs, x.cls = CellClass.basic) :
    liveCount nbrs = (nbrs.countP (fun x => decide (x.state = CellState.ALIVE)) : Nat) := by
  unfold liveCount
  congr 1
  apply List.countP_congr
  intro x hx
  simp [Cell.callIsAlive, hn x hx, Cell.isAlive]

theorem liveCount_ruleBased (nbrs : List Cell) (hn : ∀ x ∈ nbrs, x.cls = CellClass.ruleBased) :
    liveCount nbrs = (nbrs.countP (fun x => decide (x.state = CellState.ALIVE)) : Nat) := by
  unfold liveCount
  congr 1
  apply List.countP_congr
  intro x hx
  simp [Cell.callIsAlive, hn x hx, Cell.isAlive]

theorem liveCount_aging (nbrs : List Cell) (hn : ∀ x ∈ nbrs, x.cls = CellClass.aging) :
    liveCount nbrs
      = (nbrs.countP (fun x => decide (x.state = CellState.ALIVE ∨ x.state = CellState.OLD)) : Nat) := by
  unfold liveCount
  congr 1
  apply List.countP_congr
  intro x hx
  simp [Cell.callIsAlive, hn x hx, AgingCell.isAlive]

/-! ## Theorems: the Basic and RuleBased rules -/

theorem basic_isAlive_eq_true (c : Cell) : Cell.isAlive c = true ↔ c.state = 1 := by
  simp [Cell.isAlive]

theorem basic_isAlive_eq_false (c : Cell) : Cell.isAlive c = false ↔ c.state ≠ 1 := by
  simp [Cell.isAlive]

theorem aging_isAlive_eq_true (c : Cell) :
    AgingCell.isAlive c = true ↔ (c.state = 1 ∨ c.state = 2) := by
  simp [AgingCell.isAlive]

theorem aging_isAlive_eq_false (c : Cell) :
    AgingCell.isAlive c = false ↔ ¬ (c.state = 1 ∨ c.state = 2) := by
  simp [AgingCell.isAlive]

theorem basic_computeNextState_nextState (c : Cell) (nbrs : List Cell) :
    (Cell.computeNextState c nbrs).nextState =
      if c.callIsAlive = true ∧ liveCount nbrs < 2 then 0
      else if c.callIsAlive = true ∧ liveCount nbrs > 3 then 0
      else if c.callIsAlive = false ∧ liveCount nbrs = 3 then 1
      else c.state := by
  unfold Cell.computeNextState
  simp only []
  split_ifs <;> rfl

/-- C2: for a Basic cell whose neighbours are Basic cells, with `n` the number of
neighbours in state Alive, the state after `computeNextState` and `update` is Dead if the
cell was Alive and `n < 2` or `n > 3`, Alive if it was not Alive and `n = 3`, and
unchanged otherwise; so with `n = 3` it is Alive whatever the prior state, and a Dead
cell with `n ≤ 1` stays Dead. -/
theorem basic_rule (c : Cell) (nbrs : List Cell) (hc : c.cls = CellClass.basic)
    (hn : ∀ x ∈ nbrs, x.cls = CellClass.basic) :
    let n := nbrs.countP (fun x => decide (x.state = CellState.ALIVE))
    let after := (c.callComputeNextState nbrs).update.state
    (c.state = CellState.ALIVE → (n < 2 ∨ n > 3) → after = CellState.DEAD)
    ∧ (c.state ≠ CellState.ALIVE → n = 3 → after = CellState.ALIVE)
    ∧ (¬ (c.state = CellState.ALIVE ∧ (n < 2 ∨ n > 3)) → ¬ (c.state ≠ CellState.ALIVE ∧ n = 3)
        → after = c.state)
    ∧ (n = 3 → after = CellState.ALIVE)
    ∧ (c.state = CellState.DEAD → n ≤ 1 → after = CellState.DEAD) := by
  intro n after
  have hlive : liveCount nbrs = (n : Nat) := liveCount_basic nbrs hn
  have hafter : after = (Cell.computeNextState c nbrs).nextState := by
    simp [after, Cell.callComputeNextState, hc, Cell.update]
  rw [hafter, basic_computeNextState_nextState, hlive]
  simp only [Cell.callIsAlive, hc, basic_isAlive_eq_true, basic_isAlive_eq_false, CellState,
    CellState.ALIVE, CellState.DEAD]
  clear_value n
  refine ⟨?_, ?_, ?_, ?_, ?_⟩ <;> intros <;> split_ifs <;> omega

/-- C5: for a RuleBased cell with lists `b` (birth) and `s` (survive) whose neighbours are
RuleBased cells, with `n` the number of neighbours in state Alive: an Alive cell is Alive
after `computeNextState` and `update` iff `n` is in `s`, and a Dead cell is Alive after
them iff `n` is in `b`. -/
theorem rule_based_rule (c : Cell) (nbrs : List Cell) (hc : c.cls = CellClass.ruleBased)
    (hn : ∀ x ∈ nbrs, x.cls = CellClass.ruleBased) :
    let n : Int := (nbrs.countP (fun x => decide (x.state = CellState.ALIVE)) : Nat)
    let after := (c.callComputeNextState nbrs).update.state
    (c.state = CellState.ALIVE → (after = CellState.ALIVE ↔ n ∈ c.s))
    ∧ (c.state = CellState.DEAD → (after = CellState.ALIVE ↔ n ∈ c.b)) := by
  intro n after
  have hlive : liveCount nbrs = n := liveCount_ruleBased nbrs hn
  have hafter : after = (RuleBasedCell.computeNextState c nbrs).nextState := by
    simp [after, Cell.callComputeNextState, hc, Cell.update]
  rw [hafter]
  unfold RuleBasedCell.computeNextState
  simp only [hlive, Cell.callIsAlive, hc, basic_isAlive_eq_true, basic_isAlive_eq_false,
    Cell.getState]
  clear_value n
  constructor
  · intro hs
    by_cases hm : n ∈ c.s <;> simp [hs, hm]
  · intro hs
    by_cases hm : n ∈ c.b <;> simp [hs, hm]

/-! ## Theorems: the Aging rule -/

theorem aging_computeNextState_state_age (c : Cell) (nbrs : List Cell)
    (hc : c.cls = CellClass.aging) :
    (c.state = 1 → (liveCount nbrs < 2 ∨ liveCount nbrs > 3) →
        (AgingCell.computeNextState c nbrs).nextState = 0
        ∧ (AgingCell.computeNextState c nbrs).age = 0)
    ∧ (c.state = 1 → ¬ (liveCount nbrs < 2 ∨ liveCount nbrs > 3) →
        (AgingCell.computeNextState c nbrs).nextState
          = (if intWrap (c.age + 1) = 3 then 2 else 1)
        ∧ (AgingCell.computeNextState c nbrs).age = intWrap (c.age + 1))
    ∧ (c.state = 2 →
        (AgingCell.computeNextState c nbrs).nextState = 0
        ∧ (AgingCell.computeNextState c nbrs).age = 0)
    ∧ (¬ (c.state = 1 ∨ c.state = 2) → liveCount nbrs = 3 →
        (AgingCell.computeNextState c nbrs).nextState = (if c.age = 3 then 2 else 1)
        ∧ (AgingCell.computeNextState c nbrs).age = c.age)
    ∧ (¬ (c.state = 1 ∨ c.state = 2) → liveCount nbrs ≠ 3 →
        (AgingCell.computeNextState c nbrs).nextState = c.state
        ∧ (AgingCell.computeNextState c nbrs).age = (if c.state = 0 then 0 else c.age)) := by
  unfold AgingCell.computeNextState
  generalize liveCount nbrs = n
  obtain ⟨cls, color, state, nextState, neighbors, age, b, s⟩ := c
  simp only at hc
  subst hc
  dsimp only
  simp only [Cell.callIsAlive, AgingCell.isAlive, Cell.getState, CellState, CellState.ALIVE, CellState.DEAD,
    CellState.OLD]
  refine ⟨?_, ?_, ?_, ?_, ?_⟩
  · rintro rfl h
    rcases h with h | h
    · simp [h]
    · have : ¬ n < 2 := by omega
      simp [h, this]
  · rintro rfl h
    have h1 : ¬ n < 2 := by omega
    have h2 : ¬ n > 3 := by omega
    have h2' : ¬ 3 < n := by omega
    by_cases ha : intWrap (age + 1) = 3 <;> simp [h1, h2', ha]
  · rintro rfl
    by_cases h1 : n < 2
    · simp [h1]
    · by_cases h2 : 3 < n <;> simp [h1, h2]
  · intro hs hn
    subst hn
    obtain ⟨h1, h2⟩ := not_or.mp hs
    by_cases ha : age = 3 <;> simp [h1, h2, ha]
  · intro hs hn
    obtain ⟨h1, h2⟩ := not_or.mp hs
    by_cases h0 : state = 0
    · subst h0; simp [hn]
    · simp [h1, h2, h0, hn]

/-- C8: for an Aging cell with age `a` (an `int` value) whose neighbours are Aging cells,
with `n` the number of neighbours in state Alive or Old: an Alive cell is Dead after
`computeNextState` and `update` if `n < 2` or `n > 3`, and otherwise Old if `a + 1 = 3` and
Alive if not; an Old cell is Dead for every `n`; a Dead cell of age 0 is Alive if `n = 3` and
Dead otherwise; the age is `a + 1` when an Alive cell stays alive and `a + 1` is an `int`
value (`a + 1 < 2^31`), and 0 whenever the new state is Dead. -/
theorem aging_rule (c : Cell) (nbrs : List Cell) (hc : c.cls = CellClass.aging)
    (hn : ∀ x ∈ nbrs, x.cls = CellClass.aging) (ha : isInt32 c.age) :
    let n := nbrs.countP (fun x => decide (x.state = CellState.ALIVE ∨ x.state = CellState.OLD))
    let after := (c.callComputeNextState nbrs).update
    (c.state = CellState.ALIVE →
        ((n < 2 ∨ n > 3) → after.state = CellState.DEAD)
        ∧ (¬ (n < 2 ∨ n > 3) → c.age + 1 = 3 → after.state = CellState.OLD)
        ∧ (¬ (n < 2 ∨ n > 3) → c.age + 1 ≠ 3 → after.state = CellState.ALIVE)
        ∧ (after.state ≠ CellState.DEAD → c.age + 1 < 2 ^ 31 → after.age = c.age + 1))
    ∧ (c.state = CellState.OLD → after.state = CellState.DEAD)
    ∧ (c.state = CellState.DEAD → c.age = 0 →
        (n = 3 → after.state = CellState.ALIVE) ∧ (n ≠ 3 → after.state = CellState.DEAD))
    ∧ (after.state = CellState.DEAD → after.age = 0) := by
  intro n after
  have hlive : liveCount nbrs = (n : Nat) := liveCount_aging nbrs hn
  have hst : after.state = (AgingCell.computeNextState c nbrs).nextState := by
    simp [after, Cell.callComputeNextState, hc, Cell.update]
  have hage : after.age = (AgingCell.computeNextState c nbrs).age := by
    simp [after, Cell.callComputeNextState, hc, Cell.update]
  rw [hst, hage]
  obtain ⟨k1, k2, k3, k4, k5⟩ := aging_computeNextState_state_age c nbrs hc
  rw [hlive] at k1 k2 k4 k5
  have hw3 := intWrap_succ_three c.age ha
  clear_value n
  clear hst hage hlive after
  generalize (AgingCell.computeNextState c nbrs).nextState = ns at *
  generalize (AgingCell.computeNextState c nbrs).age = na at *
  have e1 : (n < 2 ∨ n > 3) ↔ ((n : Int) < 2 ∨ (n : Int) > 3) := by omega
  have e3 : n = 3 ↔ (n : Int) = 3 := by omega
  simp only [CellState.ALIVE, CellState.DEAD, CellState.OLD]
  refine ⟨fun hs => ⟨?_, ?_, ?_, ?_⟩, ?_, ?_, ?_⟩
  · intro h
    exact (k1 hs (e1.mp h)).1
  · intro h ha3
    have := (k2 hs (fun h' => h (e1.mpr h'))).1
    rw [if_pos (hw3.mpr ha3)] at this
    exact this
  · intro h ha3
    have := (k2 hs (fun h' => h (e1.mpr h'))).1
    rw [if_neg (fun h' => ha3 (hw3.mp h'))] at this
    exact this
  · intro hne hmax
    by_cases h : ((n : Int) < 2 ∨ (n : Int) > 3)
    · exact absurd (k1 hs h).1 hne
    · rw [(k2 hs h).2]
      exact intWrap_of_range _ (by unfold isInt32 at ha; omega) hmax
  · intro hs
    exact (k3 hs).1
  · intro hs ha0
    have hno : ¬ (c.state = 1 ∨ c.state = 2) := by
      rw [hs]; decide
    have ha3 : ¬ c.age = 3 := by rw [ha0]; decide
    constructor
    · intro h
      have := (k4 hno (e3.mp h)).1
      simpa [ha3] using this
    · intro h
      have := (k5 hno (fun h' => h (e3.mpr h'))).1
      rw [this]; exact hs
  · intro hd
    by_cases h1 : c.state = 1
    · by_cases h : ((n : Int) < 2 ∨ (n : Int) > 3)
      · exact (k1 h1 h).2
      · have := (k2 h1 h).1
        rw [hd] at this
        split_ifs at this <;> simp at this
    · by_cases h2 : c.state = 2
      · exact (k3 h2).2
      · have hno : ¬ (c.state = 1 ∨ c.state = 2) := not_or.mpr ⟨h1, h2⟩
        by_cases h : (n : Int) = 3
        · have := (k4 hno h).1
          rw [hd] at this
          split_ifs at this <;> simp at this
        · obtain ⟨q1, q2⟩ := k5 hno h
          rw [hd] at q1
          rw [q2, ← q1]; simp

theorem aging_rule_witness :
    (∀ x ∈ (List.replicate 3 ({ cls := CellClass.aging, state := CellState.OLD } : Cell)
              ++ List.replicate 5 ({ cls := CellClass.aging } : Cell)),
        x.cls = CellClass.aging)
    ∧ isInt32 (({ cls := CellClass.aging, state := CellState.ALIVE, age := 1 } : Cell).age)
    ∧ (Cell.callComputeNextState ({ cls := CellClass.aging, state := CellState.ALIVE, age := 1 } : Cell)
        (List.replicate 3 ({ cls := CellClass.aging, state := CellState.OLD } : Cell)
          ++ List.replicate 5 ({ cls := CellClass.aging } : Cell))).update.state = CellState.ALIVE
    ∧ (Cell.callComputeNextState ({ cls := CellClass.aging, state := CellState.ALIVE, age := 1 } : Cell)
        (List.replicate 3 ({ cls := CellClass.aging, state := CellState.OLD } : Cell)
          ++ List.replicate 5 ({ cls := CellClass.aging } : Cell))).update.age = 1 + 1 :=
  ⟨by decide, by decide,
   ((aging_rule { cls := CellClass.aging, state := CellState.ALIVE, age := 1 }
      (List.replicate 3 ({ cls := CellClass.aging, state := CellState.OLD } : Cell)
        ++ List.replicate 5 ({ cls := CellClass.aging } : Cell)) rfl (by decide) (by decide)).1
        rfl).2.2.1 (by decide) (by decide),
   ((aging_rule { cls := CellClass.aging, state := CellState.ALIVE, age := 1 }
      (List.replicate 3 ({ cls := CellClass.aging, state := CellState.OLD } : Cell)
        ++ List.replicate 5 ({ cls := CellClass.aging } : Cell)) rfl (by decide) (by decide)).1
        rfl).2.2.2 (by decide) (by decide)⟩

theorem basic_rule_witness :
    (∀ x ∈ (List.replicate 3 ({ cls := CellClass.basic, state := CellState.ALIVE } : Cell)
              ++ List.replicate 5 ({ cls := CellClass.basic } : Cell)),
        x.cls = CellClass.basic)
    ∧ (Cell.callComputeNextState ({ cls := CellClass.basic } : Cell)
        (List.replicate 3 ({ cls := CellClass.basic, state := CellState.ALIVE } : Cell)
          ++ List.replicate 5 ({ cls := CellClass.basic } : Cell))).update.state = CellState.ALIVE :=
  ⟨by decide,
   (basic_rule { cls := CellClass.basic }
      (List.replicate 3 ({ cls := CellClass.basic, state := CellState.ALIVE } : Cell)
        ++ List.replicate 5 ({ cls := CellClass.basic } : Cell)) rfl (by decide)).2.2.2.1
      (by decide)⟩

theorem rule_based_rule_witness :
    (∀ x ∈ (List.replicate 2 ({ cls := CellClass.ruleBased, state := CellState.ALIVE } : Cell)
              ++ List.replicate 6 ({ cls := CellClass.ruleBased } : Cell)),
        x.cls = CellClass.ruleBased)
    ∧ (Cell.callComputeNextState
        ({ cls := CellClass.ruleBased, state := CellState.ALIVE, b := [3], s := [2, 3] } : Cell)
        (List.replicate 2 ({ cls := CellClass.ruleBased, state := CellState.ALIVE } : Cell)
          ++ List.replicate 6 ({ cls := CellClass.ruleBased } : Cell))).update.state
        = CellState.ALIVE :=
  ⟨by decide,
   ((rule_based_rule { cls := CellClass.ruleBased, state := CellState.ALIVE, b := [3], s := [2, 3] }
      (List.replicate 2 ({ cls := CellClass.ruleBased, state := CellState.ALIVE } : Cell)
        ++ List.replicate 6 ({ cls := CellClass.ruleBased } : Cell)) rfl (by decide)).1 rfl).2
      (by decide)⟩

/-! ## Theorems: the lcm and the dictionary of the custom cell -/

theorem mod_add_le_of_le (x y : Nat) (h : y ≤ x) : x % y + y ≤ x := by
  have h1 : x % y = (x - y) % y := Nat.mod_eq_sub_mod h
  have h2 : (x - y) % y ≤ x - y := Nat.mod_le _ _
  omega

theorem lcmLoop_natCast (fuel : Nat) : ∀ (x y : Nat), x + y + 1 ≤ fuel →
    CustomCell.lcmLoop fuel (x : Int) (y : Int) = some ((Nat.gcd x y : Nat) : Int) := by
  induction fuel with
  | zero => intro x y h; omega
  | succ fuel ih =>
    intro x y h
    unfold CustomCell.lcmLoop
    by_cases hy : y = 0
    · subst hy
      simp
    · have hy' : ¬ ((y : Int) = 0) := by exact_mod_cast hy
      simp only [ne_eq, hy', not_false_eq_true, if_true]
      by_cases hxy : (x : Int) < (y : Int)
      · have hxy' : x < y := by exact_mod_cast hxy
        simp only [hxy, if_true]
        by_cases hx : x = 0
        · subst hx
          simp only [Nat.cast_zero, not_true_eq_false, if_false]
          obtain ⟨f, rfl⟩ : ∃ f, fuel = f + 1 := ⟨fuel - 1, by omega⟩
          simp [CustomCell.lcmLoop]
        · have hx' : ¬ ((x : Int) = 0) := by exact_mod_cast hx
          simp only [hx', not_false_eq_true, if_true]
          have hmod : Int.tmod (y : Int) (x : Int) = ((y % x : Nat) : Int) := by
            rw [Int.tmod_eq_emod (by positivity) (by positivity)]
            norm_cast
          rw [hmod]
          have hle := mod_add_le_of_le y x (le_of_lt hxy')
          rw [ih (y % x) x (by omega), Nat.gcd_rec x y]
      · have hxy' : y ≤ x := by
          have : (y : Int) ≤ (x : Int) := not_lt.mp hxy
          exact_mod_cast this
        simp only [hxy, if_false, hy', not_false_eq_true, if_true]
        have hmod : Int.tmod (x : Int) (y : Int) = ((x % y : Nat) : Int) := by
          rw [Int.tmod_eq_emod (by positivity) (by positivity)]
          norm_cast
        rw [hmod]
        have hle := mod_add_le_of_le x y hxy'
        rw [ih (x % y) y (by omega), Nat.gcd_comm x y, Nat.gcd_rec y x]

theorem lcm_isSome_of_pos (m n : Int) (hm : 0 < m) (hn : 0 < n) :
    (CustomCell.lcm m n).isSome = true := by
  obtain ⟨x, rfl⟩ := Int.eq_ofNat_of_zero_le (le_of_lt hm)
  obtain ⟨y, rfl⟩ := Int.eq_ofNat_of_zero_le (le_of_lt hn)
  have hx : 0 < x := by exact_mod_cast hm
  unfold CustomCell.lcm
  rw [lcmLoop_natCast _ x y (by simp)]
  have hg : 0 < Nat.gcd x y := Nat.gcd_pos_of_pos_left y hx
  have hg' : ¬ (((Nat.gcd x y : Nat) : Int) = 0) := by
    have : Nat.gcd x y ≠ 0 := by omega
    exact_mod_cast this
  simp only [hg', if_false, Option.isSome_some]

theorem lcm_eq_of_pos (m n : Int) (hm : 0 < m) (hn : 0 < n) (hmn : m * n < 2 ^ 31) :
    CustomCell.lcm m n = some ((Int.lcm m n : Nat) : Int) := by
  have hw : intWrap (m * n) = m * n :=
    intWrap_of_range _ (by have := mul_pos hm hn; omega) hmn
  obtain ⟨x, rfl⟩ := Int.eq_ofNat_of_zero_le (le_of_lt hm)
  obtain ⟨y, rfl⟩ := Int.eq_ofNat_of_zero_le (le_of_lt hn)
  have hx : 0 < x := by exact_mod_cast hm
  have hy : 0 < y := by exact_mod_cast hn
  unfold CustomCell.lcm
  rw [lcmLoop_natCast _ x y (by simp), hw]
  have hg : 0 < Nat.gcd x y := Nat.gcd_pos_of_pos_left y hx
  have hg' : ¬ (((Nat.gcd x y : Nat) : Int) = 0) := by
    have : Nat.gcd x y ≠ 0 := by omega
    exact_mod_cast this
  simp only [hg', if_false]
  rw [Int.tdiv_eq_ediv (by positivity) (by positivity)]
  simp only [Option.some.injEq]
  have h1 : Int.lcm (x : Int) (y : Int) = Nat.lcm x y := by
    simp [Int.lcm]
  rw [h1]
  have h2 : Nat.gcd x y * Nat.lcm x y = x * y := Nat.gcd_mul_lcm x y
  have h3 : ((x : Int) * (y : Int)) = ((Nat.gcd x y : Nat) : Int) * ((Nat.lcm x y : Nat) : Int) := by
    exact_mod_cast h2.symm
  rw [h3, Int.mul_ediv_cancel_left _ hg']


theorem initDict_eq : CustomCell.initDict = producibleStates.map (fun k => (k, (0 : Int))) := by
  decide

theorem incr_producible (f : CellState → Int) (s : CellState) (hs : s ∈ producibleStates) :
    Dict.incr (producibleStates.map (fun k => (k, f k))) s
      = producibleStates.map (fun k => (k, if k = s then f k + 1 else f k)) := by
  simp only [producibleStates, List.mem_cons, List.mem_singleton, List.not_mem_nil, or_false] at hs
  rcases hs with rfl | rfl | rfl | rfl | rfl | rfl | rfl <;>
    simp [producibleStates, Dict.incr, CellState.R, CellState.G, CellState.B, CellState.R_AND_G,
      CellState.G_AND_B, CellState.B_AND_R, CellState.R_AND_G_AND_B]

theorem custom_counts_iff (x : Cell) (hx : x.cls = CellClass.custom) :
    (x.callIsAlive = true ∧ x.getState ≠ CellState.OLD) ↔ x.state ∈ producibleStates := by
  simp only [Cell.callIsAlive, hx, CustomCell.isAlive, Cell.getState, producibleStates,
    List.mem_cons, List.mem_singleton, List.not_mem_nil, or_false, CellState.R, CellState.G,
    CellState.B, CellState.R_AND_G, CellState.G_AND_B, CellState.B_AND_R,
    CellState.R_AND_G_AND_B, CellState.OLD, CellState]
  constructor
  · rintro ⟨h1, h2⟩
    simp only [ite_eq_left_iff, Bool.false_eq_true, imp_false, not_not] at h1
    omega
  · intro h
    constructor
    · simp only [ite_eq_left_iff, Bool.false_eq_true, imp_false, not_not]
      omega
    · omega

theorem tallyOf_cons (a : Cell) (rest : List Cell) (k : CellState) :
    tallyOf (a :: rest) k = tallyOf rest k + (if a.state = k then 1 else 0) := by
  unfold tallyOf
  rw [List.countP_cons]
  by_cases h : a.state = k <;> simp [h]

theorem tally_fold_eq (nbrs : List Cell) (hn : ∀ x ∈ nbrs, x.cls = CellClass.custom) :
    ∀ f : CellState → Int,
      nbrs.foldl
        (fun dict a_cell =>
          if a_cell.callIsAlive = true ∧ a_cell.getState ≠ CellState.OLD then
            Dict.incr dict a_cell.getState
          else dict)
        (producibleStates.map (fun k => (k, f k)))
      = producibleStates.map (fun k => (k, f k + tallyOf nbrs k)) := by
  induction nbrs with
  | nil => intro f; simp [tallyOf]
  | cons a rest ih =>
    intro f
    have ha : a.cls = CellClass.custom := hn a (List.mem_cons_self _ _)
    have hrest : ∀ x ∈ rest, x.cls = CellClass.custom :=
      fun x hx => hn x (List.mem_cons_of_mem _ hx)
    rw [List.foldl_cons]
    by_cases hc : a.callIsAlive = true ∧ a.getState ≠ CellState.OLD
    · have hmem : a.state ∈ producibleStates := (custom_counts_iff a ha).mp hc
      rw [if_pos hc]
      have e : a.getState = a.state := rfl
      rw [e, incr_producible f a.state hmem, ih hrest]
      apply List.map_congr_left
      intro k _
      rw [tallyOf_cons]
      by_cases hk : k = a.state
      · subst hk; simp; ring
      · have hk' : ¬ a.state = k := fun h => hk h.symm
        simp [hk, hk']
    · have hmem : a.state ∉ producibleStates := fun h => hc ((custom_counts_iff a ha).mpr h)
      rw [if_neg hc, ih hrest]
      apply List.map_congr_left
      intro k hk
      rw [tallyOf_cons]
      have hk' : ¬ a.state = k := fun h => hmem (h ▸ hk)
      simp [hk']

theorem tally_eq (nbrs : List Cell) (hn : ∀ x ∈ nbrs, x.cls = CellClass.custom) :
    CustomCell.tally nbrs = producibleStates.map (fun k => (k, tallyOf nbrs k)) := by
  unfold CustomCell.tally
  rw [initDict_eq, tally_fold_eq nbrs hn (fun _ => 0)]
  simp

theorem maxFold_eq (t : CellState → Int) (l : List CellState) :
    ∀ m : Int, (l.map (fun k => (k, t k))).foldl (fun m it => if it.2 > m then it.2 else m) m
      = (l.map t).foldl max m := by
  induction l with
  | nil => intro m; rfl
  | cons k rest ih =>
    intro m
    simp only [List.map_cons, List.foldl_cons]
    rw [ih]
    congr 1
    rw [max_def]
    split_ifs <;> omega

theorem filterKeys_eq (t : CellState → Int) (v : Int) (l : List CellState) :
    ((l.map (fun k => (k, t k))).filter (fun it => it.2 == v)).map Prod.fst
      = l.filter (fun k => decide (t k = v)) := by
  induction l with
  | nil => rfl
  | cons k rest ih =>
    simp only [List.map_cons, List.filter_cons]
    by_cases h : t k = v
    · simp [h, ih]
    · simp [h, ih]

/-- The dictionary scan of the source computes the `maxCount` and `maxStates` of the
specification when the neighbours are Custom cells. -/
theorem maxDict_tally_eq (nbrs : List Cell) (hn : ∀ x ∈ nbrs, x.cls = CellClass.custom) :
    CustomCell.maxDict (CustomCell.tally nbrs) = (maxCountOf nbrs, maxStatesOf nbrs) := by
  rw [tally_eq nbrs hn]
  unfold CustomCell.maxDict maxCountOf maxStatesOf
  simp only []
  rw [maxFold_eq, filterKeys_eq]
  rfl

/-! ## Theorems: the three branches of the custom rule -/

theorem producible_alive (c : Cell) (hc : c.cls = CellClass.custom)
    (hp : c.state ∈ producibleStates) :
    c.callIsAlive = true ∧ CustomCell.isProducable c = true ∧ c.state ≠ 0 := by
  simp only [producibleStates, List.mem_cons, List.mem_singleton, List.not_mem_nil, or_false] at hp
  simp only [Cell.callIsAlive, hc, CustomCell.isAlive, CustomCell.isProducable, Cell.getState]
  rcases hp with h | h | h | h | h | h | h <;> simp only [h] <;> decide

theorem custom_compute_producible (c : Cell) (nbrs : List Cell) (hc : c.cls = CellClass.custom)
    (hp : c.state ∈ producibleStates) :
    let mc := (CustomCell.maxDict (CustomCell.tally nbrs)).1
    let ms := (CustomCell.maxDict (CustomCell.tally nbrs)).2
    ((mc ≤ 1 ∨ mc > 4 ∨ c.state ∉ ms) →
        (CustomCell.computeNextState c nbrs).nextState = 0
        ∧ (CustomCell.computeNextState c nbrs).age = 0)
    ∧ (¬ (mc ≤ 1 ∨ mc > 4 ∨ c.state ∉ ms) →
        (CustomCell.computeNextState c nbrs).nextState = (if c.age + 1 = 3 then 2 else c.state)
        ∧ (CustomCell.computeNextState c nbrs).age = c.age + 1) := by
  intro mc ms
  obtain ⟨ha, hpr, hne⟩ := producible_alive c hc hp
  have hmc : (CustomCell.maxDict (CustomCell.tally nbrs)).1 = mc := rfl
  have hms : (CustomCell.maxDict (CustomCell.tally nbrs)).2 = ms := rfl
  clear_value mc ms
  unfold CustomCell.computeNextState
  simp only [ha, hpr, if_true, Cell.getState, hmc, hms, CellState.DEAD, CellState.OLD]
  constructor
  · intro h
    by_cases h1 : mc ≤ 1
    · simp [h1]
    · by_cases h4 : mc > 4
      · have h4' : ¬ mc ≤ 4 := by omega
        simp [h1, h4, h4']
      · have hmem : c.state ∉ ms := by
          rcases h with h | h | h
          · exact absurd h h1
          · exact absurd h h4
          · exact h
        have h4' : mc ≤ 4 := by omega
        have h1' : 1 < mc := by omega
        simp [h1, h1', h4', hmem]
  · intro h
    have h1 : ¬ mc ≤ 1 := fun h' => h (Or.inl h')
    have h4 : ¬ mc > 4 := fun h' => h (Or.inr (Or.inl h'))
    have hmem : c.state ∈ ms := by
      by_contra h'
      exact h (Or.inr (Or.inr h'))
    have h4' : mc ≤ 4 := by omega
    have h1' : 1 < mc := by omega
    have hne' : ¬ c.state = 0 := hne
    by_cases ha3 : c.age + 1 = 3
    · simp [h1, h1', h4', hmem, hne', ha3]
    · simp [h1, h1', h4', hmem, hne', ha3]

theorem custom_compute_old (c : Cell) (nbrs : List Cell) (hc : c.cls = CellClass.custom)
    (hs : c.state = CellState.OLD) :
    (CustomCell.computeNextState c nbrs).nextState = 0
    ∧ (CustomCell.computeNextState c nbrs).age = 0 := by
  have ha : c.callIsAlive = true := by
    simp [Cell.callIsAlive, hc, CustomCell.isAlive, Cell.getState, hs]
  have hpr : CustomCell.isProducable c = false := by
    simp only [CustomCell.isProducable, Cell.getState, hs]
    decide
  unfold CustomCell.computeNextState
  simp [ha, hpr]

theorem custom_compute_age (c : Cell) (nbrs : List Cell) :
    (CustomCell.computeNextState c nbrs).nextState = 0 →
      (CustomCell.computeNextState c nbrs).age = 0 := by
  unfold CustomCell.computeNextState
  lift_lets
  intro dict max_amount maxStates c1 c2 c3 d1 d2 c5
  clear_value c5
  by_cases h : c5.nextState = CellState.DEAD
  · simp [h]
  · simp only [h, if_false]
    exact False.elim


theorem custom_compute_dead (c : Cell) (nbrs : List Cell) (hc : c.cls = CellClass.custom)
    (hd : c.state = CellState.DEAD) :
    let mc := (CustomCell.maxDict (CustomCell.tally nbrs)).1
    let ms := (CustomCell.maxDict (CustomCell.tally nbrs)).2
    ((mc = 2 ∨ mc = 3) →
        (ms.length = 1 → (CustomCell.computeNextState c nbrs).nextState = ms.getD 0 0)
        ∧ (ms.length = 2 → (CustomCell.computeNextState c nbrs).nextState
              = (CustomCell.lcm (ms.getD 0 0) (ms.getD 1 0)).getD c.nextState))
    ∧ (¬ (mc = 2 ∨ mc = 3) → (CustomCell.computeNextState c nbrs).nextState = 0) := by
  intro mc ms
  have ha : c.callIsAlive = false := by
    simp only [Cell.callIsAlive, hc, CustomCell.isAlive, Cell.getState, hd]
    decide
  have hmc : (CustomCell.maxDict (CustomCell.tally nbrs)).1 = mc := rfl
  have hms : (CustomCell.maxDict (CustomCell.tally nbrs)).2 = ms := rfl
  clear_value mc ms
  unfold CustomCell.computeNextState
  simp only [ha, Bool.false_eq_true, if_false, Cell.getState, hmc, hms, CellState.DEAD]
  refine ⟨fun h => ⟨fun h1 => ?_, fun h2 => ?_⟩, fun h => ?_⟩
  · have e : ¬ ((1 : Nat) = 2) := by decide
    simp only [h, h1, e, if_true, if_false]
    split_ifs <;> rfl
  · have e : ¬ ((2 : Nat) = 1) := by decide
    simp only [h, h2, e, if_true, if_false]
    split_ifs <;> rfl
  · simp only [h, if_false]
    split_ifs with h0
    · exact h0
    · exact absurd hd h0

theorem eq_singleton_of_mem_iff (l : List CellState) (A : CellState) (hl : l.Nodup)
    (h : ∀ k, k ∈ l ↔ k = A) : l = [A] := by
  have hp : l.Perm [A] :=
    (List.perm_ext_iff_of_nodup hl (List.nodup_singleton A)).mpr (fun k => by simp [h k])
  exact List.perm_singleton.mp hp

theorem eq_pair_of_mem_iff (l : List CellState) (A B : CellState) (hl : l.Nodup) (hAB : A ≠ B)
    (h : ∀ k, k ∈ l ↔ (k = A ∨ k = B)) : l = [A, B] ∨ l = [B, A] := by
  have hn : [A, B].Nodup := by simp [hAB]
  have hp : l.Perm [A, B] :=
    (List.perm_ext_iff_of_nodup hl hn).mpr (fun k => by simp [h k])
  have hlen : l.length = 2 := by simpa using hp.length_eq
  match l, hlen with
  | [x, y], _ =>
    have hx : x = A ∨ x = B := (h x).mp (by simp)
    have hy : y = A ∨ y = B := (h y).mp (by simp)
    have hxy : x ≠ y := by
      intro e
      subst e
      simp at hl
    rcases hx with rfl | rfl <;> rcases hy with rfl | rfl
    · exact absurd rfl hxy
    · exact Or.inl rfl
    · exact Or.inr rfl
    · exact absurd rfl hxy

theorem producible_pos (k : CellState) (hk : k ∈ producibleStates) : 0 < k := by
  simp only [producibleStates, List.mem_cons, List.mem_singleton, List.not_mem_nil, or_false] at hk
  rcases hk with rfl | rfl | rfl | rfl | rfl | rfl | rfl <;> decide

theorem producible_le (k : CellState) (hk : k ∈ producibleStates) : k ≤ 60 := by
  simp only [producibleStates, List.mem_cons, List.mem_singleton, List.not_mem_nil, or_false] at hk
  rcases hk with rfl | rfl | rfl | rfl | rfl | rfl | rfl <;> decide

theorem product_small (A B : Int) (hB0 : 0 < B) (hA : A ≤ 60) (hB : B ≤ 60) :
    A * B < 2 ^ 31 := by
  have : A * B ≤ 60 * 60 := mul_le_mul hA hB (le_of_lt hB0) (by omega)
  omega

theorem maxStatesOf_nodup (nbrs : List Cell) : (maxStatesOf nbrs).Nodup := by
  unfold maxStatesOf
  apply List.Nodup.filter
  decide

theorem maxStatesOf_subset (nbrs : List Cell) (k : CellState) (hk : k ∈ maxStatesOf nbrs) :
    k ∈ producibleStates := by
  unfold maxStatesOf at hk
  exact (List.mem_filter.mp hk).1

/-! ## Theorems: survival and birth of the custom cell -/

/-- C9: for a Custom cell among Custom neighbours, with `maxCount` the highest tally of a
producible state among the neighbours and `maxStates` the states reaching it: a cell in a
producible state `s` with age `a` is Dead after `computeNextState` and `update` if
`maxCount ≤ 1` or `maxCount > 4` or `s` is not in `maxStates`, and otherwise Old if
`a + 1 = 3` and `s` if not; a cell in state Old is Dead afterwards; and the age is 0
whenever the new state is Dead. -/
theorem custom_survival (c : Cell) (nbrs : List Cell) (hc : c.cls = CellClass.custom)
    (hn : ∀ x ∈ nbrs, x.cls = CellClass.custom) :
    let maxCount := maxCountOf nbrs
    let maxStates := maxStatesOf nbrs
    let after := (c.callComputeNextState nbrs).update
    (c.state ∈ producibleStates →
        ((maxCount ≤ 1 ∨ maxCount > 4 ∨ c.state ∉ maxStates) → after.state = CellState.DEAD)
        ∧ (¬ (maxCount ≤ 1 ∨ maxCount > 4 ∨ c.state ∉ maxStates) → c.age + 1 = 3 →
            after.state = CellState.OLD)
        ∧ (¬ (maxCount ≤ 1 ∨ maxCount > 4 ∨ c.state ∉ maxStates) → c.age + 1 ≠ 3 →
            after.state = c.state))
    ∧ (c.state = CellState.OLD → after.state = CellState.DEAD)
    ∧ (after.state = CellState.DEAD → after.age = 0) := by
  intro maxCount maxStates after
  have hst : after.state = (CustomCell.computeNextState c nbrs).nextState := by
    simp [after, Cell.callComputeNextState, hc, Cell.update]
  have hage : after.age = (CustomCell.computeNextState c nbrs).age := by
    simp [after, Cell.callComputeNextState, hc, Cell.update]
  have hmd := maxDict_tally_eq nbrs hn
  rw [hst, hage]
  refine ⟨fun hp => ?_, fun ho => (custom_compute_old c nbrs hc ho).1,
    custom_compute_age c nbrs⟩
  have key := custom_compute_producible c nbrs hc hp
  simp only [hmd] at key
  obtain ⟨k1, k2⟩ := key
  refine ⟨fun h => (k1 h).1, fun h ha => ?_, fun h ha => ?_⟩
  · rw [(k2 h).1, if_pos ha]
  · rw [(k2 h).1, if_neg ha]

/-- C10: for a Dead Custom cell among Custom neighbours, with `maxCount` and `maxStates` as
in the specification: when `maxCount` is 2 or 3, the cell is, after `computeNextState` and
`update`, in state `A` if `A` is the only state in `maxStates`, and in the state of code
`lcm(A, B)` (which `CustomCell::lcm` returns) if `A` and `B` are the two states in
`maxStates`; when `maxCount` is not 2 or 3 it stays Dead.  Three R neighbours give R, and
two R with two G neighbours give RG = 12. -/
theorem custom_birth (c : Cell) (nbrs : List Cell) (hc : c.cls = CellClass.custom)
    (hn : ∀ x ∈ nbrs, x.cls = CellClass.custom) (hd : c.state = CellState.DEAD) :
    let maxCount := maxCountOf nbrs
    let maxStates := maxStatesOf nbrs
    let after := (c.callComputeNextState nbrs).update
    ((maxCount = 2 ∨ maxCount = 3) →
        (∀ A, (∀ k, k ∈ maxStates ↔ k = A) → after.state = A)
        ∧ (∀ A B, A ≠ B → (∀ k, k ∈ maxStates ↔ (k = A ∨ k = B)) →
            CustomCell.lcm A B = some ((Int.lcm A B : Nat) : Int)
            ∧ after.state = ((Int.lcm A B : Nat) : Int)))
    ∧ (¬ (maxCount = 2 ∨ maxCount = 3) → after.state = CellState.DEAD)
    ∧ (Cell.callComputeNextState ({ cls := CellClass.custom } : Cell)
          (List.replicate 3 ({ cls := CellClass.custom, state := CellState.R } : Cell)
            ++ List.replicate 5 ({ cls := CellClass.custom } : Cell))).update.state = CellState.R
    ∧ (Cell.callComputeNextState ({ cls := CellClass.custom } : Cell)
          (List.replicate 2 ({ cls := CellClass.custom, state := CellState.R } : Cell)
            ++ List.replicate 2 ({ cls := CellClass.custom, state := CellState.G } : Cell)
            ++ List.replicate 4 ({ cls := CellClass.custom } : Cell))).update.state
        = CellState.R_AND_G := by
  intro maxCount maxStates after
  have hst : after.state = (CustomCell.computeNextState c nbrs).nextState := by
    simp [after, Cell.callComputeNextState, hc, Cell.update]
  have hmd := maxDict_tally_eq nbrs hn
  have key := custom_compute_dead c nbrs hc hd
  simp only [hmd] at key
  obtain ⟨k1, k2⟩ := key
  rw [hst]
  refine ⟨fun h => ⟨fun A hA => ?_, fun A B hAB hmem => ?_⟩, fun h => k2 h, by decide, by decide⟩
  · have e : maxStatesOf nbrs = [A] :=
      eq_singleton_of_mem_iff _ A (maxStatesOf_nodup nbrs) hA
    have := (k1 h).1 (by rw [e]; rfl)
    rw [this, e]; rfl
  · have hApos : 0 < A :=
      producible_pos A (maxStatesOf_subset nbrs A ((hmem A).mpr (Or.inl rfl)))
    have hBpos : 0 < B :=
      producible_pos B (maxStatesOf_subset nbrs B ((hmem B).mpr (Or.inr rfl)))
    have hAB1 : A * B < 2 ^ 31 := product_small A B hBpos
      (producible_le A (maxStatesOf_subset nbrs A ((hmem A).mpr (Or.inl rfl))))
      (producible_le B (maxStatesOf_subset nbrs B ((hmem B).mpr (Or.inr rfl))))
    have hBA1 : B * A < 2 ^ 31 := by rw [mul_comm]; exact hAB1
    refine ⟨lcm_eq_of_pos A B hApos hBpos hAB1, ?_⟩
    rcases eq_pair_of_mem_iff _ A B (maxStatesOf_nodup nbrs) hAB hmem with e | e
    · have := (k1 h).2 (by rw [e]; rfl)
      rw [this, e]
      simp only [List.getD_cons_zero, List.getD_cons_succ]
      rw [lcm_eq_of_pos A B hApos hBpos hAB1]; rfl
    · have := (k1 h).2 (by rw [e]; rfl)
      rw [this, e]
      simp only [List.getD_cons_zero, List.getD_cons_succ]
      rw [lcm_eq_of_pos B A hBpos hApos hBA1, Int.lcm_comm]; rfl

theorem custom_survival_witness :
    (∀ x ∈ (List.replicate 2 ({ cls := CellClass.custom, state := CellState.R } : Cell)
              ++ List.replicate 6 ({ cls := CellClass.custom } : Cell)),
        x.cls = CellClass.custom)
    ∧ (Cell.callComputeNextState ({ cls := CellClass.custom, state := CellState.R, age := 2 } : Cell)
        (List.replicate 2 ({ cls := CellClass.custom, state := CellState.R } : Cell)
          ++ List.replicate 6 ({ cls := CellClass.custom } : Cell))).update.state = CellState.OLD :=
  ⟨by decide,
   ((custom_survival { cls := CellClass.custom, state := CellState.R, age := 2 }
      (List.replicate 2 ({ cls := CellClass.custom, state := CellState.R } : Cell)
        ++ List.replicate 6 ({ cls := CellClass.custom } : Cell)) rfl (by decide)).1
      (by decide)).2.1 (by decide) (by decide)⟩

theorem custom_birth_witness :
    (∀ x ∈ (List.replicate 2 ({ cls := CellClass.custom, state := CellState.G } : Cell)
              ++ List.replicate 2 ({ cls := CellClass.custom, state := CellState.B } : Cell)
              ++ List.replicate 4 ({ cls := CellClass.custom } : Cell)),
        x.cls = CellClass.custom)
    ∧ (Cell.callComputeNextState ({ cls := CellClass.custom } : Cell)
        (List.replicate 2 ({ cls := CellClass.custom, state := CellState.G } : Cell)
          ++ List.replicate 2 ({ cls := CellClass.custom, state := CellState.B } : Cell)
          ++ List.replicate 4 ({ cls := CellClass.custom } : Cell))).update.state
        = CellState.G_AND_B :=
  ⟨by decide,
   (((custom_birth { cls := CellClass.custom }
      (List.replicate 2 ({ cls := CellClass.custom, state := CellState.G } : Cell)
        ++ List.replicate 2 ({ cls := CellClass.custom, state := CellState.B } : Cell)
        ++ List.replicate 4 ({ cls := CellClass.custom } : Cell)) rfl (by decide) rfl).1
      (by decide)).2 CellState.G CellState.B (by decide)
      (fun k => by
        rw [show maxStatesOf
              (List.replicate 2 ({ cls := CellClass.custom, state := CellState.G } : Cell)
                ++ List.replicate 2 ({ cls := CellClass.custom, state := CellState.B } : Cell)
                ++ List.replicate 4 ({ cls := CellClass.custom } : Cell))
              = [CellState.G, CellState.B] from by decide]
        simp)).2⟩

theorem incr_keys_pos (k : CellState) (hk : 0 < k) :
    ∀ d : Dict, (∀ e ∈ d, 0 < e.1) → ∀ e ∈ Dict.incr d k, 0 < e.1 := by
  intro d
  induction d with
  | nil =>
    intro _ e he
    simp only [Dict.incr, List.mem_singleton] at he
    rw [he]; exact hk
  | cons hd tl ih =>
    intro h e he
    obtain ⟨k', v'⟩ := hd
    simp only [Dict.incr] at he
    split_ifs at he with h1 h2
    · rcases List.mem_cons.mp he with rfl | he'
      · exact h (k', v') (List.mem_cons_self _ _)
      · exact h e (List.mem_cons_of_mem _ he')
    · rcases List.mem_cons.mp he with rfl | he'
      · exact hk
      · exact h e he'
    · rcases List.mem_cons.mp he with rfl | he'
      · exact h (k', v') (List.mem_cons_self _ _)
      · exact ih (fun e he => h e (List.mem_cons_of_mem _ he)) e he'

theorem alive_state_pos (a : Cell) (h : a.callIsAlive = true) : (0 : Int) < a.state := by
  unfold Cell.callIsAlive at h
  cases hcls : a.cls <;> rw [hcls] at h <;>
    simp only [Cell.isAlive, AgingCell.isAlive, CustomCell.isAlive, Cell.getState,
      ite_eq_left_iff, Bool.false_eq_true, imp_false, not_not, CellState, CellState.ALIVE,
      CellState.OLD, CellState.R, CellState.G, CellState.B, CellState.R_AND_G,
      CellState.G_AND_B, CellState.B_AND_R, CellState.R_AND_G_AND_B] at h <;>
    omega

theorem tally_keys_pos (nbrs : List Cell) : ∀ e ∈ CustomCell.tally nbrs, 0 < e.1 := by
  unfold CustomCell.tally
  have h0 : ∀ e ∈ CustomCell.initDict, 0 < e.1 := by decide
  generalize CustomCell.initDict = d at h0
  induction nbrs generalizing d with
  | nil => simpa using h0
  | cons a rest ih =>
    rw [List.foldl_cons]
    apply ih
    split_ifs with hc
    · exact incr_keys_pos _ (alive_state_pos a hc.1) d h0
    · exact h0

theorem maxDict_keys_pos (nbrs : List Cell) :
    ∀ k ∈ (CustomCell.maxDict (CustomCell.tally nbrs)).2, 0 < k := by
  intro k hk
  unfold CustomCell.maxDict at hk
  simp only [List.mem_map, List.mem_filter] at hk
  obtain ⟨e, ⟨he, _⟩, rfl⟩ := hk
  exact tally_keys_pos nbrs e he

/-- In `CustomCell::computeNextState` the call of `lcm` always returns: its arguments are
keys of the dictionary, which are positive. -/
theorem lcm_defined_at_maxStates (nbrs : List Cell)
    (h2 : (CustomCell.maxDict (CustomCell.tally nbrs)).2.length = 2) :
    (CustomCell.lcm ((CustomCell.maxDict (CustomCell.tally nbrs)).2.getD 0 CellState.DEAD)
      ((CustomCell.maxDict (CustomCell.tally nbrs)).2.getD 1 CellState.DEAD)).isSome = true := by
  have hpos := maxDict_keys_pos nbrs
  generalize (CustomCell.maxDict (CustomCell.tally nbrs)).2 = l at h2 hpos
  match l, h2 with
  | [x, y], _ =>
    simp only [List.getD_cons_zero, List.getD_cons_succ]
    exact lcm_isSome_of_pos x y (hpos x (by simp)) (hpos y (by simp))

/-! ## Theorems: the rule string -/

theorem collect_range (f : Int → Option Int) (xs : List Int) :
    ∀ lo : Int, (∀ k (hk : k < xs.length), f (lo + (k : Int)) = some (xs.get ⟨k, hk⟩)) →
      collect f ((List.range xs.length).map (fun (k : Nat) => lo + (k : Int))) = some xs := by
  induction xs with
  | nil => intro lo _; rfl
  | cons x rest ih =>
    intro lo h
    have h0 := h 0 (by simp)
    simp only [Nat.cast_zero, add_zero, List.get_eq_getElem, List.getElem_cons_zero] at h0
    have hrest : ∀ k (hk : k < rest.length), f (lo + 1 + (k : Int)) = some (rest.get ⟨k, hk⟩) := by
      intro k hk
      have := h (k + 1) (by simp; omega)
      simp only [List.get_eq_getElem, List.getElem_cons_succ, Nat.cast_add, Nat.cast_one] at this
      rw [List.get_eq_getElem, ← this]
      congr 1
      ring
    have := ih (lo + 1) hrest
    rw [List.length_cons, List.range_succ_eq_map, List.map_cons, List.map_map]
    simp only [collect, Nat.cast_zero, add_zero, h0]
    have e : ((fun (k : Nat) => lo + (k : Int)) ∘ Nat.succ) = (fun (k : Nat) => lo + 1 + (k : Int)) := by
      funext k
      simp only [Function.comp, Nat.succ_eq_add_one, Nat.cast_add, Nat.cast_one]
      ring
    rw [e, this]

theorem findFrom_skip (ch : Char) (pre rest : List Char) (hpre : ch ∉ pre) :
    ∀ pos : Nat, findFrom [ch] (pre ++ ch :: rest) pos = pos + pre.length := by
  induction pre with
  | nil =>
    intro pos
    simp [findFrom, matchesAt]
  | cons c cs ih =>
    intro pos
    have hc : ¬ (ch = c) := fun h => hpre (h ▸ List.mem_cons_self _ _)
    have hcs : ch ∉ cs := fun h => hpre (List.mem_cons_of_mem _ h)
    have hm : matchesAt [ch] (c :: (cs ++ ch :: rest)) = false := by
      simp [matchesAt, hc]
    show findFrom [ch] (c :: (cs ++ ch :: rest)) pos = pos + (c :: cs).length
    rw [findFrom, hm, if_neg (by simp), ih hcs]
    simp only [List.length_cons]
    omega


theorem isDigit_ne (ch : Char) (h : ch.isDigit = true) (c : Char) (hc : c.isDigit = false) :
    c ≠ ch := by
  intro e
  rw [e, h] at hc
  exact absurd hc (by decide)

theorem digit_value_eq (ch : Char) (h : ch.isDigit = true) :
    charValue ch - 48 = digitValue ch := by
  unfold digitValue charValue
  simp only [Char.isDigit, Bool.and_eq_true, decide_eq_true_eq] at h
  have h48 : 48 ≤ ch.toNat := h.1
  have h57 : ch.toNat ≤ 57 := h.2
  have e : '0'.toNat = 48 := by decide
  rw [e]
  have hm : ch.toNat % 256 = ch.toNat := Nat.mod_eq_of_lt (by omega)
  rw [hm, if_pos (by omega)]
  omega

theorem toInt32_small (x : Nat) (h : x < 2 ^ 31) : toInt32 x = (x : Int) := by
  unfold toInt32
  have h1 : x % 2 ^ 32 = x := Nat.mod_eq_of_lt (by omega)
  rw [h1, if_pos h]

theorem sizeOfInt_natCast (k : Nat) (h : k < 2 ^ 64) : sizeOfInt (k : Int) = k := by
  unfold sizeOfInt
  have h' : (k : Int) < 2 ^ 64 := by exact_mod_cast h
  rw [Int.emod_eq_of_lt (by positivity) h']
  simp

theorem strAt_nat (s : List Char) (k : Nat) (h : k < 2 ^ 64) : strAt s (k : Int) = s[k]? := by
  unfold strAt
  rw [sizeOfInt_natCast k h]


theorem digits_segment (pre ds post : List Char) (hds : ∀ ch ∈ ds, ch.isDigit = true)
    (hlen : (pre ++ ds ++ post).length < 2 ^ 31) (lo hi : Int) (hlo : lo = (pre.length : Int))
    (hhi : hi = (pre.length : Int) + (ds.length : Int) - 1) :
    RuleBasedCell.digits (pre ++ ds ++ post) lo hi = some (ds.map digitValue) := by
  unfold RuleBasedCell.digits intRange
  have hcount : (hi + 1 - lo).toNat = (ds.map digitValue).length := by
    rw [hhi, hlo, List.length_map]
    have : (pre.length : Int) + (ds.length : Int) - 1 + 1 - (pre.length : Int) = (ds.length : Int) := by
      ring
    rw [this]
    simp
  rw [hcount]
  apply collect_range
  intro k hk
  rw [List.length_map] at hk
  simp only [List.length_append] at hlen
  have hidx : lo + (k : Int) = ((pre.length + k : Nat) : Int) := by
    rw [hlo]; push_cast; ring
  rw [hidx, strAt_nat _ _ (by omega)]
  have hget : (pre ++ ds ++ post)[pre.length + k]? = some (ds.get ⟨k, hk⟩) := by
    rw [List.append_assoc, List.getElem?_append_right (by omega)]
    have : pre.length + k - pre.length = k := by omega
    rw [this, List.getElem?_append_left hk]
    simp
  rw [hget]
  simp only [Option.map_some', List.get_eq_getElem, List.getElem_map, Option.some.injEq]
  exact digit_value_eq _ (hds _ (List.getElem_mem _))

theorem strFind_B (d1 d2 : List Char) : strFind (ruleString d1 d2) ['B'] = 0 := by
  simp [strFind, ruleString, findFrom, matchesAt]

theorem strFind_S (d1 d2 : List Char) (h1 : ∀ ch ∈ d1, ch.isDigit = true) :
    strFind (ruleString d1 d2) ['S'] = d1.length + 2 := by
  have hpre : 'S' ∉ ('B' :: (d1 ++ ['/'])) := by
    intro hmem
    rcases List.mem_cons.mp hmem with e | hmem
    · exact absurd e (by decide)
    · rcases List.mem_append.mp hmem with hmem | hmem
      · exact isDigit_ne _ (h1 _ hmem) 'S' (by decide) rfl
      · simp at hmem
  have e : ruleString d1 d2 = ('B' :: (d1 ++ ['/'])) ++ 'S' :: d2 := by
    simp [ruleString]
  unfold strFind
  rw [e, findFrom_skip 'S' _ d2 hpre 0]
  simp

theorem ruleString_length (d1 d2 : List Char) :
    (ruleString d1 d2).length = d1.length + d2.length + 3 := by
  simp [ruleString]; omega

theorem rule_indices (n1 n2 : Nat) (hlen : n1 + n2 + 3 < 2 ^ 31) :
    toInt32 (sizeAdd 0 1) = 1
    ∧ toInt32 (sizeSub (n1 + 2) 2) = (n1 : Int)
    ∧ toInt32 (sizeAdd (n1 + 2) 1) = (n1 : Int) + 3
    ∧ toInt32 (sizeSub (n1 + n2 + 3) 1) = (n1 : Int) + (n2 : Int) + 2 := by
  have a1 : sizeAdd 0 1 = 1 := by unfold sizeAdd; norm_num
  have a2 : sizeSub (n1 + 2) 2 = n1 := by unfold sizeSub; omega
  have a3 : sizeAdd (n1 + 2) 1 = n1 + 3 := by unfold sizeAdd; omega
  have a4 : sizeSub (n1 + n2 + 3) 1 = n1 + n2 + 2 := by unfold sizeSub; omega
  rw [a1, a2, a3, a4, toInt32_small _ (by omega), toInt32_small _ (by omega),
    toInt32_small _ (by omega), toInt32_small _ (by omega)]
  push_cast
  simp

/-- C6: for digit strings `d1` and `d2` (the rule string being shorter than `2^31`
characters, the range of the constructor's `int` indices), the `RuleBasedCell` constructor
applied to `"B" + d1 + "/S" + d2` returns a cell whose `b` is the list of the digit values of
`d1` and whose `s` is the list of the digit values of `d2`; `"B3/S23"` gives `b = [3]` and
`s = [2, 3]`. -/
theorem rule_parsing (d1 d2 : List Char) (h1 : ∀ ch ∈ d1, ch.isDigit = true)
    (h2 : ∀ ch ∈ d2, ch.isDigit = true) (hlen : (ruleString d1 d2).length < 2 ^ 31) :
    RuleBasedCell.new (ruleString d1 d2)
        = some { cls := CellClass.ruleBased, b := d1.map digitValue, s := d2.map digitValue }
    ∧ RuleBasedCell.new "B3/S23".toList
        = some { cls := CellClass.ruleBased, b := [3], s := [2, 3] } := by
  refine ⟨?_, by decide⟩
  have hl := ruleString_length d1 d2
  have hlen' : d1.length + d2.length + 3 < 2 ^ 31 := by rw [← hl]; exact hlen
  obtain ⟨i1, i2, i3, i4⟩ := rule_indices d1.length d2.length hlen'
  have e1 : ruleString d1 d2 = ['B'] ++ d1 ++ ('/' :: 'S' :: d2) := by simp [ruleString]
  have e2 : ruleString d1 d2 = ('B' :: (d1 ++ ['/', 'S'])) ++ d2 ++ [] := by simp [ruleString]
  have hb : RuleBasedCell.digits (ruleString d1 d2) 1 (d1.length : Int)
      = some (d1.map digitValue) := by
    have := digits_segment ['B'] d1 ('/' :: 'S' :: d2) h1 (by rw [← e1]; exact hlen)
      1 (d1.length : Int) (by simp) (by simp)
    rw [← e1] at this
    exact this
  have hs : RuleBasedCell.digits (ruleString d1 d2) ((d1.length : Int) + 3)
      ((d1.length : Int) + (d2.length : Int) + 2) = some (d2.map digitValue) := by
    have := digits_segment ('B' :: (d1 ++ ['/', 'S'])) d2 [] h2 (by rw [← e2]; exact hlen)
      ((d1.length : Int) + 3) ((d1.length : Int) + (d2.length : Int) + 2)
      (by simp; ring) (by simp; ring)
    rw [← e2] at this
    exact this
  unfold RuleBasedCell.new
  rw [strFind_B, strFind_S d1 d2 h1, hl]
  simp only [i1, i2, i3, i4, hb, hs]

theorem rule_parsing_witness :
    (∀ ch ∈ ['3', '6'], ch.isDigit = true) ∧ (∀ ch ∈ ['2', '3'], ch.isDigit = true)
    ∧ (ruleString ['3', '6'] ['2', '3']).length < 2 ^ 31
    ∧ RuleBasedCell.new (ruleString ['3', '6'] ['2', '3'])
        = some { cls := CellClass.ruleBased, b := [3, 6], s := [2, 3] } :=
  ⟨by decide, by decide, by decide,
    (rule_parsing ['3', '6'] ['2', '3'] (by decide) (by decide) (by decide)).1⟩

/-! ## Theorems: pointers, stores and the shape of a grid -/

theorem getD_set_row (cells : List (List Cell)) (i i' : Nat) (row : List Cell) :
    (cells.set i row).getD i' [] = if i' = i ∧ i < cells.length then row else cells.getD i' [] := by
  rw [List.getD_eq_getElem?_getD, List.getD_eq_getElem?_getD, List.getElem?_set]
  by_cases h : i = i'
  · subst h
    by_cases hl : i < cells.length
    · simp [hl]
    · simp [hl]
      have : cells[i]? = none := by
        rw [List.getElem?_eq_none]; omega
      simp [this]
  · have h' : ¬ i' = i := fun e => h e.symm
    simp [h, h']

theorem getD_set_cell (row : List Cell) (j j' : Nat) (c : Cell) :
    (row.set j c).getD j' default = if j' = j ∧ j < row.length then c else row.getD j' default := by
  rw [List.getD_eq_getElem?_getD, List.getD_eq_getElem?_getD, List.getElem?_set]
  by_cases h : j = j'
  · subst h
    by_cases hl : j < row.length
    · simp [hl]
    · simp [hl]
      have : row[j]? = none := by
        rw [List.getElem?_eq_none]; omega
      simp [this]
  · have h' : ¬ j' = j := fun e => h e.symm
    simp [h, h']

theorem deref_store (g : Grid) (p q : Nat × Nat) (c : Cell) :
    (g.store p c).deref q = if q = p ∧ g.inRange p then c else g.deref q := by
  obtain ⟨i, j⟩ := p
  obtain ⟨i', j'⟩ := q
  unfold Grid.store Grid.deref Grid.inRange
  simp only [getD_set_row]
  by_cases hi : i' = i
  · subst hi
    by_cases hl : i' < g.cells.length
    · simp only [hl, and_self, if_true, getD_set_cell, true_and, Prod.mk.injEq]
    · simp [hl]
  · simp [hi]


theorem store_shape (g : Grid) (p : Nat × Nat) (c : Cell) :
    (g.store p c).cells.map List.length = g.cells.map List.length := by
  obtain ⟨i, j⟩ := p
  unfold Grid.store
  apply List.ext_getElem?
  intro k
  simp only [List.getElem?_map, List.getElem?_set]
  by_cases h : i = k
  · subst h
    by_cases hl : i < g.cells.length
    · simp [hl, List.getD_eq_getElem?_getD, List.getElem?_eq_getElem hl]
    · have hn : g.cells[i]? = none := List.getElem?_eq_none (by omega)
      simp [hl, hn]
  · simp [h]

theorem store_config (g : Grid) (p : Nat × Nat) (c : Cell) : (g.store p c).config = g.config :=
  rfl

theorem inRange_of_shape (g g' : Grid) (h : g'.cells.map List.length = g.cells.map List.length)
    (p : Nat × Nat) : g'.inRange p ↔ g.inRange p := by
  have hlen : g'.cells.length = g.cells.length := by
    simpa using congrArg List.length h
  have hrow : (g'.cells.getD p.1 []).length = (g.cells.getD p.1 []).length := by
    have := congrArg (fun l => l.getD p.1 0) h
    simp only [List.getD_eq_getElem?_getD, List.getElem?_map] at this
    rw [List.getD_eq_getElem?_getD, List.getD_eq_getElem?_getD]
    cases h1 : g'.cells[p.1]? <;> cases h2 : g.cells[p.1]? <;> simp_all
  unfold Grid.inRange
  rw [hlen, hrow]

theorem grid_ext (g g' : Grid) (hc : g'.config = g.config)
    (hs : g'.cells.map List.length = g.cells.map List.length)
    (hd : ∀ p, g.inRange p → g'.deref p = g.deref p) : g' = g := by
  obtain ⟨cfg, cells⟩ := g
  obtain ⟨cfg', cells'⟩ := g'
  simp only at hc hs
  subst hc
  congr 1
  have hlen : cells'.length = cells.length := by simpa using congrArg List.length hs
  apply List.ext_getElem hlen
  intro i h1 h2
  have hrow : (cells'[i]).length = (cells[i]).length := by
    have := congrArg (fun l => l[i]?) hs
    simpa [List.getElem?_map, List.getElem?_eq_getElem h1, List.getElem?_eq_getElem h2] using this
  apply List.ext_getElem hrow
  intro j h3 h4
  have := hd (i, j) (by
    unfold Grid.inRange
    simp only [List.getD_eq_getElem?_getD, List.getElem?_eq_getElem h2, Option.getD_some]
    exact ⟨h2, h4⟩)
  unfold Grid.deref at this
  simp only [List.getD_eq_getElem?_getD, List.getElem?_eq_getElem h1,
    List.getElem?_eq_getElem h2, Option.getD_some, List.getElem?_eq_getElem h3,
    List.getElem?_eq_getElem h4] at this
  exact this

theorem mem_coords (g : Grid) (p : Nat × Nat) : p ∈ g.coords ↔ g.inRange p := by
  obtain ⟨i, j⟩ := p
  unfold Grid.coords Grid.inRange
  simp only [List.mem_flatMap, List.mem_range, List.mem_map, Prod.mk.injEq]
  constructor
  · rintro ⟨a, ha, b, hb, rfl, rfl⟩
    exact ⟨ha, hb⟩
  · rintro ⟨h1, h2⟩
    exact ⟨i, h1, j, h2, rfl, rfl⟩

theorem nodup_coords (g : Grid) : g.coords.Nodup := by
  unfold Grid.coords
  rw [List.nodup_flatMap]
  constructor
  · intro i _
    apply List.Nodup.map
    · intro a b h
      simpa using h
    · exact List.nodup_range _
  · apply List.Pairwise.imp_of_mem _ (List.nodup_range _)
    intro a b _ _ hab
    simp only [Function.onFun, List.disjoint_left, List.mem_map, List.mem_range]
    rintro ⟨x, y⟩ ⟨j, _, hj⟩ ⟨j', _, hj'⟩
    simp only [Prod.mk.injEq] at hj hj'
    exact hab (hj.1.trans hj'.1.symm)

theorem coords_of_shape (g g' : Grid) (h : g'.cells.map List.length = g.cells.map List.length) :
    g'.coords = g.coords := by
  have hlen : g'.cells.length = g.cells.length := by
    simpa using congrArg List.length h
  unfold Grid.coords
  rw [hlen]
  apply List.flatMap_congr
  intro i _
  have hrow : (g'.cells.getD i []).length = (g.cells.getD i []).length := by
    have := congrArg (fun l => l.getD i 0) h
    simp only [List.getD_eq_getElem?_getD, List.getElem?_map] at this
    rw [List.getD_eq_getElem?_getD, List.getD_eq_getElem?_getD]
    cases h1 : g'.cells[i]? <;> cases h2 : g.cells[i]? <;> simp_all
  rw [hrow]

/-! ## Theorems: what computeNextState reads and what it leaves unchanged -/

theorem callIsAlive_obs (a : Cell) : a.callIsAlive = aliveObs a.obs := by
  unfold aliveObs Cell.obs Cell.callIsAlive
  cases a.cls <;> rfl

theorem liveCount_obs (nbrs : List Cell) :
    liveCount nbrs = ((nbrs.map Cell.obs).countP aliveObs : Nat) := by
  unfold liveCount
  have e : Cell.callIsAlive = aliveObs ∘ Cell.obs := funext callIsAlive_obs
  rw [List.countP_map, e]

theorem tally_obs (nbrs : List Cell) :
    CustomCell.tally nbrs
      = (nbrs.map Cell.obs).foldl
          (fun (dict : Dict) o =>
            if aliveObs o = true ∧ o.2 ≠ CellState.OLD then Dict.incr dict o.2 else dict)
          CustomCell.initDict := by
  unfold CustomCell.tally
  rw [List.foldl_map]
  congr 1

theorem callComputeNextState_congr (c : Cell) (nbrs nbrs' : List Cell)
    (h : nbrs.map Cell.obs = nbrs'.map Cell.obs) :
    c.callComputeNextState nbrs = c.callComputeNextState nbrs' := by
  have h1 : liveCount nbrs = liveCount nbrs' := by rw [liveCount_obs, liveCount_obs, h]
  have h2 : CustomCell.tally nbrs = CustomCell.tally nbrs' := by rw [tally_obs, tally_obs, h]
  unfold Cell.callComputeNextState Cell.computeNextState AgingCell.computeNextState
    RuleBasedCell.computeNextState CustomCell.computeNextState
  rw [h1, h2]

theorem basic_compute_fields (c : Cell) (nbrs : List Cell) :
    (Cell.computeNextState c nbrs).state = c.state
    ∧ (Cell.computeNextState c nbrs).cls = c.cls
    ∧ (Cell.computeNextState c nbrs).neighbors = c.neighbors
    ∧ (Cell.computeNextState c nbrs).b = c.b
    ∧ (Cell.computeNextState c nbrs).s = c.s
    ∧ (Cell.computeNextState c nbrs).age = c.age
    ∧ (Cell.computeNextState c nbrs).color = c.color := by
  unfold Cell.computeNextState
  simp only []
  split_ifs <;> exact ⟨rfl, rfl, rfl, rfl, rfl, rfl, rfl⟩

theorem ruleBased_compute_fields (c : Cell) (nbrs : List Cell) :
    (RuleBasedCell.computeNextState c nbrs).state = c.state
    ∧ (RuleBasedCell.computeNextState c nbrs).cls = c.cls
    ∧ (RuleBasedCell.computeNextState c nbrs).neighbors = c.neighbors
    ∧ (RuleBasedCell.computeNextState c nbrs).b = c.b
    ∧ (RuleBasedCell.computeNextState c nbrs).s = c.s
    ∧ (RuleBasedCell.computeNextState c nbrs).age = c.age
    ∧ (RuleBasedCell.computeNextState c nbrs).color = c.color := by
  unfold RuleBasedCell.computeNextState
  simp only []
  split_ifs <;> exact ⟨rfl, rfl, rfl, rfl, rfl, rfl, rfl⟩

theorem aging_compute_fields (c : Cell) (nbrs : List Cell) :
    (AgingCell.computeNextState c nbrs).state = c.state
    ∧ (AgingCell.computeNextState c nbrs).cls = c.cls
    ∧ (AgingCell.computeNextState c nbrs).neighbors = c.neighbors
    ∧ (AgingCell.computeNextState c nbrs).b = c.b
    ∧ (AgingCell.computeNextState c nbrs).s = c.s := by
  unfold AgingCell.computeNextState
  lift_lets
  intro live_cell c1 c2 c3
  have e1 : c1.state = c.state ∧ c1.cls = c.cls ∧ c1.neighbors = c.neighbors ∧ c1.b = c.b
      ∧ c1.s = c.s := by
    simp only [c1]
    split_ifs <;> exact ⟨rfl, rfl, rfl, rfl, rfl⟩
  have e2 : c2.state = c1.state ∧ c2.cls = c1.cls ∧ c2.neighbors = c1.neighbors ∧ c2.b = c1.b
      ∧ c2.s = c1.s := by
    simp only [c2]
    split_ifs <;> exact ⟨rfl, rfl, rfl, rfl, rfl⟩
  have e3 : c3.state = c2.state ∧ c3.cls = c2.cls ∧ c3.neighbors = c2.neighbors ∧ c3.b = c2.b
      ∧ c3.s = c2.s := by
    simp only [c3]
    split_ifs <;> exact ⟨rfl, rfl, rfl, rfl, rfl⟩
  obtain ⟨a1, a2, a3, a4, a5⟩ := e1
  obtain ⟨b1, b2, b3, b4, b5⟩ := e2
  obtain ⟨d1, d2, d3, d4, d5⟩ := e3
  by_cases h : c3.nextState = CellState.ALIVE ∧ c3.age = 3
  · simp only [h, and_self, if_true]
    exact ⟨d1.trans (b1.trans a1), d2.trans (b2.trans a2), d3.trans (b3.trans a3),
      d4.trans (b4.trans a4), d5.trans (b5.trans a5)⟩
  · simp only [h, if_false]
    exact ⟨d1.trans (b1.trans a1), d2.trans (b2.trans a2), d3.trans (b3.trans a3),
      d4.trans (b4.trans a4), d5.trans (b5.trans a5)⟩

theorem sameCore_refl (x : Cell) : x.sameCore x := ⟨rfl, rfl, rfl, rfl, rfl⟩

theorem sameCore_trans {x y z : Cell} (h1 : x.sameCore y) (h2 : y.sameCore z) : x.sameCore z :=
  ⟨h1.1.trans h2.1, h1.2.1.trans h2.2.1, h1.2.2.1.trans h2.2.2.1, h1.2.2.2.1.trans h2.2.2.2.1,
    h1.2.2.2.2.trans h2.2.2.2.2⟩

theorem custom_compute_sameCore (c : Cell) (nbrs : List Cell) :
    (CustomCell.computeNextState c nbrs).sameCore c := by
  unfold CustomCell.computeNextState
  lift_lets
  intro dict max_amount maxStates c1 c2 c3 d1 d2 c5
  have e1 : c1.sameCore c := sameCore_refl c
  have e2 : c2.sameCore c := by
    simp only [c2]
    split_ifs <;> exact e1
  have e3 : c3.sameCore c := by
    simp only [c3]
    split_ifs
    · exact e2
    · exact e2
  have f1 : d1.sameCore c := by
    simp only [d1]
    split_ifs
    · exact sameCore_refl c
    · exact sameCore_refl c
  have f2 : d2.sameCore c := by
    simp only [d2]
    split_ifs
    · exact f1
    · exact f1
  have e5 : c5.sameCore c := by
    simp only [c5]
    split_ifs
    · exact e3
    · exact e2
    · exact sameCore_refl c
    · exact f2
    · exact sameCore_refl c
  by_cases h : c5.nextState = CellState.DEAD
  · simp only [h, if_true]
    exact e5
  · simp only [h, if_false]
    exact e5

theorem callCompute_sameCore (c : Cell) (nbrs : List Cell) :
    (c.callComputeNextState nbrs).sameCore c := by
  unfold Cell.callComputeNextState
  cases c.cls
  · obtain ⟨h1, h2, h3, h4, h5, _, _⟩ := basic_compute_fields c nbrs
    exact ⟨h1, h2, h3, h4, h5⟩
  · exact aging_compute_fields c nbrs
  · obtain ⟨h1, h2, h3, h4, h5, _, _⟩ := ruleBased_compute_fields c nbrs
    exact ⟨h1, h2, h3, h4, h5⟩
  · exact custom_compute_sameCore c nbrs

theorem obs_of_sameCore {x y : Cell} (h : x.sameCore y) : x.obs = y.obs := by
  unfold Cell.obs
  rw [h.1, h.2.1]

/-! ## Theorems: the two loops of updateCells -/

theorem nextCell_congr (g g1 : Grid) (h : ∀ q, (g1.deref q).obs = (g.deref q).obs) (c : Cell) :
    g1.nextCell c = g.nextCell c := by
  unfold Grid.nextCell
  apply callComputeNextState_congr
  rw [List.map_map, List.map_map]
  apply List.map_congr_left
  intro q _
  exact h q

theorem compute_fold (g : Grid) (L : List (Nat × Nat)) :
    L.Nodup →
    (L.foldl Grid.computeAt g).config = g.config
    ∧ (L.foldl Grid.computeAt g).cells.map List.length = g.cells.map List.length
    ∧ ∀ q, (L.foldl Grid.computeAt g).deref q
        = if q ∈ L ∧ g.inRange q then g.nextCell (g.deref q) else g.deref q := by
  induction L using List.reverseRecOn with
  | nil =>
    intro _
    exact ⟨rfl, rfl, fun q => by simp⟩
  | append_singleton L a ih =>
    intro hnd
    have hL : L.Nodup := (List.nodup_append.mp hnd).1
    have ha : a ∉ L := by
      intro h
      exact (List.nodup_append.mp hnd).2.2 h (List.mem_singleton_self a)
    obtain ⟨i1, i2, i3⟩ := ih hL
    rw [List.foldl_append, List.foldl_cons, List.foldl_nil]
    generalize L.foldl Grid.computeAt g = g1 at i1 i2 i3
    have hobs : ∀ q, (g1.deref q).obs = (g.deref q).obs := by
      intro q
      rw [i3 q]
      split_ifs
      · exact obs_of_sameCore (callCompute_sameCore _ _)
      · rfl
    have hda : g1.deref a = g.deref a := by
      rw [i3 a, if_neg (fun h => ha h.1)]
    refine ⟨i1, ?_, ?_⟩
    · unfold Grid.computeAt
      rw [store_shape, i2]
    · intro q
      have hc : g1.computeAt a = g1.store a (g1.nextCell (g1.deref a)) := rfl
      rw [hc, deref_store, hda, nextCell_congr g g1 hobs, i3 q]
      simp only [inRange_of_shape g g1 i2, List.mem_append, List.mem_singleton]
      by_cases hq : q = a
      · subst hq
        by_cases hr : g.inRange q
        · simp [hr]
        · simp [hr]
      · simp [hq]

theorem update_sameCore_fields (c : Cell) :
    c.update.cls = c.cls ∧ c.update.neighbors = c.neighbors ∧ c.update.b = c.b
    ∧ c.update.s = c.s ∧ c.update.age = c.age ∧ c.update.color = c.color
    ∧ c.update.nextState = c.nextState ∧ c.update.state = c.nextState :=
  ⟨rfl, rfl, rfl, rfl, rfl, rfl, rfl, rfl⟩

theorem commit_fold (g : Grid) (L : List (Nat × Nat)) :
    L.Nodup →
    (L.foldl Grid.commitAt g).config = g.config
    ∧ (L.foldl Grid.commitAt g).cells.map List.length = g.cells.map List.length
    ∧ ∀ q, (L.foldl Grid.commitAt g).deref q
        = if q ∈ L ∧ g.inRange q then (g.deref q).update else g.deref q := by
  induction L using List.reverseRecOn with
  | nil =>
    intro _
    exact ⟨rfl, rfl, fun q => by simp⟩
  | append_singleton L a ih =>
    intro hnd
    have hL : L.Nodup := (List.nodup_append.mp hnd).1
    have ha : a ∉ L := by
      intro h
      exact (List.nodup_append.mp hnd).2.2 h (List.mem_singleton_self a)
    obtain ⟨i1, i2, i3⟩ := ih hL
    rw [List.foldl_append, List.foldl_cons, List.foldl_nil]
    generalize L.foldl Grid.commitAt g = g1 at i1 i2 i3
    have hda : g1.deref a = g.deref a := by
      rw [i3 a, if_neg (fun h => ha h.1)]
    refine ⟨i1, ?_, ?_⟩
    · unfold Grid.commitAt
      rw [store_shape, i2]
    · intro q
      unfold Grid.commitAt
      rw [deref_store, hda, i3 q]
      simp only [inRange_of_shape g g1 i2, List.mem_append, List.mem_singleton]
      by_cases hq : q = a
      · subst hq
        by_cases hr : g.inRange q
        · simp [hr]
        · simp [hr]
      · simp [hq]

theorem synchronous_shape (g : Grid) :
    g.synchronous.cells.map List.length = g.cells.map List.length := by
  unfold Grid.synchronous
  simp [List.map_map, Function.comp]

theorem synchronous_deref (g : Grid) (q : Nat × Nat) (h : g.inRange q) :
    g.synchronous.deref q = (g.nextCell (g.deref q)).update := by
  obtain ⟨h1, h2⟩ := h
  unfold Grid.synchronous Grid.deref
  simp only [List.getD_eq_getElem?_getD, List.getElem?_map] at h2 ⊢
  rw [List.getElem?_eq_getElem h1] at h2 ⊢
  simp only [Option.getD_some, Option.map_some', List.getElem?_map] at h2 ⊢
  rw [List.getElem?_eq_getElem h2]
  rfl

/-- The two loops of `updateCells`, run in any two orders that visit every cell once,
produce the synchronous generation. -/
theorem updateCellsIn_eq (g : Grid) (ord1 ord2 : List (Nat × Nat))
    (h1 : ord1.Perm g.coords) (h2 : ord2.Perm g.coords) :
    Grid.updateCellsIn ord1 ord2 g = g.synchronous := by
  have n1 : ord1.Nodup := h1.nodup_iff.mpr (nodup_coords g)
  have n2 : ord2.Nodup := h2.nodup_iff.mpr (nodup_coords g)
  obtain ⟨a1, a2, a3⟩ := compute_fold g ord1 n1
  unfold Grid.updateCellsIn
  generalize ord1.foldl Grid.computeAt g = g1 at a1 a2 a3
  obtain ⟨b1, b2, b3⟩ := commit_fold g1 ord2 n2
  generalize ord2.foldl Grid.commitAt g1 = g2 at b1 b2 b3
  apply grid_ext
  · rw [b1, a1]; rfl
  · rw [b2, a2, synchronous_shape]
  · intro p hp
    have hp' : g.inRange p := (inRange_of_shape g _ (synchronous_shape g) p).mp hp
    have m1 : p ∈ ord1 := h1.mem_iff.mpr ((mem_coords g p).mpr hp')
    have m2 : p ∈ ord2 := h2.mem_iff.mpr ((mem_coords g p).mpr hp')
    have r1 : g1.inRange p := (inRange_of_shape g g1 a2 p).mpr hp'
    rw [b3 p, if_pos ⟨m2, r1⟩, a3 p, if_pos ⟨m1, hp'⟩, synchronous_deref g p hp']

theorem updateCells_eq (g : Grid) : g.updateCells = g.synchronous := by
  have h := updateCellsIn_eq g g.coords g.coords (List.Perm.refl _) (List.Perm.refl _)
  unfold Grid.updateCells
  unfold Grid.updateCellsIn at h
  simp only []
  rw [coords_of_shape g _ (compute_fold g g.coords (nodup_coords g)).2.1]
  exact h

/-! ## Theorems: the rule-string constructor never throws -/

theorem collect_eq_map {α β : Type} (f : α → Option β) (d : β) (l : List α)
    (h : ∀ a ∈ l, (f a).isSome = true) :
    collect f l = some (l.map (fun a => (f a).getD d)) := by
  induction l with
  | nil => rfl
  | cons a rest ih =>
    have ha := h a (List.mem_cons_self _ _)
    have hrest := ih (fun x hx => h x (List.mem_cons_of_mem _ hx))
    obtain ⟨v, hv⟩ := Option.isSome_iff_exists.mp ha
    simp only [collect, hv, hrest, List.map_cons, Option.getD_some]

theorem findFrom_range (ch : Char) (s : List Char) :
    ∀ pos : Nat, findFrom [ch] s pos < pos + s.length ∨ findFrom [ch] s pos = npos := by
  induction s with
  | nil =>
    intro pos
    right
    simp [findFrom, matchesAt]
  | cons c cs ih =>
    intro pos
    rw [findFrom]
    split_ifs
    · left
      simp
    · rcases ih (pos + 1) with h | h
      · left
        simp only [List.length_cons]
        omega
      · right
        exact h

theorem strFind_range (ch : Char) (s : List Char) :
    strFind s [ch] < s.length ∨ strFind s [ch] = npos := by
  have := findFrom_range ch s 0
  unfold strFind
  simpa using this

theorem start_index_nonneg (p len : Nat) (hp : p < len ∨ p = npos) (hlen : len < 2 ^ 31) :
    0 ≤ toInt32 (sizeAdd p 1) := by
  unfold toInt32 sizeAdd npos at *
  split_ifs <;> omega

theorem b_end_lt (q len : Nat) (hq : q < len ∨ q = npos) (hlen : len < 2 ^ 31) :
    toInt32 (sizeSub q 2) < (len : Int) := by
  unfold toInt32 sizeSub npos at *
  split_ifs <;> omega

theorem s_end_lt (len : Nat) (hlen : len < 2 ^ 31) :
    toInt32 (sizeSub len 1) < (len : Int) := by
  unfold toInt32 sizeSub at *
  split_ifs <;> omega

theorem strAt_isSome (rule : List Char) (i : Int) (h0 : 0 ≤ i) (h1 : i < (rule.length : Int))
    (hlen : rule.length < 2 ^ 31) : (strAt rule i).isSome = true := by
  obtain ⟨k, rfl⟩ := Int.eq_ofNat_of_zero_le h0
  have hk : k < rule.length := by exact_mod_cast h1
  rw [strAt_nat rule k (by omega), List.getElem?_eq_getElem hk]
  rfl

theorem mem_intRange (lo hi i : Int) (h : i ∈ intRange lo hi) : lo ≤ i ∧ i ≤ hi := by
  unfold intRange at h
  simp only [List.mem_map, List.mem_range] at h
  obtain ⟨k, hk, rfl⟩ := h
  omega

theorem digits_isSome (rule : List Char) (lo hi : Int) (h0 : 0 ≤ lo) (h1 : hi < (rule.length : Int))
    (hlen : rule.length < 2 ^ 31) :
    ∃ l, RuleBasedCell.digits rule lo hi = some l := by
  unfold RuleBasedCell.digits
  refine ⟨_, collect_eq_map _ 0 _ ?_⟩
  intro i hi'
  obtain ⟨a, b⟩ := mem_intRange lo hi i hi'
  have := strAt_isSome rule i (by omega) (by omega) hlen
  obtain ⟨v, hv⟩ := Option.isSome_iff_exists.mp this
  rw [hv]
  rfl

/-- The `RuleBasedCell` constructor never throws on a rule string shorter than `2^31`
characters: every index passed to `rule.at` is within the string. -/
theorem ruleBased_new_isSome (rule : List Char) (hlen : rule.length < 2 ^ 31) :
    ∃ b s, RuleBasedCell.new rule = some { cls := CellClass.ruleBased, b := b, s := s } := by
  have hB := strFind_range 'B' rule
  have hS := strFind_range 'S' rule
  obtain ⟨b, hb⟩ := digits_isSome rule (toInt32 (sizeAdd (strFind rule ['B']) 1))
    (toInt32 (sizeSub (strFind rule ['S']) 2))
    (start_index_nonneg _ _ hB hlen) (b_end_lt _ _ hS hlen) hlen
  obtain ⟨s, hs⟩ := digits_isSome rule (toInt32 (sizeAdd (strFind rule ['S']) 1))
    (toInt32 (sizeSub rule.length 1))
    (start_index_nonneg _ _ hS hlen) (s_end_lt _ hlen) hlen
  refine ⟨b, s, ?_⟩
  unfold RuleBasedCell.new
  simp only [hb, hs]

/-! ## Theorems: the constructor of Grid -/

theorem collect_eq_some_map {α β : Type} (f : α → Option β) (g : α → β) (l : List α)
    (h : ∀ a ∈ l, f a = some (g a)) : collect f l = some (l.map g) := by
  induction l with
  | nil => rfl
  | cons a rest ih =>
    have ha := h a (List.mem_cons_self _ _)
    have hrest := ih (fun x hx => h x (List.mem_cons_of_mem _ hx))
    simp only [collect, ha, hrest, List.map_cons]

theorem newCell_fresh (cfg : GameConfig) (hv : cfg.valid) :
    ∃ c0, newCell cfg = some c0 ∧ c0.cls = classOf cfg.gameMode ∧ c0.neighbors = []
      ∧ c0.state = CellState.DEAD ∧ c0.nextState = CellState.DEAD ∧ c0.age = 0
      ∧ c0.color = ALIVE_COLOR := by
  unfold newCell classOf
  cases hm : cfg.gameMode
  · exact ⟨_, rfl, rfl, rfl, rfl, rfl, rfl, rfl⟩
  · exact ⟨_, rfl, rfl, rfl, rfl, rfl, rfl, rfl⟩
  · obtain ⟨b, s, h⟩ := ruleBased_new_isSome cfg.gameRule hv.2.2
    exact ⟨_, h, rfl, rfl, rfl, rfl, rfl, rfl⟩
  · exact ⟨_, rfl, rfl, rfl, rfl, rfl, rfl, rfl⟩

theorem wrap_left (j C : Int) (h0 : 0 ≤ j) (h1 : j < C) :
    (if j - 1 = -1 then C - 1 else j - 1) = (j + -1) % C := by
  by_cases h : j - 1 = -1
  · have hj : j = 0 := by omega
    subst hj
    rw [if_pos h]
    have : (0 + -1 : Int) % C = (C - 1) % C := by
      have e : (C - 1 : Int) = (0 + -1) + C * 1 := by ring
      rw [e, Int.add_mul_emod_self_left]
    rw [this, Int.emod_eq_of_lt (by omega) (by omega)]
  · rw [if_neg h, Int.emod_eq_of_lt (by omega) (by omega)]
    ring

theorem wrap_right (j C : Int) (h0 : 0 ≤ j) (h1 : j < C) :
    (if j + 1 = C then 0 else j + 1) = (j + 1) % C := by
  by_cases h : j + 1 = C
  · rw [if_pos h, h, Int.emod_self]
  · rw [if_neg h, Int.emod_eq_of_lt (by omega) (by omega)]

theorem wrap_zero (j C : Int) (h0 : 0 ≤ j) (h1 : j < C) : j = (j + 0) % C := by
  rw [add_zero, Int.emod_eq_of_lt h0 h1]

/-- The `neighbor_index` array holds the eight wrapped coordinates. -/
theorem neighborIndex_eq (cfg : GameConfig) (i j : Int) (hi0 : 0 ≤ i) (hi1 : i < cfg.numRows)
    (hj0 : 0 ≤ j) (hj1 : j < cfg.numCols) :
    neighborIndex cfg i j
      = mooreOffsets.map (fun d => ((i + d.1) % cfg.numRows, (j + d.2) % cfg.numCols)) := by
  unfold neighborIndex mooreOffsets
  simp only [List.map_cons, List.map_nil]
  rw [wrap_left j _ hj0 hj1, wrap_right j _ hj0 hj1, wrap_left i _ hi0 hi1,
    wrap_right i _ hi0 hi1]
  simp only [← wrap_zero i _ hi0 hi1, ← wrap_zero j _ hj0 hj1]

theorem sizeOfInt_of_range (x : Int) (h0 : 0 ≤ x) (h1 : x < 2 ^ 31) : sizeOfInt x = x.toNat := by
  obtain ⟨k, rfl⟩ := Int.eq_ofNat_of_zero_le h0
  have hk : k < 2 ^ 64 := by
    have : (k : Int) < 2 ^ 64 := by omega
    exact_mod_cast this
  rw [sizeOfInt_natCast k hk]
  simp

theorem matrix_length (R C : Nat) (f : Nat → Nat → Cell) :
    ((List.range R).map (fun i => (List.range C).map (fun j => f i j))).length = R := by
  simp

theorem matrix_row (R C : Nat) (f : Nat → Nat → Cell) (i : Nat) (hi : i < R) :
    ((List.range R).map (fun i => (List.range C).map (fun j => f i j))).getD i []
      = (List.range C).map (fun j => f i j) := by
  rw [List.getD_eq_getElem?_getD, List.getElem?_map, List.getElem?_range hi]
  rfl

theorem matrix_cell (R C : Nat) (f : Nat → Nat → Cell) (i j : Nat) (hi : i < R) (hj : j < C) :
    (((List.range R).map (fun i => (List.range C).map (fun j => f i j))).getD i []).getD j default
      = f i j := by
  rw [matrix_row R C f i hi, List.getD_eq_getElem?_getD, List.getElem?_map,
    List.getElem?_range hj]
  rfl

theorem allocate_eq (cfg : GameConfig) (c0 : Cell) (h : newCell cfg = some c0) :
    Grid.allocate cfg
      = some ((List.range cfg.numRows.toNat).map (fun _ =>
          (List.range cfg.numCols.toNat).map (fun _ => c0))) := by
  unfold Grid.allocate
  apply collect_eq_some_map
  intro i _
  apply collect_eq_some_map
  intro j _
  exact h

theorem cellAt_matrix (R C : Nat) (f : Nat → Nat → Cell) (y x : Int) (hy0 : 0 ≤ y)
    (hy1 : y < (R : Int)) (hx0 : 0 ≤ x) (hx1 : x < (C : Int)) (hR : (R : Int) < 2 ^ 31)
    (hC : (C : Int) < 2 ^ 31) :
    cellAt ((List.range R).map (fun i => (List.range C).map (fun j => f i j))) y x
      = some (y.toNat, x.toNat) := by
  unfold cellAt
  rw [sizeOfInt_of_range y hy0 (by omega), sizeOfInt_of_range x hx0 (by omega)]
  have h1 : y.toNat < R := by omega
  have h2 : x.toNat < C := by omega
  rw [matrix_length, matrix_row R C f _ h1]
  simp [h1, h2]

theorem link_neighbors (cfg : GameConfig) (hv : cfg.valid) (f : Nat → Nat → Cell) (i j : Nat)
    (hi : i < cfg.numRows.toNat) (hj : j < cfg.numCols.toNat) :
    collect
        (fun yx => cellAt ((List.range cfg.numRows.toNat).map (fun i =>
          (List.range cfg.numCols.toNat).map (fun j => f i j))) yx.1 yx.2)
        (neighborIndex cfg (i : Int) (j : Int))
      = some (torusNeighbors cfg.numRows.toNat cfg.numCols.toNat i j) := by
  obtain ⟨⟨_, hr⟩, ⟨_, hc⟩, _⟩ := hv
  have hR : ((cfg.numRows.toNat : Nat) : Int) = cfg.numRows := by omega
  have hC : ((cfg.numCols.toNat : Nat) : Int) = cfg.numCols := by omega
  have hR0 : 0 < cfg.numRows := by omega
  have hC0 : 0 < cfg.numCols := by omega
  rw [neighborIndex_eq cfg i j (by omega) (by omega) (by omega) (by omega)]
  have key := collect_eq_some_map
    (fun yx : Int × Int => cellAt ((List.range cfg.numRows.toNat).map (fun i =>
          (List.range cfg.numCols.toNat).map (fun j => f i j))) yx.1 yx.2)
    (fun yx => (yx.1.toNat, yx.2.toNat))
    (mooreOffsets.map (fun d => (((i : Int) + d.1) % cfg.numRows, ((j : Int) + d.2) % cfg.numCols)))
    (by
      intro yx hyx
      simp only [List.mem_map] at hyx
      obtain ⟨d, _, rfl⟩ := hyx
      apply cellAt_matrix
      · exact Int.emod_nonneg _ (by omega)
      · rw [hR]; exact Int.emod_lt_of_pos _ hR0
      · exact Int.emod_nonneg _ (by omega)
      · rw [hC]; exact Int.emod_lt_of_pos _ hC0
      · omega
      · omega)
  rw [key, List.map_map]
  unfold torusNeighbors
  rw [hR, hC]
  rfl

theorem link_eq (cfg : GameConfig) (hv : cfg.valid) (c0 : Cell) (h0 : c0.neighbors = []) :
    Grid.link cfg ((List.range cfg.numRows.toNat).map (fun _ =>
          (List.range cfg.numCols.toNat).map (fun _ => c0)))
      = some ((List.range cfg.numRows.toNat).map (fun i =>
          (List.range cfg.numCols.toNat).map (fun j =>
            { c0 with neighbors := torusNeighbors cfg.numRows.toNat cfg.numCols.toNat i j }))) := by
  unfold Grid.link
  apply collect_eq_some_map
  intro i hi
  apply collect_eq_some_map
  intro j hj
  rw [List.mem_range] at hi hj
  rw [link_neighbors cfg hv (fun _ _ => c0) i j hi hj,
    matrix_cell _ _ (fun _ _ => c0) i j hi hj]
  simp only [h0, List.nil_append]

/-- The constructor returns, for every configuration the program can hold, the grid of the
specification. -/
theorem Grid_new_eq (cfg : GameConfig) (hv : cfg.valid) : Grid.new cfg = some (Grid.built cfg) := by
  obtain ⟨c0, h, _, hn, _⟩ := newCell_fresh cfg hv
  unfold Grid.new Grid.built
  rw [allocate_eq cfg c0 h]
  simp only [link_eq cfg hv c0 hn, h, Option.getD_some]

theorem built_inRange (cfg : GameConfig) (p : Nat × Nat) :
    (Grid.built cfg).inRange p ↔ p.1 < cfg.numRows.toNat ∧ p.2 < cfg.numCols.toNat := by
  unfold Grid.inRange Grid.built
  simp only [matrix_length]
  constructor
  · rintro ⟨h1, h2⟩
    rw [matrix_row _ _ _ _ h1] at h2
    simp only [List.length_map, List.length_range] at h2
    exact ⟨h1, h2⟩
  · rintro ⟨h1, h2⟩
    rw [matrix_row _ _ _ _ h1]
    simp only [List.length_map, List.length_range]
    exact ⟨h1, h2⟩

theorem built_deref (cfg : GameConfig) (i j : Nat) (hi : i < cfg.numRows.toNat)
    (hj : j < cfg.numCols.toNat) :
    (Grid.built cfg).deref (i, j)
      = { (newCell cfg).getD default with
          neighbors := torusNeighbors cfg.numRows.toNat cfg.numCols.toNat i j } := by
  unfold Grid.deref Grid.built
  exact matrix_cell _ _ _ i j hi hj

theorem mem_mooreOffsets (d : Int × Int) :
    d ∈ mooreOffsets ↔
      ((d.1 = -1 ∨ d.1 = 0 ∨ d.1 = 1) ∧ (d.2 = -1 ∨ d.2 = 0 ∨ d.2 = 1) ∧ d ≠ (0, 0)) := by
  obtain ⟨a, b⟩ := d
  unfold mooreOffsets
  simp only [List.mem_cons, Prod.mk.injEq, List.mem_singleton, List.not_mem_nil, or_false,
    ne_eq, not_and]
  constructor
  · intro h
    omega
  · intro h
    omega

/-- C3: for a configuration with `numRows ≥ 1` and `numCols ≥ 1` the constructor returns a
grid in which every cell `(i, j)` holds exactly 8 neighbour pointers, namely the cells
`((i + di) mod numRows, (j + dj) mod numCols)` for the 8 offsets of `{-1,0,1} × {-1,0,1}`
other than `(0, 0)`; each of them is a cell of the grid, and the cell `(0, 0)` has the cell
`(numRows - 1, numCols - 1)` among them. -/
theorem toroidal_wiring (cfg : GameConfig) (hv : cfg.valid) (hR : 1 ≤ cfg.numRows)
    (hC : 1 ≤ cfg.numCols) :
    ∃ g, Grid.new cfg = some g
      ∧ (∀ i j : Nat, (i : Int) < cfg.numRows → (j : Int) < cfg.numCols →
          (g.deref (i, j)).neighbors.length = 8
          ∧ (g.deref (i, j)).neighbors
              = mooreOffsets.map (fun d =>
                  ((((i : Int) + d.1) % cfg.numRows).toNat, (((j : Int) + d.2) % cfg.numCols).toNat))
          ∧ ∀ p ∈ (g.deref (i, j)).neighbors,
              g.inRange p ∧ (p.1 : Int) < cfg.numRows ∧ (p.2 : Int) < cfg.numCols)
      ∧ ((cfg.numRows - 1).toNat, (cfg.numCols - 1).toNat) ∈ (g.deref (0, 0)).neighbors
      ∧ mooreOffsets.Nodup
      ∧ ∀ d : Int × Int, d ∈ mooreOffsets ↔
          ((d.1 = -1 ∨ d.1 = 0 ∨ d.1 = 1) ∧ (d.2 = -1 ∨ d.2 = 0 ∨ d.2 = 1) ∧ d ≠ (0, 0)) := by
  have eR : ((cfg.numRows.toNat : Nat) : Int) = cfg.numRows := by omega
  have eC : ((cfg.numCols.toNat : Nat) : Int) = cfg.numCols := by omega
  have hnb : ∀ i j : Nat, (i : Int) < cfg.numRows → (j : Int) < cfg.numCols →
      ((Grid.built cfg).deref (i, j)).neighbors
        = mooreOffsets.map (fun d =>
            ((((i : Int) + d.1) % cfg.numRows).toNat, (((j : Int) + d.2) % cfg.numCols).toNat)) := by
    intro i j hi hj
    rw [built_deref cfg i j (by omega) (by omega)]
    simp only [torusNeighbors, eR, eC]
  refine ⟨Grid.built cfg, Grid_new_eq cfg hv, ?_, ?_, by decide, mem_mooreOffsets⟩
  · intro i j hi hj
    refine ⟨?_, hnb i j hi hj, ?_⟩
    · rw [hnb i j hi hj]; rfl
    · intro p hp
      rw [hnb i j hi hj, List.mem_map] at hp
      obtain ⟨d, _, rfl⟩ := hp
      have h1 := Int.emod_nonneg ((i : Int) + d.1) (show cfg.numRows ≠ 0 by omega)
      have h2 := Int.emod_lt_of_pos ((i : Int) + d.1) (show 0 < cfg.numRows by omega)
      have h3 := Int.emod_nonneg ((j : Int) + d.2) (show cfg.numCols ≠ 0 by omega)
      have h4 := Int.emod_lt_of_pos ((j : Int) + d.2) (show 0 < cfg.numCols by omega)
      refine ⟨(built_inRange cfg _).mpr ⟨?_, ?_⟩, ?_, ?_⟩
      · simp only; omega
      · simp only; omega
      · simp only; omega
      · simp only; omega
  · rw [hnb 0 0 (by simp; omega) (by simp; omega), List.mem_map]
    refine ⟨(-1, -1), by decide, ?_⟩
    have a1 : ((0 : Int) + -1) % cfg.numRows = cfg.numRows - 1 := by
      have := wrap_left 0 cfg.numRows (le_refl _) (by omega)
      simpa using this.symm
    have a2 : ((0 : Int) + -1) % cfg.numCols = cfg.numCols - 1 := by
      have := wrap_left 0 cfg.numCols (le_refl _) (by omega)
      simpa using this.symm
    simp only [Nat.cast_zero, a1, a2]

theorem toroidal_wiring_witness :
    GameConfig.valid { numRows := 2, numCols := 3 } ∧ (1 : Int) ≤ 2 ∧ (1 : Int) ≤ 3
    ∧ ∃ g, Grid.new { numRows := 2, numCols := 3 } = some g
        ∧ (1, 2) ∈ (g.deref (0, 0)).neighbors :=
  ⟨by decide, by decide, by decide,
    (toroidal_wiring { numRows := 2, numCols := 3 } (by decide) (by decide) (by decide)).elim
      (fun g h => ⟨g, h.1, h.2.2.1⟩)⟩

theorem neighborIndex_nodup (cfg : GameConfig) (i j : Int) (hi0 : 0 ≤ i)
    (hR : 3 ≤ cfg.numRows) (hC : 3 ≤ cfg.numCols) :
    (neighborIndex cfg i j).Nodup := by
  unfold neighborIndex
  simp only []
  have hl : ∃ l : Int, (if j - 1 = -1 then cfg.numCols - 1 else j - 1) = l ∧ l ≠ j
      ∧ l ≠ (if j + 1 = cfg.numCols then 0 else j + 1) := by
    refine ⟨_, rfl, ?_, ?_⟩ <;> split_ifs <;> omega
  have hr : (if j + 1 = cfg.numCols then 0 else j + 1) ≠ j := by
    split_ifs <;> omega
  have hu : ∃ u : Int, (if i - 1 = -1 then cfg.numRows - 1 else i - 1) = u ∧ u ≠ i
      ∧ u ≠ (if i + 1 = cfg.numRows then 0 else i + 1) := by
    refine ⟨_, rfl, ?_, ?_⟩ <;> split_ifs <;> omega
  have hd : (if i + 1 = cfg.numRows then 0 else i + 1) ≠ i := by
    split_ifs <;> omega
  obtain ⟨l, el, l1, l2⟩ := hl
  obtain ⟨u, eu, u1, u2⟩ := hu
  rw [el, eu]
  generalize (if j + 1 = cfg.numCols then 0 else j + 1) = r at *
  generalize (if i + 1 = cfg.numRows then 0 else i + 1) = d at *
  simp only [List.nodup_cons, List.mem_cons, Prod.mk.injEq, List.mem_singleton,
    List.not_mem_nil, List.nodup_nil, or_false, not_or, not_and, and_true, true_imp_iff,
    not_false_eq_true]
  omega

/-- C4 (as amended): in every grid the constructor builds with `numRows ≥ 3` and
`numCols ≥ 3`, the 8 neighbour coordinates computed for a cell, and the 8 pointers the cell
receives, are pairwise distinct. -/
theorem neighbours_distinct (cfg : GameConfig) (hv : cfg.valid) (hR : 3 ≤ cfg.numRows)
    (hC : 3 ≤ cfg.numCols) :
    ∃ g, Grid.new cfg = some g
      ∧ ∀ i j : Nat, (i : Int) < cfg.numRows → (j : Int) < cfg.numCols →
          (neighborIndex cfg (i : Int) (j : Int)).Nodup ∧ (g.deref (i, j)).neighbors.Nodup := by
  refine ⟨Grid.built cfg, Grid_new_eq cfg hv, ?_⟩
  intro i j hi hj
  have hnd := neighborIndex_nodup cfg i j (by omega) hR hC
  refine ⟨hnd, ?_⟩
  obtain ⟨g, hg, hw, _⟩ := toroidal_wiring cfg hv (by omega) (by omega)
  have e : g = Grid.built cfg := by
    rw [Grid_new_eq cfg hv] at hg
    exact (Option.some.inj hg).symm
  subst e
  rw [(hw i j hi hj).2.1]
  have e2 := neighborIndex_eq cfg i j (by omega) hi (by omega) hj
  have e3 : mooreOffsets.map (fun d =>
        ((((i : Int) + d.1) % cfg.numRows).toNat, (((j : Int) + d.2) % cfg.numCols).toNat))
      = (neighborIndex cfg (i : Int) (j : Int)).map (fun yx => (yx.1.toNat, yx.2.toNat)) := by
    rw [e2, List.map_map]
    rfl
  rw [e3]
  apply List.Nodup.map_on _ hnd
  intro a ha b hb hab
  rw [e2, List.mem_map] at ha hb
  obtain ⟨da, _, rfl⟩ := ha
  obtain ⟨db, _, rfl⟩ := hb
  have h1 := Int.emod_nonneg ((i : Int) + da.1) (show cfg.numRows ≠ 0 by omega)
  have h2 := Int.emod_nonneg ((j : Int) + da.2) (show cfg.numCols ≠ 0 by omega)
  have h3 := Int.emod_nonneg ((i : Int) + db.1) (show cfg.numRows ≠ 0 by omega)
  have h4 := Int.emod_nonneg ((j : Int) + db.2) (show cfg.numCols ≠ 0 by omega)
  simp only [Prod.mk.injEq] at hab ⊢
  omega

theorem neighbours_distinct_witness :
    GameConfig.valid { numRows := 3, numCols := 4 } ∧ (3 : Int) ≤ 3 ∧ (3 : Int) ≤ 4
    ∧ ∃ g, Grid.new { numRows := 3, numCols := 4 } = some g
        ∧ (g.deref (0, 0)).neighbors.Nodup :=
  ⟨by decide, by decide, by decide,
    (neighbours_distinct { numRows := 3, numCols := 4 } (by decide) (by decide) (by decide)).elim
      (fun g h => ⟨g, h.1, (h.2 0 0 (by decide) (by decide)).2⟩)⟩

/-- C4 fails as stated: in the 2 x 2 grid (`numRows ≥ 1`, `numCols ≥ 1`) the constructor
succeeds and the 8 neighbour coordinates of the cell `(0, 0)` are not pairwise distinct. -/
theorem neighbours_distinct_counterexample :
    GameConfig.valid { numRows := 2, numCols := 2 }
    ∧ Grid.new { numRows := 2, numCols := 2 } = some (Grid.built { numRows := 2, numCols := 2 })
    ∧ ¬ (neighborIndex { numRows := 2, numCols := 2 } 0 0).Nodup
    ∧ ¬ ((Grid.built { numRows := 2, numCols := 2 }).deref (0, 0)).neighbors.Nodup :=
  ⟨by decide, Grid_new_eq _ (by decide), by decide, by decide⟩

/-! ## Theorems: synchrony of updateCells -/

theorem computeAt_sameCore (g : Grid) (a q : Nat × Nat) :
    ((g.computeAt a).deref q).sameCore (g.deref q) := by
  have hc : g.computeAt a = g.store a (g.nextCell (g.deref a)) := rfl
  rw [hc, deref_store]
  split_ifs with h
  · rw [h.1]
    exact callCompute_sameCore _ _
  · exact sameCore_refl _

theorem compute_loop_sameCore (L : List (Nat × Nat)) :
    ∀ (g : Grid) (q : Nat × Nat), ((L.foldl Grid.computeAt g).deref q).sameCore (g.deref q) := by
  induction L with
  | nil => intro g q; exact sameCore_refl _
  | cons a rest ih =>
    intro g q
    rw [List.foldl_cons]
    exact sameCore_trans (ih (g.computeAt a) q) (computeAt_sameCore g a q)

/-- The two phases of `updateCells`.  After one call, the state of every cell is the
`nextState` that its own `computeNextState` stages for the cell as it was before the call,
with its neighbours as they were before the call; while the first loop runs, whatever cells
it has already visited, every cell still shows its state from before the call; and the
result is the same for every order in which the two loops visit the cells. -/
theorem updateCells_two_phases (g : Grid) :
    (∀ p, g.inRange p →
        (g.updateCells.deref p).state
          = ((g.deref p).callComputeNextState ((g.deref p).neighbors.map g.deref)).nextState)
    ∧ (∀ (visited : List (Nat × Nat)) (q : Nat × Nat),
        ((visited.foldl Grid.computeAt g).deref q).state = (g.deref q).state)
    ∧ (∀ ord1 ord2 : List (Nat × Nat), ord1.Perm g.coords → ord2.Perm g.coords →
        Grid.updateCellsIn ord1 ord2 g = g.updateCells) := by
  refine ⟨?_, ?_, ?_⟩
  · intro p hp
    rw [updateCells_eq, synchronous_deref g p hp]
    rfl
  · intro visited q
    exact (compute_loop_sameCore visited g q).1
  · intro ord1 ord2 h1 h2
    rw [updateCells_eq, updateCellsIn_eq g ord1 ord2 h1 h2]

/-- C1 fails in the code for the Custom variant.  The grids `tieFresh` (constructed, then
seeded with `tieSeeds`) and `tieRestarted` (seeded with G at `(0,0)`, `(0,1)`, updated once,
reset, then seeded with `tieSeeds`) hold the same class, state, age, neighbour pointers and
rule lists in every cell; the cell `(1,1)` is Dead and its neighbours tie four states at
tally 2.  The staged `nextState` of `(1,1)` is Dead in the first grid and G in the second,
and after `updateCells` the cell `(1,1)` is Dead in the first and G in the second: its new
state is not a value computed from the states and ages before the call. -/
theorem custom_tie_reads_stale_nextState :
    tieFresh.map Grid.cores = tieRestarted.map Grid.cores
    ∧ tieFresh.map (fun g => (g.states, maxCountOf ((g.deref (1, 1)).neighbors.map g.deref),
          maxStatesOf ((g.deref (1, 1)).neighbors.map g.deref),
          (g.deref (1, 1)).nextState, (g.updateCells.deref (1, 1)).state))
        = some ([[3, 3, 4], [4, 0, 5], [5, 12, 12]], 2,
            [CellState.R, CellState.G, CellState.B, CellState.R_AND_G],
            CellState.DEAD, CellState.DEAD)
    ∧ tieRestarted.map (fun g => (g.states, (g.deref (1, 1)).nextState,
          (g.updateCells.deref (1, 1)).state))
        = some ([[3, 3, 4], [4, 0, 5], [5, 12, 12]], CellState.G, CellState.G) := by
  refine ⟨?_, ?_, ?_⟩
  · decide
  · decide
  · decide

/-! ## Theorems: a RuleBased grid of rule B3/S23 against a Basic grid -/

theorem deref_default (g : Grid) (q : Nat × Nat) (h : ¬ g.inRange q) : g.deref q = default := by
  unfold Grid.inRange at h
  unfold Grid.deref
  rw [List.getD_eq_getElem?_getD, List.getD_eq_getElem?_getD] at *
  by_cases h1 : q.1 < g.cells.length
  · have h2 : ¬ q.2 < (g.cells[q.1]?.getD []).length := fun h' => h ⟨h1, h'⟩
    have h3 : (g.cells[q.1]?.getD [])[q.2]? = none := List.getElem?_eq_none (by omega)
    rw [h3]
    rfl
  · have h3 : g.cells[q.1]? = none := List.getElem?_eq_none (by omega)
    rw [h3]
    rfl

theorem states_eq_of_deref (g g' : Grid)
    (hs : g.cells.map List.length = g'.cells.map List.length)
    (hd : ∀ p, (g.deref p).state = (g'.deref p).state) : g.states = g'.states := by
  unfold Grid.states
  have hlen : g.cells.length = g'.cells.length := by simpa using congrArg List.length hs
  apply List.ext_getElem (by simpa using hlen)
  intro i h1 h2
  simp only [List.length_map] at h1 h2
  simp only [List.getElem_map]
  have hrow : (g.cells[i]).length = (g'.cells[i]).length := by
    have := congrArg (fun l => l[i]?) hs
    simpa [List.getElem?_map, List.getElem?_eq_getElem h1, List.getElem?_eq_getElem h2] using this
  apply List.ext_getElem (by simpa using hrow)
  intro j h3 h4
  simp only [List.length_map] at h3 h4
  simp only [List.getElem_map]
  have := hd (i, j)
  unfold Grid.deref at this
  simp only [List.getD_eq_getElem?_getD, List.getElem?_eq_getElem h1,
    List.getElem?_eq_getElem h2, Option.getD_some, List.getElem?_eq_getElem h3,
    List.getElem?_eq_getElem h4] at this
  exact this

theorem sim_alive (g g' : Grid) (h : BasicRuleSim g g') (q : Nat × Nat) :
    (g.deref q).callIsAlive = (g'.deref q).callIsAlive := by
  obtain ⟨h1, h2, h3, h4⟩ := h.2 q
  unfold Cell.callIsAlive
  rw [h3]
  rcases h4 with h4 | ⟨h4, _, _⟩
  · rw [h4]
    simp only [Cell.isAlive, h1]
  · rw [h4]
    simp only [Cell.isAlive, h1]

theorem sim_liveCount (g g' : Grid) (h : BasicRuleSim g g') (nbrs : List (Nat × Nat)) :
    liveCount (nbrs.map g.deref) = liveCount (nbrs.map g'.deref) := by
  unfold liveCount
  rw [List.countP_map, List.countP_map]
  congr 1
  apply List.countP_congr
  intro q _
  simp only [Function.comp]
  rw [sim_alive g g' h q]

theorem basic_vs_b3s23 (c c' : Cell) (n : Int) (hs : c.state = c'.state)
    (hb : c'.b = [3]) (hsv : c'.s = [2, 3]) (hc : c.cls = CellClass.basic)
    (hc' : c'.cls = CellClass.ruleBased) (nbrs nbrs' : List Cell)
    (hn : liveCount nbrs = n) (hn' : liveCount nbrs' = n) :
    (Cell.computeNextState c nbrs).nextState = (RuleBasedCell.computeNextState c' nbrs').nextState := by
  unfold Cell.computeNextState RuleBasedCell.computeNextState
  simp only [hn, hn', Cell.callIsAlive, hc, hc', Cell.isAlive, Cell.getState, hb, hsv, ← hs,
    List.mem_cons, List.mem_singleton, List.not_mem_nil, or_false]
  by_cases ha : c.state = CellState.ALIVE
  · simp only [ha, if_true, true_and]
    by_cases h1 : n < 2
    · have : ¬ (n = 2 ∨ n = 3) := by omega
      simp [h1, this]
    · by_cases h2 : n > 3
      · have : ¬ (n = 2 ∨ n = 3) := by omega
        simp [h1, h2, this]
      · have : (n = 2 ∨ n = 3) := by omega
        simp [h1, h2, this]
  · simp only [ha, if_false, false_and, Bool.false_eq_true]
    by_cases h3 : n = 3
    · simp [h3]
    · simp [h3]

theorem sim_inRange (g g' : Grid) (h : BasicRuleSim g g') (p : Nat × Nat) :
    g.inRange p ↔ g'.inRange p :=
  inRange_of_shape g' g h.1 p

theorem sim_synchronous (g g' : Grid) (h : BasicRuleSim g g') :
    BasicRuleSim g.synchronous g'.synchronous := by
  refine ⟨by rw [synchronous_shape, synchronous_shape, h.1], ?_⟩
  intro p
  by_cases hp : g.inRange p
  · have hp' : g'.inRange p := (sim_inRange g g' h p).mp hp
    rw [synchronous_deref g p hp, synchronous_deref g' p hp']
    obtain ⟨h1, h2, h3, h4⟩ := h.2 p
    have c1 := callCompute_sameCore (g.deref p) ((g.deref p).neighbors.map g.deref)
    have c2 := callCompute_sameCore (g'.deref p) ((g'.deref p).neighbors.map g'.deref)
    have hn : liveCount ((g'.deref p).neighbors.map g'.deref)
        = liveCount ((g.deref p).neighbors.map g.deref) := by
      rw [← h2, sim_liveCount g g' h]
    refine ⟨?_, ?_, ?_, ?_⟩
    · show (g.nextCell (g.deref p)).nextState = (g'.nextCell (g'.deref p)).nextState
      unfold Grid.nextCell Cell.callComputeNextState
      rw [h3]
      rcases h4 with h4 | ⟨h4, hb, hs⟩
      · rw [h4]
        simp only []
        rw [basic_computeNextState_nextState, basic_computeNextState_nextState, hn]
        simp only [Cell.callIsAlive, h3, h4, Cell.isAlive, h1]
      · rw [h4]
        exact basic_vs_b3s23 _ _ _ h1 hb hs h3 h4 _ _ rfl hn
    · show (g.nextCell (g.deref p)).neighbors = (g'.nextCell (g'.deref p)).neighbors
      unfold Grid.nextCell
      rw [c1.2.2.1, c2.2.2.1, h2]
    · show (g.nextCell (g.deref p)).cls = CellClass.basic
      unfold Grid.nextCell
      rw [c1.2.1, h3]
    · show (g'.nextCell (g'.deref p)).cls = CellClass.basic
        ∨ ((g'.nextCell (g'.deref p)).cls = CellClass.ruleBased
            ∧ (g'.nextCell (g'.deref p)).b = [3] ∧ (g'.nextCell (g'.deref p)).s = [2, 3])
      unfold Grid.nextCell
      rw [c2.2.1, c2.2.2.2.1, c2.2.2.2.2]
      exact h4
  · have hp' : ¬ g'.inRange p := fun h' => hp ((sim_inRange g g' h p).mpr h')
    have d1 : g.synchronous.deref p = default :=
      deref_default _ p (fun h' => hp ((inRange_of_shape g _ (synchronous_shape g) p).mp h'))
    have d2 : g'.synchronous.deref p = default :=
      deref_default _ p (fun h' => hp' ((inRange_of_shape g' _ (synchronous_shape g') p).mp h'))
    rw [d1, d2]
    exact ⟨rfl, rfl, rfl, Or.inl rfl⟩

theorem sim_iterate (N : Nat) : ∀ (g g' : Grid), BasicRuleSim g g' →
    BasicRuleSim (Grid.updateCells^[N] g) (Grid.updateCells^[N] g') := by
  induction N with
  | zero => intro g g' h; exact h
  | succ n ih =>
    intro g g' h
    rw [Function.iterate_succ_apply, Function.iterate_succ_apply]
    apply ih
    rw [updateCells_eq, updateCells_eq]
    exact sim_synchronous g g' h

theorem cellAt_shape (cells cells' : List (List Cell))
    (h : cells.map List.length = cells'.map List.length) (y x : Int) :
    cellAt cells y x = cellAt cells' y x := by
  have hlen : cells.length = cells'.length := by simpa using congrArg List.length h
  have hrow : ∀ i, (cells.getD i []).length = (cells'.getD i []).length := by
    intro i
    have := congrArg (fun l => l.getD i 0) h
    simp only [List.getD_eq_getElem?_getD, List.getElem?_map] at this
    rw [List.getD_eq_getElem?_getD, List.getD_eq_getElem?_getD]
    cases h1 : cells[i]? <;> cases h2 : cells'[i]? <;> simp_all
  unfold cellAt
  rw [hlen, hrow]

theorem callSetState_plain (c : Cell) (v : CellState)
    (h : c.cls = CellClass.basic ∨ c.cls = CellClass.ruleBased) :
    c.callSetState v = { c with state := v } := by
  unfold Cell.callSetState
  rcases h with h | h <;> rw [h]

theorem sim_store (g g' : Grid) (h : BasicRuleSim g g') (p : Nat × Nat) (v : CellState) :
    BasicRuleSim (g.store p ((g.deref p).callSetState v))
      (g'.store p ((g'.deref p).callSetState v)) := by
  refine ⟨by rw [store_shape, store_shape, h.1], ?_⟩
  intro q
  rw [deref_store, deref_store]
  obtain ⟨a1, a2, a3, a4⟩ := h.2 p
  by_cases hq : q = p ∧ g.inRange p
  · have hq' : q = p ∧ g'.inRange p := ⟨hq.1, (sim_inRange g g' h p).mp hq.2⟩
    rw [if_pos hq, if_pos hq', callSetState_plain _ v (Or.inl a3)]
    rcases a4 with a4 | ⟨a4, hb, hs⟩
    · rw [callSetState_plain _ v (Or.inl a4)]
      exact ⟨rfl, a2, a3, Or.inl a4⟩
    · rw [callSetState_plain _ v (Or.inr a4)]
      exact ⟨rfl, a2, a3, Or.inr ⟨a4, hb, hs⟩⟩
  · have hq' : ¬ (q = p ∧ g'.inRange p) :=
      fun h' => hq ⟨h'.1, (sim_inRange g g' h p).mpr h'.2⟩
    rw [if_neg hq, if_neg hq']
    exact h.2 q

theorem sim_initialize (coords : List CellCoord) : ∀ (g g' : Grid), BasicRuleSim g g' →
    (g.initializeCells coords = none ∧ g'.initializeCells coords = none)
    ∨ ∃ a b, g.initializeCells coords = some a ∧ g'.initializeCells coords = some b
        ∧ BasicRuleSim a b := by
  induction coords with
  | nil =>
    intro g g' h
    exact Or.inr ⟨g, g', rfl, rfl, h⟩
  | cons a rest ih =>
    intro g g' h
    unfold Grid.initializeCells
    rw [← cellAt_shape g.cells g'.cells h.1]
    cases hc : cellAt g.cells a.row a.col with
    | none => exact Or.inl ⟨rfl, rfl⟩
    | some p => exact ih _ _ (sim_store g g' h p a.state)

theorem sim_built (numRows numCols : Int) :
    BasicRuleSim (Grid.built (basicConfig numRows numCols))
      (Grid.built (ruleConfig numRows numCols "B3/S23")) := by
  have hparse : RuleBasedCell.new ['B', '3', '/', 'S', '2', '3']
      = some { cls := CellClass.ruleBased, b := [3], s := [2, 3] } := by decide
  refine ⟨?_, ?_⟩
  · simp [Grid.built, basicConfig, ruleConfig, Function.comp]
  · intro p
    by_cases hp : p.1 < numRows.toNat ∧ p.2 < numCols.toNat
    · have e1 := built_deref (basicConfig numRows numCols) p.1 p.2 hp.1 hp.2
      have e2 := built_deref (ruleConfig numRows numCols "B3/S23") p.1 p.2 hp.1 hp.2
      rw [e1, e2]
      simp [newCell, basicConfig, ruleConfig, hparse]
    · have d1 : (Grid.built (basicConfig numRows numCols)).deref p = default :=
        deref_default _ p (fun h' => hp ((built_inRange _ p).mp h'))
      have d2 : (Grid.built (ruleConfig numRows numCols "B3/S23")).deref p = default :=
        deref_default _ p (fun h' => hp ((built_inRange _ p).mp h'))
      rw [d1, d2]
      exact ⟨rfl, rfl, rfl, Or.inl rfl⟩


theorem basicConfig_valid (numRows numCols : Int) (h1 : isInt32 numRows) (h2 : isInt32 numCols) :
    (basicConfig numRows numCols).valid :=
  ⟨h1, h2, by simp [basicConfig]⟩

theorem ruleConfig_valid (numRows numCols : Int) (h1 : isInt32 numRows) (h2 : isInt32 numCols) :
    (ruleConfig numRows numCols "B3/S23").valid :=
  ⟨h1, h2, by simp [ruleConfig]⟩

/-- C7: for every grid size (two `int` values), every seed list and every `N`, a RuleBased
grid of rule `"B3/S23"` and a Basic grid of the same size, seeded with the same list, hold
identical cell states after `N` calls of `updateCells` (and `initializeCells` throws on the
one exactly when it throws on the other); both constructors return a grid. -/
theorem rule_b3s23_equals_basic (numRows numCols : Int) (h1 : isInt32 numRows)
    (h2 : isInt32 numCols) (coords : List CellCoord) (N : Nat) :
    runStates (ruleConfig numRows numCols "B3/S23") coords N
        = runStates (basicConfig numRows numCols) coords N
    ∧ Grid.new (basicConfig numRows numCols) = some (Grid.built (basicConfig numRows numCols))
    ∧ Grid.new (ruleConfig numRows numCols "B3/S23")
        = some (Grid.built (ruleConfig numRows numCols "B3/S23")) := by
  have n1 := Grid_new_eq _ (basicConfig_valid numRows numCols h1 h2)
  have n2 := Grid_new_eq _ (ruleConfig_valid numRows numCols h1 h2)
  refine ⟨?_, n1, n2⟩
  unfold runStates
  rw [n1, n2]
  simp only []
  rcases sim_initialize coords _ _ (sim_built numRows numCols) with ⟨e1, e2⟩ | ⟨a, b, e1, e2, hs⟩
  · rw [e1, e2]
  · rw [e1, e2]
    simp only [Option.some.injEq]
    have := sim_iterate N a b hs
    exact (states_eq_of_deref _ _ this.1 (fun p => (this.2 p).1)).symm

theorem rule_b3s23_equals_basic_witness :
    isInt32 5 ∧ isInt32 5
    ∧ runStates (ruleConfig 5 5 "B3/S23") [⟨0, 1, 1⟩, ⟨1, 2, 1⟩, ⟨2, 0, 1⟩, ⟨2, 1, 1⟩, ⟨2, 2, 1⟩] 4
        = runStates (basicConfig 5 5) [⟨0, 1, 1⟩, ⟨1, 2, 1⟩, ⟨2, 0, 1⟩, ⟨2, 1, 1⟩, ⟨2, 2, 1⟩] 4 :=
  ⟨by decide, by decide,
    (rule_b3s23_equals_basic 5 5 (by decide) (by decide)
      [⟨0, 1, 1⟩, ⟨1, 2, 1⟩, ⟨2, 0, 1⟩, ⟨2, 1, 1⟩, ⟨2, 2, 1⟩] 4).1⟩

/-! ## Theorems: computeNextState leaves states alone; initializeCells -/

/-- C20: `computeNextState` never changes a committed state.  For each of the four classes
the `state` of the cell is the same after `computeNextState` as before; in a grid, one
`computeNextState` call leaves the `state` of every cell (the caller's and all others, its
neighbours included) as it was; `update` assigns `state := nextState` and `setState` assigns
the given state. -/
theorem computeNextState_keeps_state :
    (∀ (c : Cell) (nbrs : List Cell),
        (Cell.computeNextState c nbrs).state = c.state
        ∧ (AgingCell.computeNextState c nbrs).state = c.state
        ∧ (RuleBasedCell.computeNextState c nbrs).state = c.state
        ∧ (CustomCell.computeNextState c nbrs).state = c.state
        ∧ (c.callComputeNextState nbrs).state = c.state)
    ∧ (∀ (g : Grid) (p q : Nat × Nat), ((g.computeAt p).deref q).state = (g.deref q).state)
    ∧ (∀ c : Cell, c.update.state = c.nextState)
    ∧ (∀ (c : Cell) (newState : CellState), (c.callSetState newState).state = newState) := by
  refine ⟨?_, ?_, ?_, ?_⟩
  · intro c nbrs
    exact ⟨(basic_compute_fields c nbrs).1, (aging_compute_fields c nbrs).1,
      (ruleBased_compute_fields c nbrs).1, (custom_compute_sameCore c nbrs).1,
      (callCompute_sameCore c nbrs).1⟩
  · intro g p q
    exact (computeAt_sameCore g p q).1
  · intro c
    rfl
  · intro c newState
    unfold Cell.callSetState AgingCell.setState CustomCell.setState
    cases c.cls
    · rfl
    · simp only []
      split_ifs <;> rfl
    · rfl
    · simp only []
      split_ifs <;> rfl

theorem callSetState_fields (c : Cell) (v : CellState) :
    (c.callSetState v).state = v ∧ (c.callSetState v).cls = c.cls
    ∧ (c.callSetState v).neighbors = c.neighbors ∧ (c.callSetState v).b = c.b
    ∧ (c.callSetState v).s = c.s ∧ (c.callSetState v).age = c.age
    ∧ (c.callSetState v).nextState = c.nextState := by
  unfold Cell.callSetState AgingCell.setState CustomCell.setState
  cases c.cls
  · exact ⟨rfl, rfl, rfl, rfl, rfl, rfl, rfl⟩
  · simp only []
    split_ifs <;> exact ⟨rfl, rfl, rfl, rfl, rfl, rfl, rfl⟩
  · exact ⟨rfl, rfl, rfl, rfl, rfl, rfl, rfl⟩
  · simp only []
    split_ifs <;> exact ⟨rfl, rfl, rfl, rfl, rfl, rfl, rfl⟩

theorem cellAt_of_inBounds (g : Grid) (a : CellCoord) (hv : a.valid) (hb : g.inBounds a) :
    cellAt g.cells a.row a.col = some (a.row.toNat, a.col.toNat) := by
  obtain ⟨h0, h1, h2⟩ := hb
  obtain ⟨⟨_, r1⟩, ⟨_, c1⟩⟩ := hv
  unfold cellAt
  rw [sizeOfInt_of_range _ h0 r1, sizeOfInt_of_range _ h1 c1]
  unfold Grid.inRange at h2
  simp only at h2
  rw [if_pos h2]

theorem find_append_singleton (l : List CellCoord) (a : CellCoord) (f : CellCoord → Bool) :
    (l ++ [a]).find? f = match l.find? f with
      | some x => some x
      | none => if f a = true then some a else none := by
  rw [List.find?_append]
  cases h : l.find? f with
  | some x => rfl
  | none =>
    simp only [Option.none_or, List.find?_cons, List.find?_nil]
    cases f a <;> rfl

theorem lastSeed_cons (a : CellCoord) (rest : List CellCoord) (p : Nat × Nat) :
    lastSeed (a :: rest) p = match lastSeed rest p with
      | some x => some x
      | none => if a.row = (p.1 : Int) ∧ a.col = (p.2 : Int) then some a else none := by
  unfold lastSeed
  rw [List.reverse_cons, find_append_singleton]
  cases h : rest.reverse.find? (fun a => decide (a.row = (p.1 : Int) ∧ a.col = (p.2 : Int))) with
  | some x => rfl
  | none =>
    simp only [decide_eq_true_eq]


theorem inBounds_of_shape (g g' : Grid) (h : g'.cells.map List.length = g.cells.map List.length)
    (a : CellCoord) : g'.inBounds a ↔ g.inBounds a := by
  unfold Grid.inBounds
  rw [inRange_of_shape g g' h]

/-- C14: for a seed list whose entries (with `int` coordinates) all name cells of the grid,
`initializeCells` returns without an exception; afterwards every cell named in the list has
the state of the last entry that names it, every other cell has the state it had before,
and the shape of the grid is unchanged. -/
theorem initializeCells_last_write_wins (coords : List CellCoord) :
    ∀ (g : Grid), (∀ a ∈ coords, a.valid ∧ g.inBounds a) →
      ∃ g', g.initializeCells coords = some g'
        ∧ g'.cells.map List.length = g.cells.map List.length
        ∧ ∀ p, (g'.deref p).state
            = match lastSeed coords p with
              | some a => a.state
              | none => (g.deref p).state := by
  induction coords with
  | nil =>
    intro g _
    exact ⟨g, rfl, rfl, fun p => rfl⟩
  | cons a rest ih =>
    intro g h
    obtain ⟨hv, hb⟩ := h a (List.mem_cons_self _ _)
    have hat := cellAt_of_inBounds g a hv hb
    have hsh := store_shape g (a.row.toNat, a.col.toNat)
      ((g.deref (a.row.toNat, a.col.toNat)).callSetState a.state)
    obtain ⟨g', e1, e2, e3⟩ := ih (g.store (a.row.toNat, a.col.toNat)
        ((g.deref (a.row.toNat, a.col.toNat)).callSetState a.state))
      (fun x hx => ⟨(h x (List.mem_cons_of_mem _ hx)).1,
        (inBounds_of_shape g _ hsh x).mpr (h x (List.mem_cons_of_mem _ hx)).2⟩)
    refine ⟨g', ?_, e2.trans hsh, ?_⟩
    · unfold Grid.initializeCells
      rw [hat]
      exact e1
    · intro p
      rw [e3 p, lastSeed_cons]
      cases hl : lastSeed rest p with
      | some x => rfl
      | none =>
        simp only []
        rw [deref_store]
        obtain ⟨h0, h1, h2⟩ := hb
        by_cases hp : a.row = (p.1 : Int) ∧ a.col = (p.2 : Int)
        · have e : p = (a.row.toNat, a.col.toNat) := by
            apply Prod.ext
            · simp only; omega
            · simp only; omega
          rw [if_pos hp, if_pos ⟨e, h2⟩]
          exact (callSetState_fields _ _).1
        · have e : ¬ (p = (a.row.toNat, a.col.toNat)) := by
            intro e
            apply hp
            rw [e]
            simp only
            omega
          rw [if_neg hp, if_neg (fun h' => e h'.1)]

theorem initializeCells_last_write_wins_witness :
    (∀ a ∈ ([⟨0, 0, 1⟩, ⟨0, 1, 1⟩, ⟨0, 0, 2⟩] : List CellCoord),
        a.valid ∧ (Grid.built (modeConfig GameMode.AGING 2 2)).inBounds a)
    ∧ ∃ g', (Grid.built (modeConfig GameMode.AGING 2 2)).initializeCells
          [⟨0, 0, 1⟩, ⟨0, 1, 1⟩, ⟨0, 0, 2⟩] = some g'
        ∧ (g'.deref (0, 0)).state = CellState.OLD ∧ (g'.deref (1, 1)).state = CellState.DEAD :=
  ⟨by decide,
    (initializeCells_last_write_wins [⟨0, 0, 1⟩, ⟨0, 1, 1⟩, ⟨0, 0, 2⟩]
      (Grid.built (modeConfig GameMode.AGING 2 2)) (by decide)).elim
      (fun g' h => ⟨g', h.1, (h.2.2 (0, 0)).trans (by decide), (h.2.2 (1, 1)).trans (by decide)⟩)⟩

theorem sizeOfInt_int32 (x : Int) (h : isInt32 x) :
    (0 ≤ x → sizeOfInt x = x.toNat) ∧ (x < 0 → 2 ^ 31 ≤ sizeOfInt x) := by
  obtain ⟨h1, h2⟩ := h
  constructor
  · intro h0
    exact sizeOfInt_of_range x h0 h2
  · intro hneg
    unfold sizeOfInt
    omega

theorem cellAt_none_iff (g : Grid) (hR : g.cells.length < 2 ^ 31)
    (hC : ∀ i, (g.cells.getD i []).length < 2 ^ 31) (a : CellCoord) (hv : a.valid) :
    cellAt g.cells a.row a.col = none ↔ ¬ g.inBounds a := by
  constructor
  · intro hnone hb
    rw [cellAt_of_inBounds g a hv hb] at hnone
    exact absurd hnone (by simp)
  · intro hnb
    unfold cellAt
    rw [if_neg]
    rintro ⟨h1, h2⟩
    obtain ⟨r0, r1⟩ := sizeOfInt_int32 a.row hv.1
    obtain ⟨c0, c1⟩ := sizeOfInt_int32 a.col hv.2
    have hr : 0 ≤ a.row := by
      by_contra hneg
      have := r1 (by omega)
      omega
    have hc : 0 ≤ a.col := by
      by_contra hneg
      have := c1 (by omega)
      have := hC (sizeOfInt a.row)
      omega
    apply hnb
    refine ⟨hr, hc, ?_⟩
    unfold Grid.inRange
    simp only
    rw [← r0 hr, ← c0 hc]
    exact ⟨h1, h2⟩

theorem initializeCells_none_iff (coords : List CellCoord) :
    ∀ (g : Grid), g.cells.length < 2 ^ 31 → (∀ i, (g.cells.getD i []).length < 2 ^ 31) →
      (∀ a ∈ coords, a.valid) →
      (g.initializeCells coords = none ↔ ∃ a ∈ coords, ¬ g.inBounds a) := by
  induction coords with
  | nil =>
    intro g _ _ _
    simp [Grid.initializeCells]
  | cons a rest ih =>
    intro g hR hC hv
    have hva := hv a (List.mem_cons_self _ _)
    unfold Grid.initializeCells
    cases hat : cellAt g.cells a.row a.col with
    | none =>
      simp only [true_iff]
      exact ⟨a, List.mem_cons_self _ _, (cellAt_none_iff g hR hC a hva).mp hat⟩
    | some p =>
      simp only []
      have hin : g.inBounds a := by
        by_contra hnb
        rw [(cellAt_none_iff g hR hC a hva).mpr hnb] at hat
        exact absurd hat (by simp)
      have hsh := store_shape g p ((g.deref p).callSetState a.state)
      have hR' : (g.store p ((g.deref p).callSetState a.state)).cells.length < 2 ^ 31 := by
        have := congrArg List.length hsh
        simp only [List.length_map] at this
        omega
      have hC' : ∀ i, ((g.store p ((g.deref p).callSetState a.state)).cells.getD i []).length
          < 2 ^ 31 := by
        intro i
        have := congrArg (fun l => l.getD i 0) hsh
        simp only [List.getD_eq_getElem?_getD, List.getElem?_map] at this
        have hi := hC i
        rw [List.getD_eq_getElem?_getD] at hi ⊢
        cases h1 : (g.store p ((g.deref p).callSetState a.state)).cells[i]? <;>
          cases h2 : g.cells[i]? <;> simp_all
      rw [ih _ hR' hC' (fun x hx => hv x (List.mem_cons_of_mem _ hx))]
      constructor
      · rintro ⟨x, hx, hnb⟩
        exact ⟨x, List.mem_cons_of_mem _ hx, fun h' => hnb ((inBounds_of_shape g _ hsh x).mpr h')⟩
      · rintro ⟨x, hx, hnb⟩
        rcases List.mem_cons.mp hx with rfl | hx'
        · exact absurd hin hnb
        · exact ⟨x, hx', fun h' => hnb ((inBounds_of_shape g _ hsh x).mp h')⟩


theorem built_inBounds (cfg : GameConfig) (a : CellCoord) :
    (Grid.built cfg).inBounds a
      ↔ (0 ≤ a.row ∧ a.row < cfg.numRows ∧ 0 ≤ a.col ∧ a.col < cfg.numCols) := by
  unfold Grid.inBounds
  rw [built_inRange]
  simp only
  omega

theorem built_dims (cfg : GameConfig) (hv : cfg.valid) :
    (Grid.built cfg).cells.length < 2 ^ 31
    ∧ ∀ i, ((Grid.built cfg).cells.getD i []).length < 2 ^ 31 := by
  obtain ⟨⟨_, r1⟩, ⟨_, c1⟩, _⟩ := hv
  constructor
  · unfold Grid.built
    simp only [matrix_length]
    omega
  · intro i
    by_cases hi : i < cfg.numRows.toNat
    · unfold Grid.built
      simp only []
      rw [matrix_row _ _ _ i hi]
      simp only [List.length_map, List.length_range]
      omega
    · unfold Grid.built
      simp only []
      rw [List.getD_eq_getElem?_getD, List.getElem?_eq_none (by simp; omega)]
      simp

/-- C15: in a grid of the shape the constructor builds for a configuration, and for a seed
list with `int` coordinates, `initializeCells` throws if and only if some entry has `row`
outside `[0, numRows)` or `col` outside `[0, numCols)`; a negative or too large coordinate
is never mapped onto a cell. -/
theorem initializeCells_fails_iff (cfg : GameConfig) (hv : cfg.valid) (g : Grid)
    (hg : g.cells.map List.length = (Grid.built cfg).cells.map List.length)
    (coords : List CellCoord) (hc : ∀ a ∈ coords, a.valid) :
    g.initializeCells coords = none
      ↔ ∃ a ∈ coords, ¬ (0 ≤ a.row ∧ a.row < cfg.numRows ∧ 0 ≤ a.col ∧ a.col < cfg.numCols) := by
  obtain ⟨d1, d2⟩ := built_dims cfg hv
  have hR : g.cells.length < 2 ^ 31 := by
    have := congrArg List.length hg
    simp only [List.length_map] at this
    omega
  have hC : ∀ i, (g.cells.getD i []).length < 2 ^ 31 := by
    intro i
    have := congrArg (fun l => l.getD i 0) hg
    simp only [List.getD_eq_getElem?_getD, List.getElem?_map] at this
    have hi := d2 i
    rw [List.getD_eq_getElem?_getD] at hi ⊢
    cases h1 : g.cells[i]? <;> cases h2 : (Grid.built cfg).cells[i]? <;> simp_all
  rw [initializeCells_none_iff coords g hR hC hc]
  constructor
  · rintro ⟨a, ha, hnb⟩
    exact ⟨a, ha, fun h' => hnb ((inBounds_of_shape _ g hg a).mpr ((built_inBounds cfg a).mpr h'))⟩
  · rintro ⟨a, ha, hnb⟩
    exact ⟨a, ha, fun h' => hnb ((built_inBounds cfg a).mp ((inBounds_of_shape _ g hg a).mp h'))⟩

theorem initializeCells_fails_iff_witness :
    (modeConfig GameMode.BASIC 2 2).valid
    ∧ (∀ a ∈ ([⟨0, 0, 1⟩, ⟨-1, 0, 1⟩] : List CellCoord), a.valid)
    ∧ (Grid.built (modeConfig GameMode.BASIC 2 2)).initializeCells [⟨0, 0, 1⟩, ⟨-1, 0, 1⟩] = none :=
  ⟨by decide, by decide,
    (initializeCells_fails_iff (modeConfig GameMode.BASIC 2 2) (by decide)
      (Grid.built (modeConfig GameMode.BASIC 2 2)) rfl [⟨0, 0, 1⟩, ⟨-1, 0, 1⟩] (by decide)).mpr
      ⟨⟨-1, 0, 1⟩, by decide, by decide⟩⟩

/-! ## Theorems: resetCells -/

theorem resetCells_shape (g : Grid) :
    g.resetCells.cells.map List.length = g.cells.map List.length := by
  unfold Grid.resetCells
  simp [List.map_map, Function.comp]

theorem resetCells_deref (g : Grid) (q : Nat × Nat) (h : g.inRange q) :
    g.resetCells.deref q = (g.deref q).callSetState CellState.DEAD := by
  obtain ⟨h1, h2⟩ := h
  unfold Grid.resetCells Grid.deref
  simp only [List.getD_eq_getElem?_getD, List.getElem?_map] at h2 ⊢
  rw [List.getElem?_eq_getElem h1] at h2 ⊢
  simp only [Option.getD_some, Option.map_some', List.getElem?_map] at h2 ⊢
  rw [List.getElem?_eq_getElem h2]
  rfl

theorem resetCells_fields (g : Grid) (q : Nat × Nat) :
    (g.resetCells.deref q).state = CellState.DEAD
    ∧ (g.resetCells.deref q).cls = (g.deref q).cls
    ∧ (g.resetCells.deref q).b = (g.deref q).b
    ∧ (g.resetCells.deref q).neighbors = (g.deref q).neighbors
    ∧ (g.resetCells.deref q).age = (g.deref q).age
    ∧ (g.resetCells.deref q).nextState = (g.deref q).nextState := by
  by_cases h : g.inRange q
  · rw [resetCells_deref g q h]
    obtain ⟨a1, a2, a3, a4, a5, a6, a7⟩ := callSetState_fields (g.deref q) CellState.DEAD
    exact ⟨a1, a2, a4, a3, a6, a7⟩
  · rw [deref_default g q h,
      deref_default _ q (fun h' => h ((inRange_of_shape g _ (resetCells_shape g) q).mp h'))]
    exact ⟨rfl, rfl, rfl, rfl, rfl, rfl⟩

theorem callIsAlive_dead (c : Cell) (h : c.state = CellState.DEAD) : c.callIsAlive = false := by
  unfold Cell.callIsAlive Cell.isAlive AgingCell.isAlive CustomCell.isAlive Cell.getState
  rw [h]
  cases c.cls <;> decide

theorem liveCount_zero (nbrs : List Cell) (h : ∀ x ∈ nbrs, x.callIsAlive = false) :
    liveCount nbrs = 0 := by
  unfold liveCount
  have : nbrs.countP Cell.callIsAlive = 0 := by
    rw [List.countP_eq_zero]
    intro x hx
    rw [h x hx]
    decide
  rw [this]
  rfl

theorem tally_none (nbrs : List Cell) (h : ∀ x ∈ nbrs, x.callIsAlive = false) :
    CustomCell.tally nbrs = CustomCell.initDict := by
  unfold CustomCell.tally
  generalize CustomCell.initDict = d
  induction nbrs generalizing d with
  | nil => rfl
  | cons a rest ih =>
    rw [List.foldl_cons]
    have ha := h a (List.mem_cons_self _ _)
    rw [if_neg (by rw [ha]; simp)]
    exact ih (fun x hx => h x (List.mem_cons_of_mem _ hx)) d

/-- A Dead cell none of whose neighbours is alive stages `DEAD`, unless it is a
RuleBased cell whose birth list contains 0. -/
theorem dead_among_dead (c : Cell) (nbrs : List Cell) (hs : c.state = CellState.DEAD)
    (hn : ∀ x ∈ nbrs, x.callIsAlive = false)
    (hb : c.cls = CellClass.ruleBased → (0 : Int) ∉ c.b) :
    (c.callComputeNextState nbrs).nextState = CellState.DEAD := by
  have hl := liveCount_zero nbrs hn
  have ha := callIsAlive_dead c hs
  unfold Cell.callComputeNextState
  cases hc : c.cls
  · simp only []
    rw [basic_computeNextState_nextState, hl, ha]
    simp [hs]
  · simp only []
    obtain ⟨_, _, _, _, k5⟩ := aging_computeNextState_state_age c nbrs hc
    rw [(k5 (by rw [hs]; decide) (by rw [hl]; decide)).1]
    exact hs
  · simp only []
    unfold RuleBasedCell.computeNextState
    simp only [hl, ha, Bool.false_eq_true, false_and, if_false, true_and, hb hc, Cell.getState]
    exact hs
  · simp only []
    obtain ⟨_, k2⟩ := custom_compute_dead c nbrs hc hs
    apply k2
    rw [tally_none nbrs hn]
    decide


/-- A Dead RuleBased cell whose birth list contains 0 and none of whose neighbours is alive
stages `ALIVE`. -/
theorem dead_ruleBased_birth_zero (c : Cell) (nbrs : List Cell) (hs : c.state = CellState.DEAD)
    (hn : ∀ x ∈ nbrs, x.callIsAlive = false) (hc : c.cls = CellClass.ruleBased)
    (hb : (0 : Int) ∈ c.b) :
    (c.callComputeNextState nbrs).nextState = CellState.ALIVE := by
  have hl := liveCount_zero nbrs hn
  have ha := callIsAlive_dead c hs
  unfold Cell.callComputeNextState
  rw [hc]
  simp only []
  unfold RuleBasedCell.computeNextState
  simp only [hl, ha, Bool.false_eq_true, false_and, if_false, true_and, hb, if_true]

/-- C12 (as amended): for every grid, after `resetCells` no cell is alive and every cell is
Dead; after a subsequent `updateCells` a cell is Dead unless it is a RuleBased cell whose
birth list contains 0, and every RuleBased cell whose birth list contains 0 is Alive. -/
theorem reset_then_update (g : Grid) :
    (∀ p, (g.resetCells.deref p).callIsAlive = false
        ∧ (g.resetCells.deref p).state = CellState.DEAD)
    ∧ (∀ p, ¬ ((g.deref p).cls = CellClass.ruleBased ∧ (0 : Int) ∈ (g.deref p).b) →
        (g.resetCells.updateCells.deref p).state = CellState.DEAD)
    ∧ (∀ p, (g.deref p).cls = CellClass.ruleBased → (0 : Int) ∈ (g.deref p).b →
        (g.resetCells.updateCells.deref p).state = CellState.ALIVE) := by
  have hdead : ∀ p, (g.resetCells.deref p).state = CellState.DEAD :=
    fun p => (resetCells_fields g p).1
  have halive : ∀ p, (g.resetCells.deref p).callIsAlive = false :=
    fun p => callIsAlive_dead _ (hdead p)
  have hnb : ∀ p, ∀ x ∈ ((g.resetCells.deref p).neighbors.map g.resetCells.deref),
      x.callIsAlive = false := by
    intro p x hx
    rw [List.mem_map] at hx
    obtain ⟨q, _, rfl⟩ := hx
    exact halive q
  refine ⟨fun p => ⟨halive p, hdead p⟩, ?_, ?_⟩
  · intro p hb
    rw [updateCells_eq]
    by_cases hp : g.resetCells.inRange p
    · rw [synchronous_deref _ p hp]
      show (g.resetCells.nextCell (g.resetCells.deref p)).nextState = CellState.DEAD
      unfold Grid.nextCell
      apply dead_among_dead _ _ (hdead p) (hnb p)
      intro hc h0
      obtain ⟨_, f2, f3, _⟩ := resetCells_fields g p
      exact hb ⟨by rw [← f2]; exact hc, by rw [← f3]; exact h0⟩
    · rw [deref_default _ p
        (fun h' => hp ((inRange_of_shape _ _ (synchronous_shape g.resetCells) p).mp h'))]
      rfl
  · intro p hc h0
    have hp : g.inRange p := by
      by_contra hno
      rw [deref_default g p hno] at hc
      exact absurd hc (by decide)
    have hp' : g.resetCells.inRange p := (inRange_of_shape g _ (resetCells_shape g) p).mpr hp
    rw [updateCells_eq, synchronous_deref _ p hp']
    show (g.resetCells.nextCell (g.resetCells.deref p)).nextState = CellState.ALIVE
    unfold Grid.nextCell
    obtain ⟨_, f2, f3, _⟩ := resetCells_fields g p
    exact dead_ruleBased_birth_zero _ _ (hdead p) (hnb p) (by rw [f2]; exact hc)
      (by rw [f3]; exact h0)

theorem reset_then_update_witness :
    ((Grid.built (ruleConfig 2 2 "B3/S23")).resetCells.updateCells.deref (0, 0)).state
        = CellState.DEAD
    ∧ ((Grid.built (ruleConfig 2 2 "B0/S")).resetCells.updateCells.deref (1, 1)).state
        = CellState.ALIVE
    ∧ ((Grid.built (modeConfig GameMode.AGING 2 2)).resetCells.updateCells.deref (0, 1)).state
        = CellState.DEAD :=
  ⟨(reset_then_update (Grid.built (ruleConfig 2 2 "B3/S23"))).2.1 (0, 0) (by decide),
    (reset_then_update (Grid.built (ruleConfig 2 2 "B0/S"))).2.2 (1, 1) (by decide) (by decide),
    (reset_then_update (Grid.built (modeConfig GameMode.AGING 2 2))).2.1 (0, 1) (by decide)⟩

/-- C12 fails as stated: the rule `"B0/S"` passes the format check, the constructor builds
the 1 x 1 RuleBased grid, after `resetCells` its cell is not alive, and the next
`updateCells` makes it Alive. -/
theorem reset_then_update_counterexample :
    ruleAccepted "B0/S".toList = true
    ∧ Grid.new (ruleConfig 1 1 "B0/S") = some (Grid.built (ruleConfig 1 1 "B0/S"))
    ∧ ((Grid.built (ruleConfig 1 1 "B0/S")).resetCells.deref (0, 0)).callIsAlive = false
    ∧ ((Grid.built (ruleConfig 1 1 "B0/S")).resetCells.updateCells.deref (0, 0)).state
        = CellState.ALIVE :=
  ⟨by decide, Grid_new_eq _ (by decide), by decide, by decide⟩

/-! ## Theorems: the glider -/

theorem glider_at_0_0 :
    runStates (basicConfig 5 5) (aliveSeeds (shift5 0 0 glider)) 4
      = some (paint 5 5 (shift5 (0 + 1) (0 + 1) glider)) := by
  decide!

theorem glider_at_0_1 :
    runStates (basicConfig 5 5) (aliveSeeds (shift5 0 1 glider)) 4
      = some (paint 5 5 (shift5 (0 + 1) (1 + 1) glider)) := by
  decide!

theorem glider_at_0_2 :
    runStates (basicConfig 5 5) (aliveSeeds (shift5 0 2 glider)) 4
      = some (paint 5 5 (shift5 (0 + 1) (2 + 1) glider)) := by
  decide!

theorem glider_at_0_3 :
    runStates (basicConfig 5 5) (aliveSeeds (shift5 0 3 glider)) 4
      = some (paint 5 5 (shift5 (0 + 1) (3 + 1) glider)) := by
  decide!

theorem glider_at_0_4 :
    runStates (basicConfig 5 5) (aliveSeeds (shift5 0 4 glider)) 4
      = some (paint 5 5 (shift5 (0 + 1) (4 + 1) glider)) := by
  decide!

theorem glider_at_1_0 :
    runStates (basicConfig 5 5) (aliveSeeds (shift5 1 0 glider)) 4
      = some (paint 5 5 (shift5 (1 + 1) (0 + 1) glider)) := by
  decide!

theorem glider_at_1_1 :
    runStates (basicConfig 5 5) (aliveSeeds (shift5 1 1 glider)) 4
      = some (paint 5 5 (shift5 (1 + 1) (1 + 1) glider)) := by
  decide!

theorem glider_at_1_2 :
    runStates (basicConfig 5 5) (aliveSeeds (shift5 1 2 glider)) 4
      = some (paint 5 5 (shift5 (1 + 1) (2 + 1) glider)) := by
  decide!

theorem glider_at_1_3 :
    runStates (basicConfig 5 5) (aliveSeeds (shift5 1 3 glider)) 4
      = some (paint 5 5 (shift5 (1 + 1) (3 + 1) glider)) := by
  decide!

theorem glider_at_1_4 :
    runStates (basicConfig 5 5) (aliveSeeds (shift5 1 4 glider)) 4
      = some (paint 5 5 (shift5 (1 + 1) (4 + 1) glider)) := by
  decide!

theorem glider_at_2_0 :
    runStates (basicConfig 5 5) (aliveSeeds (shift5 2 0 glider)) 4
      = some (paint 5 5 (shift5 (2 + 1) (0 + 1) glider)) := by
  decide!

theorem glider_at_2_1 :
    runStates (basicConfig 5 5) (aliveSeeds (shift5 2 1 glider)) 4
      = some (paint 5 5 (shift5 (2 + 1) (1 + 1) glider)) := by
  decide!

theorem glider_at_2_2 :
    runStates (basicConfig 5 5) (aliveSeeds (shift5 2 2 glider)) 4
      = some (paint 5 5 (shift5 (2 + 1) (2 + 1) glider)) := by
  decide!

theorem glider_at_2_3 :
    runStates (basicConfig 5 5) (aliveSeeds (shift5 2 3 glider)) 4
      = some (paint 5 5 (shift5 (2 + 1) (3 + 1) glider)) := by
  decide!

theorem glider_at_2_4 :
    runStates (basicConfig 5 5) (aliveSeeds (shift5 2 4 glider)) 4
      = some (paint 5 5 (shift5 (2 + 1) (4 + 1) glider)) := by
  decide!

theorem glider_at_3_0 :
    runStates (basicConfig 5 5) (aliveSeeds (shift5 3 0 glider)) 4
      = some (paint 5 5 (shift5 (3 + 1) (0 + 1) glider)) := by
  decide!

theorem glider_at_3_1 :
    runStates (basicConfig 5 5) (aliveSeeds (shift5 3 1 glider)) 4
      = some (paint 5 5 (shift5 (3 + 1) (1 + 1) glider)) := by
  decide!

theorem glider_at_3_2 :
    runStates (basicConfig 5 5) (aliveSeeds (shift5 3 2 glider)) 4
      = some (paint 5 5 (shift5 (3 + 1) (2 + 1) glider)) := by
  decide!

theorem glider_at_3_3 :
    runStates (basicConfig 5 5) (aliveSeeds (shift5 3 3 glider)) 4
      = some (paint 5 5 (shift5 (3 + 1) (3 + 1) glider)) := by
  decide!

theorem glider_at_3_4 :
    runStates (basicConfig 5 5) (aliveSeeds (shift5 3 4 glider)) 4
      = some (paint 5 5 (shift5 (3 + 1) (4 + 1) glider)) := by
  decide!

theorem glider_at_4_0 :
    runStates (basicConfig 5 5) (aliveSeeds (shift5 4 0 glider)) 4
      = some (paint 5 5 (shift5 (4 + 1) (0 + 1) glider)) := by
  decide!

theorem glider_at_4_1 :
    runStates (basicConfig 5 5) (aliveSeeds (shift5 4 1 glider)) 4
      = some (paint 5 5 (shift5 (4 + 1) (1 + 1) glider)) := by
  decide!

theorem glider_at_4_2 :
    runStates (basicConfig 5 5) (aliveSeeds (shift5 4 2 glider)) 4
      = some (paint 5 5 (shift5 (4 + 1) (2 + 1) glider)) := by
  decide!

theorem glider_at_4_3 :
    runStates (basicConfig 5 5) (aliveSeeds (shift5 4 3 glider)) 4
      = some (paint 5 5 (shift5 (4 + 1) (3 + 1) glider)) := by
  decide!

theorem glider_at_4_4 :
    runStates (basicConfig 5 5) (aliveSeeds (shift5 4 4 glider)) 4
      = some (paint 5 5 (shift5 (4 + 1) (4 + 1) glider)) := by
  decide!

/-- C16: on the 5 x 5 Basic grid seeded Alive at the glider `(0,1), (1,2), (2,0), (2,1), (2,2)`
and Dead elsewhere, the constructor and `initializeCells` return and, after 4 calls of
`updateCells`, the Alive cells are exactly `(1,2), (2,3), (3,1), (3,2), (3,3)`, the seed moved
by one cell down and one cell right; the same holds for each of the 25 translations of the
seed on the torus. -/
theorem glider_translates :
    runStates (basicConfig 5 5) (aliveSeeds glider) 4
        = some (paint 5 5 [(1, 2), (2, 3), (3, 1), (3, 2), (3, 3)])
    ∧ ∀ dr dc : Fin 5,
        runStates (basicConfig 5 5) (aliveSeeds (shift5 dr.val dc.val glider)) 4
          = some (paint 5 5 (shift5 (dr.val + 1) (dc.val + 1) glider)) := by
  have h : ∀ a b : Nat, a < 5 → b < 5 →
      runStates (basicConfig 5 5) (aliveSeeds (shift5 a b glider)) 4
        = some (paint 5 5 (shift5 (a + 1) (b + 1) glider)) := by
    intro a b ha hb
    interval_cases a
    · interval_cases b
      · exact glider_at_0_0
      · exact glider_at_0_1
      · exact glider_at_0_2
      · exact glider_at_0_3
      · exact glider_at_0_4
    · interval_cases b
      · exact glider_at_1_0
      · exact glider_at_1_1
      · exact glider_at_1_2
      · exact glider_at_1_3
      · exact glider_at_1_4
    · interval_cases b
      · exact glider_at_2_0
      · exact glider_at_2_1
      · exact glider_at_2_2
      · exact glider_at_2_3
      · exact glider_at_2_4
    · interval_cases b
      · exact glider_at_3_0
      · exact glider_at_3_1
      · exact glider_at_3_2
      · exact glider_at_3_3
      · exact glider_at_3_4
    · interval_cases b
      · exact glider_at_4_0
      · exact glider_at_4_1
      · exact glider_at_4_2
      · exact glider_at_4_3
      · exact glider_at_4_4
  exact ⟨glider_at_0_0, fun dr dc => h dr.val dc.val dr.isLt dc.isLt⟩

/-! ## Theorems: restart, stale staging and colours -/

/-- C11 fails in the code.  3 x 3 Custom grid: seed R at `(0,0)`, `(0,1)` and update once
(the cell `(1,1)` is born R); restart with the seeds R at `(0,0)`, `(0,1)`, G at `(0,2)`,
`(1,0)`, B at `(1,2)`, `(2,0)`.  The cell `(1,1)` is then Dead, its non-Old alive neighbours
tally R = G = B = 2 (`maxCount = 2`, three states tied), and `updateCells` makes it R: the
branch for a tie of three states assigns nothing, so the `nextState` staged before the
restart is committed.  On a freshly built grid with the same seeds the cell stays Dead. -/
theorem wide_tie_commits_stale_state :
    ((((Grid.new (modeConfig GameMode.CUSTOM 3 3)).bind fun g0 => g0.initializeCells
          (seedsOf CellState.R [(0, 0), (0, 1)])).bind
        (fun g => g.updateCells.restart
          (seedsOf CellState.R [(0, 0), (0, 1)] ++ seedsOf CellState.G [(0, 2), (1, 0)]
            ++ seedsOf CellState.B [(1, 2), (2, 0)]))).map
      (fun g => ((g.deref (1, 1)).state,
        maxCountOf ((g.deref (1, 1)).neighbors.map g.deref),
        maxStatesOf ((g.deref (1, 1)).neighbors.map g.deref),
        (g.updateCells.deref (1, 1)).state)))
      = some (CellState.DEAD, 2, [CellState.R, CellState.G, CellState.B], CellState.R)
    ∧ (((Grid.new (modeConfig GameMode.CUSTOM 3 3)).bind fun g0 => g0.initializeCells
          (seedsOf CellState.R [(0, 0), (0, 1)] ++ seedsOf CellState.G [(0, 2), (1, 0)]
            ++ seedsOf CellState.B [(1, 2), (2, 0)])).map
        (fun g => (g.updateCells.deref (1, 1)).state)) = some CellState.DEAD := by
  constructor
  · decide
  · decide

/-- C13 fails in the code.  4 x 4 Aging grid seeded Alive on the block `(1,1), (1,2), (2,1),
(2,2)`: on the freshly built grid the block is Alive after 2 calls of `updateCells`; after
one `updateCells`, `resetCells` and `initializeCells` with the same seeds the cells of the
block keep age 1, and 2 calls of `updateCells` later the block is Old. -/
theorem restart_keeps_age :
    (((Grid.new (modeConfig GameMode.AGING 4 4)).bind fun g0 => g0.initializeCells
          (seedsOf CellState.ALIVE [(1, 1), (1, 2), (2, 1), (2, 2)])).map
        (fun g => (Grid.updateCells^[2] g).states))
      = some [[0, 0, 0, 0], [0, 1, 1, 0], [0, 1, 1, 0], [0, 0, 0, 0]]
    ∧ ((((Grid.new (modeConfig GameMode.AGING 4 4)).bind fun g0 => g0.initializeCells
            (seedsOf CellState.ALIVE [(1, 1), (1, 2), (2, 1), (2, 2)])).bind
          (fun g => g.updateCells.restart
            (seedsOf CellState.ALIVE [(1, 1), (1, 2), (2, 1), (2, 2)]))).map
        (fun g => ((g.deref (1, 1)).state, (g.deref (1, 1)).age, (Grid.updateCells^[2] g).states)))
      = some (CellState.ALIVE, 1, [[0, 0, 0, 0], [0, 2, 2, 0], [0, 2, 2, 0], [0, 0, 0, 0]]) := by
  constructor
  · decide!
  · decide!

/-- C17 fails in the code.  3 x 3 Aging grid seeded, in this order, Old at `(1,1)`, Dead at
`(1,1)`, Alive at `(0,0)`, `(0,1)`, `(0,2)`: `setState(DEAD)` leaves the colour of `(1,1)`
at `OLD_COLOR`, and after one `updateCells` that cell is alive in state Alive with colour
`OLD_COLOR`, which is not `ALIVE_COLOR`. -/
theorem aging_colour_mismatch :
    (((Grid.new (modeConfig GameMode.AGING 3 3)).bind fun g0 => g0.initializeCells
          [⟨1, 1, CellState.OLD⟩, ⟨1, 1, CellState.DEAD⟩, ⟨0, 0, CellState.ALIVE⟩,
            ⟨0, 1, CellState.ALIVE⟩, ⟨0, 2, CellState.ALIVE⟩]).map
        (fun g => ((g.updateCells.deref (1, 1)).callIsAlive, (g.updateCells.deref (1, 1)).state,
          (g.updateCells.deref (1, 1)).color)))
      = some (true, CellState.ALIVE, OLD_COLOR)
    ∧ OLD_COLOR ≠ ALIVE_COLOR := by
  constructor
  · decide
  · decide

/-! ## Theorems: construction and the format check of the rule string -/

theorem matchesAt_append (pat post : List Char) : matchesAt pat (pat ++ post) = true := by
  induction pat with
  | nil => rfl
  | cons p ps ih => simp [matchesAt, ih]

theorem findFrom_le (pat post : List Char) (pre : List Char) :
    ∀ pos, findFrom pat (pre ++ (pat ++ post)) pos ≤ pos + pre.length := by
  induction pre with
  | nil =>
    intro pos
    cases hpp : pat ++ post with
    | nil =>
      have := matchesAt_append pat post
      rw [hpp] at this
      simp [findFrom, this]
    | cons c cs =>
      have := matchesAt_append pat post
      rw [hpp] at this
      simp [findFrom, this]
  | cons c cs ih =>
    intro pos
    have := ih (pos + 1)
    simp only [List.cons_append, findFrom, List.length_cons]
    split_ifs
    · omega
    · simp only [List.append_eq] at *
      omega

theorem ruleString_accepted (d1 d2 : List Char) (hlen : (ruleString d1 d2).length < 2 ^ 31) :
    ruleAccepted (ruleString d1 d2) = true := by
  have h := findFrom_le ['/', 'S'] d2 ('B' :: d1) 0
  have e : ruleString d1 d2 = ('B' :: d1) ++ (['/', 'S'] ++ d2) := by simp [ruleString]
  have hl := ruleString_length d1 d2
  rw [hl] at hlen
  unfold ruleAccepted strFind
  rw [← e] at h
  simp only [List.length_cons, zero_add] at h
  have hne : findFrom ['/', 'S'] (ruleString d1 d2) 0 ≠ npos := by
    unfold npos
    omega
  rw [Bool.and_eq_true, bne_iff_ne]
  exact ⟨by simp [ruleString], hne⟩


theorem digit08 (ch : Char) (h0 : '0' ≤ ch) (h8 : ch ≤ '8') :
    ch.isDigit = true ∧ 0 ≤ digitValue ch ∧ digitValue ch ≤ 8 := by
  have a0 : (48 : Nat) ≤ ch.toNat := by
    have := UInt32.le_def.mp (Char.le_def.mp h0)
    exact this
  have a8 : ch.toNat ≤ 56 := by
    have := UInt32.le_def.mp (Char.le_def.mp h8)
    exact this
  refine ⟨?_, ?_, ?_⟩
  · unfold Char.isDigit
    simp only [Bool.and_eq_true, decide_eq_true_eq]
    constructor
    · exact UInt32.le_def.mpr (by exact a0)
    · exact UInt32.le_def.mpr (by show ch.toNat ≤ 57; omega)
  · unfold digitValue
    omega
  · unfold digitValue
    have : '0'.toNat = 48 := rfl
    omega


theorem new_ruleString (d1 d2 : List Char) (h1 : ∀ ch ∈ d1, ch.isDigit = true)
    (h2 : ∀ ch ∈ d2, ch.isDigit = true) (hlen : (ruleString d1 d2).length < 2 ^ 31) :
    RuleBasedCell.new (ruleString d1 d2)
        = some { cls := CellClass.ruleBased, b := d1.map digitValue, s := d2.map digitValue } := by
  have hl := ruleString_length d1 d2
  have hlen' : d1.length + d2.length + 3 < 2 ^ 31 := by rw [← hl]; exact hlen
  obtain ⟨i1, i2, i3, i4⟩ := rule_indices d1.length d2.length hlen'
  have e1 : ruleString d1 d2 = ['B'] ++ d1 ++ ('/' :: 'S' :: d2) := by simp [ruleString]
  have e2 : ruleString d1 d2 = ('B' :: (d1 ++ ['/', 'S'])) ++ d2 ++ [] := by simp [ruleString]
  have hb : RuleBasedCell.digits (ruleString d1 d2) 1 (d1.length : Int)
      = some (d1.map digitValue) := by
    have := digits_segment ['B'] d1 ('/' :: 'S' :: d2) h1 (by rw [← e1]; exact hlen)
      1 (d1.length : Int) (by simp) (by simp)
    rw [← e1] at this
    exact this
  have hs : RuleBasedCell.digits (ruleString d1 d2) ((d1.length : Int) + 3)
      ((d1.length : Int) + (d2.length : Int) + 2) = some (d2.map digitValue) := by
    have := digits_segment ('B' :: (d1 ++ ['/', 'S'])) d2 [] h2 (by rw [← e2]; exact hlen)
      ((d1.length : Int) + 3) ((d1.length : Int) + (d2.length : Int) + 2)
      (by simp; ring) (by simp; ring)
    rw [← e2] at this
    exact this
  unfold RuleBasedCell.new
  rw [strFind_B, strFind_S d1 d2 h1, hl]
  simp only [i1, i2, i3, i4, hb, hs]

theorem mainGrid_rejects (cfg : GameConfig) (hm : cfg.gameMode = GameMode.RULE_BASED)
    (hr : ruleAccepted cfg.gameRule = false) : mainGrid cfg = none := by
  unfold mainGrid
  rw [if_pos ⟨hm, hr⟩]

/-- C18 (amended): the `Grid` constructor validates nothing.  For every configuration the
program can hold it returns a grid, the one of `numRows` rows of `numCols` cells; when
`numRows <= 0` or `numCols <= 0` that grid has no cell.  The configuration error for a
RuleBased rule string that fails the format check is raised by `readConfigFile`, which ends
the program before the `Grid` is built. -/
theorem grid_construction_total (cfg : GameConfig) (hv : cfg.valid) :
    Grid.new cfg = some (Grid.built cfg)
    ∧ ((cfg.numRows ≤ 0 ∨ cfg.numCols ≤ 0) → ∀ p, ¬ (Grid.built cfg).inRange p)
    ∧ (cfg.gameMode = GameMode.RULE_BASED → ruleAccepted cfg.gameRule = false →
        mainGrid cfg = none) := by
  refine ⟨Grid_new_eq cfg hv, ?_, mainGrid_rejects cfg⟩
  intro h p hp
  rw [built_inRange] at hp
  rcases h with h | h
  · have : cfg.numRows.toNat = 0 := Int.toNat_eq_zero.mpr h
    omega
  · have : cfg.numCols.toNat = 0 := Int.toNat_eq_zero.mpr h
    omega

theorem grid_construction_total_witness :
    (ruleConfig 0 5 "xyz").valid
    ∧ Grid.new (ruleConfig 0 5 "xyz") = some (Grid.built (ruleConfig 0 5 "xyz"))
    ∧ (∀ p, ¬ (Grid.built (ruleConfig 0 5 "xyz")).inRange p)
    ∧ mainGrid (ruleConfig 0 5 "xyz") = none :=
  ⟨by decide, (grid_construction_total (ruleConfig 0 5 "xyz") (by decide)).1,
    (grid_construction_total (ruleConfig 0 5 "xyz") (by decide)).2.1 (Or.inl (by decide)),
    (grid_construction_total (ruleConfig 0 5 "xyz") (by decide)).2.2 rfl (by decide)⟩

/-- C18 fails: the constructor returns a grid for `numRows = 0` (no row), for
`numCols = -2` (three empty rows), and for the RuleBased rule string `"xyz"`, which fails
the format check (one Dead cell). -/
theorem grid_construction_counterexample :
    (Grid.new (basicConfig 0 5)).map Grid.states = some []
    ∧ (Grid.new (basicConfig 3 (-2))).map Grid.states = some [[], [], []]
    ∧ ruleAccepted "xyz".toList = false
    ∧ (Grid.new (ruleConfig 1 1 "xyz")).map Grid.states = some [[CellState.DEAD]] := by
  refine ⟨?_, ?_, ?_, ?_⟩ <;> decide

/-- C19 (amended): the format check of `readConfigFile` accepts every string
`"B" + d1 + "/S" + d2` (shorter than `2^31` characters); when all the characters of `d1`
and `d2` are digits from `'0'` to `'8'` the `RuleBasedCell` constructor parses it into the
lists of their digit values, all between 0 and 8.  A RuleBased configuration whose rule
string fails the check yields no grid: `readConfigFile` ends the program first. -/
theorem rule_validation (d1 d2 : List Char) (h1 : ∀ ch ∈ d1, '0' ≤ ch ∧ ch ≤ '8')
    (h2 : ∀ ch ∈ d2, '0' ≤ ch ∧ ch ≤ '8') (hlen : (ruleString d1 d2).length < 2 ^ 31) :
    ruleAccepted (ruleString d1 d2) = true
    ∧ (∃ c, RuleBasedCell.new (ruleString d1 d2) = some c
        ∧ c.b = d1.map digitValue ∧ c.s = d2.map digitValue
        ∧ (∀ v ∈ c.b, 0 ≤ v ∧ v ≤ 8) ∧ (∀ v ∈ c.s, 0 ≤ v ∧ v ≤ 8))
    ∧ (∀ cfg : GameConfig, cfg.gameMode = GameMode.RULE_BASED →
        ruleAccepted cfg.gameRule = false → mainGrid cfg = none) := by
  refine ⟨ruleString_accepted d1 d2 hlen, ?_, mainGrid_rejects⟩
  refine ⟨_, new_ruleString d1 d2 (fun ch h => (digit08 ch (h1 ch h).1 (h1 ch h).2).1)
    (fun ch h => (digit08 ch (h2 ch h).1 (h2 ch h).2).1) hlen, rfl, rfl, ?_, ?_⟩
  · intro v hv
    obtain ⟨ch, hch, rfl⟩ := List.mem_map.mp hv
    exact (digit08 ch (h1 ch hch).1 (h1 ch hch).2).2
  · intro v hv
    obtain ⟨ch, hch, rfl⟩ := List.mem_map.mp hv
    exact (digit08 ch (h2 ch hch).1 (h2 ch hch).2).2

theorem rule_validation_witness :
    (∀ ch ∈ ['3', '6'], '0' ≤ ch ∧ ch ≤ '8') ∧ (∀ ch ∈ ['2', '3'], '0' ≤ ch ∧ ch ≤ '8')
    ∧ (ruleString ['3', '6'] ['2', '3']).length < 2 ^ 31
    ∧ ruleAccepted (ruleString ['3', '6'] ['2', '3']) = true
    ∧ ∃ c, RuleBasedCell.new (ruleString ['3', '6'] ['2', '3']) = some c
        ∧ c.b = ['3', '6'].map digitValue ∧ c.s = ['2', '3'].map digitValue
        ∧ (∀ v ∈ c.b, 0 ≤ v ∧ v ≤ 8) ∧ (∀ v ∈ c.s, 0 ≤ v ∧ v ≤ 8) :=
  ⟨by decide, by decide, by decide,
    (rule_validation ['3', '6'] ['2', '3'] (by decide) (by decide) (by decide)).1,
    (rule_validation ['3', '6'] ['2', '3'] (by decide) (by decide) (by decide)).2.1⟩

/-- C19 fails: the format check accepts `"Bx/Sy"`, which is not of the form
`B<digits>/S<digits>` and is parsed into `b = [72]`, `s = [73]`, and `"B9/S9"`, parsed
into `b = [9]`, `s = [9]`; the grid is built for both. -/
theorem rule_validation_counterexample :
    ruleAccepted "Bx/Sy".toList = true
    ∧ RuleBasedCell.new "Bx/Sy".toList = some { cls := CellClass.ruleBased, b := [72], s := [73] }
    ∧ (mainGrid (ruleConfig 1 1 "Bx/Sy")).map Grid.states = some [[CellState.DEAD]]
    ∧ ruleAccepted "B9/S9".toList = true
    ∧ RuleBasedCell.new "B9/S9".toList = some { cls := CellClass.ruleBased, b := [9], s := [9] }
    ∧ (mainGrid (ruleConfig 1 1 "B9/S9")).map Grid.states = some [[CellState.DEAD]] := by
  refine ⟨?_, ?_, ?_, ?_, ?_, ?_⟩ <;> decide

/-! ## Theorems: the least common multiple on all positive arguments -/

/-- C22 (amended): for all integers `m >= 1` and `n >= 1` the loop of `CustomCell::lcm`
ends (within `m + n + 1` tests of its condition) with `a = gcd(m, n)`, which is not 0, so
the division is never by zero (the remainder `a %= b` is guarded by `b != 0` in the code);
the function returns a value, and when the product `m * n` is an `int` value
(`m * n < 2^31`) that value is the least common multiple `m * n / gcd(m, n)`. -/
theorem lcm_correct (m n : Int) (hm : 1 ≤ m) (hn : 1 ≤ n) :
    CustomCell.lcmLoop (m.natAbs + n.natAbs + 1) m n = some ((Int.gcd m n : Nat) : Int)
    ∧ ((Int.gcd m n : Nat) : Int) ≠ 0
    ∧ (CustomCell.lcm m n).isSome = true
    ∧ (m * n < 2 ^ 31 →
        CustomCell.lcm m n = some ((Int.lcm m n : Nat) : Int)
        ∧ ((Int.lcm m n : Nat) : Int) = m * n / ((Int.gcd m n : Nat) : Int)) := by
  have hm0 : 0 < m := by omega
  have hn0 : 0 < n := by omega
  refine ⟨?_, ?_, lcm_isSome_of_pos m n hm0 hn0, fun hmn => ⟨lcm_eq_of_pos m n hm0 hn0 hmn, ?_⟩⟩
  · obtain ⟨x, rfl⟩ := Int.eq_ofNat_of_zero_le (le_of_lt hm0)
    obtain ⟨y, rfl⟩ := Int.eq_ofNat_of_zero_le (le_of_lt hn0)
    rw [lcmLoop_natCast _ x y (by simp)]
    simp [Int.gcd]
  · have : Int.gcd m n ≠ 0 := by
      intro h
      rw [Int.gcd_eq_zero_iff] at h
      omega
    exact_mod_cast this
  · obtain ⟨x, rfl⟩ := Int.eq_ofNat_of_zero_le (le_of_lt hm0)
    obtain ⟨y, rfl⟩ := Int.eq_ofNat_of_zero_le (le_of_lt hn0)
    have hx : 0 < x := by exact_mod_cast hm0
    have hg : Nat.gcd x y ≠ 0 := by
      have := Nat.gcd_pos_of_pos_left y hx
      omega
    have h2 : Nat.gcd x y * Nat.lcm x y = x * y := Nat.gcd_mul_lcm x y
    have h1 : Int.lcm (x : Int) (y : Int) = Nat.lcm x y := by simp [Int.lcm]
    have h3 : Int.gcd (x : Int) (y : Int) = Nat.gcd x y := by simp [Int.gcd]
    rw [h1, h3]
    have h4 : ((x : Int) * (y : Int)) = ((Nat.gcd x y : Nat) : Int) * ((Nat.lcm x y : Nat) : Int) := by
      exact_mod_cast h2.symm
    rw [h4, Int.mul_ediv_cancel_left _ (by exact_mod_cast hg)]

theorem lcm_correct_witness :
    (1 : Int) ≤ 4 ∧ (1 : Int) ≤ 6 ∧ CustomCell.lcm 4 6 = some 12 :=
  ⟨by decide, by decide, ((lcm_correct 4 6 (by decide) (by decide)).2.2.2 (by decide)).1⟩

/-- C22 fails for large arguments: `m = n = 65536` are `int` values at least 1, their least
common multiple is 65536, but the `int` product `m * n` wraps around to 0 and
`CustomCell::lcm` returns `0 / 65536 = 0`. -/
theorem lcm_correct_counterexample :
    isInt32 65536 ∧ Int.lcm 65536 65536 = 65536 ∧ intWrap (65536 * 65536) = 0
    ∧ CustomCell.lcm 65536 65536 = some 0 := by
  refine ⟨by decide, by decide, by decide, ?_⟩
  unfold CustomCell.lcm
  have h := lcmLoop_natCast (65536 + 65536 + 1) 65536 65536 (le_refl _)
  have e : ((65536 : Nat) : Int) = 65536 := rfl
  rw [e] at h
  have e2 : (65536 : Int).natAbs + (65536 : Int).natAbs + 1 = 65536 + 65536 + 1 := rfl
  rw [e2, h]
  decide

/-! ## Theorems: the codes of the hybrid states -/

theorem lcm_closed :
    ∀ A ∈ producibleStates, ∀ B ∈ producibleStates, A ≠ B →
      ∃ k ∈ producibleStates, CustomCell.lcm A B = some k := by
  decide

/-- C21: with the codes R = 3, G = 4, B = 5, RG = 12, GB = 20, BR = 15, RGB = 60,
`CustomCell::lcm` of R, G is RG, of G, B is GB and of B, R is BR; these three codes and
3, 4, 5 are pairwise distinct; for every two distinct producible states `CustomCell::lcm`
of their codes is the code of a producible state; and so a Dead Custom cell that is born
(`maxCount` 2 or 3 with one or two states in `maxStates`) takes a producible state. -/
theorem hybrid_codes_closed :
    (CustomCell.lcm CellState.R CellState.G = some CellState.R_AND_G
      ∧ CustomCell.lcm CellState.G CellState.B = some CellState.G_AND_B
      ∧ CustomCell.lcm CellState.B CellState.R = some CellState.B_AND_R)
    ∧ [CellState.R_AND_G, CellState.G_AND_B, CellState.B_AND_R, CellState.R, CellState.G,
        CellState.B].Nodup
    ∧ (∀ A ∈ producibleStates, ∀ B ∈ producibleStates, A ≠ B →
        ∃ k ∈ producibleStates, CustomCell.lcm A B = some k)
    ∧ (∀ (c : Cell) (nbrs : List Cell), c.cls = CellClass.custom →
        (∀ x ∈ nbrs, x.cls = CellClass.custom) → c.state = CellState.DEAD →
        (maxCountOf nbrs = 2 ∨ maxCountOf nbrs = 3) →
        ((maxStatesOf nbrs).length = 1 ∨ (maxStatesOf nbrs).length = 2) →
        (c.callComputeNextState nbrs).update.state ∈ producibleStates) := by
  refine ⟨by decide, by decide, lcm_closed, ?_⟩
  intro c nbrs hc hn hd hmc hlen
  have hst : (c.callComputeNextState nbrs).update.state
      = (CustomCell.computeNextState c nbrs).nextState := by
    simp [Cell.callComputeNextState, hc, Cell.update]
  have hmd := maxDict_tally_eq nbrs hn
  have key := custom_compute_dead c nbrs hc hd
  simp only [hmd] at key
  obtain ⟨k1, _⟩ := key
  rw [hst]
  have hsub := maxStatesOf_subset nbrs
  have hnd := maxStatesOf_nodup nbrs
  rcases hlen with h1 | h2
  · rw [(k1 hmc).1 h1]
    generalize maxStatesOf nbrs = l at h1 hsub
    match l, h1 with
    | [x], _ => exact hsub x (by simp)
  · rw [(k1 hmc).2 h2]
    generalize maxStatesOf nbrs = l at h2 hsub hnd
    match l, h2 with
    | [x, y], _ =>
      simp only [List.getD_cons_zero, List.getD_cons_succ]
      have hxy : x ≠ y := by
        intro h
        subst h
        simp at hnd
      obtain ⟨k, hk, e⟩ := lcm_closed x (hsub x (by simp)) y (hsub y (by simp)) hxy
      rw [e]
      exact hk

theorem hybrid_codes_closed_witness :
    (Cell.callComputeNextState ({ cls := CellClass.custom } : Cell)
        (List.replicate 2 ({ cls := CellClass.custom, state := CellState.B } : Cell)
          ++ List.replicate 2 ({ cls := CellClass.custom, state := CellState.R_AND_G } : Cell)
          ++ List.replicate 4 ({ cls := CellClass.custom } : Cell))).update.state
      ∈ producibleStates :=
  hybrid_codes_closed.2.2.2 _ _ rfl (by decide) rfl (by decide) (by decide)

/-! ## Theorems: symmetry of the neighbour lists -/

theorem wrap_back (R i i' d : Int) (hi : 0 ≤ i) (hiR : i < R) (hi' : 0 ≤ i') (hiR' : i' < R)
    (h : (i + d) % R = i') : (i' - d) % R = i := by
  have h1 : Int.ModEq R (i + d) i' := by
    unfold Int.ModEq
    rw [h, Int.emod_eq_of_lt hi' hiR']
  have h2 : Int.ModEq R (i + d - d) (i' - d) := h1.sub_right d
  rw [add_sub_cancel_right] at h2
  have h3 : i % R = (i' - d) % R := h2
  rw [← h3, Int.emod_eq_of_lt hi hiR]

theorem wrap_iff (R i i' : Nat) (d : Int) (hi : i < R) (hi' : i' < R) :
    (((i : Int) + d) % (R : Int)).toNat = i' ↔ (((i' : Int) + -d) % (R : Int)).toNat = i := by
  have hR : (0 : Int) < (R : Int) := by omega
  have n1 : 0 ≤ ((i : Int) + d) % (R : Int) := Int.emod_nonneg _ (by omega)
  have n2 : 0 ≤ ((i' : Int) + -d) % (R : Int) := Int.emod_nonneg _ (by omega)
  constructor
  · intro h
    have h' : ((i : Int) + d) % (R : Int) = (i' : Int) := by omega
    have := wrap_back R i i' d (by omega) (by omega) (by omega) (by omega) h'
    rw [← sub_eq_add_neg, this]
    simp
  · intro h
    have h' : ((i' : Int) + -d) % (R : Int) = (i : Int) := by omega
    have := wrap_back R i' i (-d) (by omega) (by omega) (by omega) (by omega) h'
    rw [sub_neg_eq_add] at this
    rw [this]
    simp

theorem torus_count (R C i j i' j' : Nat) (hi : i < R) (hj : j < C) (hi' : i' < R) (hj' : j' < C) :
    (torusNeighbors R C i j).count (i', j') = (torusNeighbors R C i' j').count (i, j) := by
  have hperm : (mooreOffsets.map (fun d => (-d.1, -d.2))).Perm mooreOffsets := by decide
  unfold torusNeighbors
  rw [List.count_eq_countP, List.count_eq_countP, List.countP_map, List.countP_map,
    ← hperm.countP_eq, List.countP_map]
  apply List.countP_congr
  intro d _
  simp only [Function.comp, beq_iff_eq, Prod.mk.injEq]
  rw [wrap_iff R i i' (-d.1) hi hi', wrap_iff C j j' (-d.2) hj hj', neg_neg, neg_neg]

/-- C24: for every configuration the program can hold (`numRows` and `numCols` are `int`
values; in particular whenever `numRows >= 1` and `numCols >= 1`) the constructor returns a
grid in which every cell has 8 neighbour pointers and, for all cells `p` and `q`, `q` occurs
in the list of `p` as many times as `p` occurs in the list of `q`. -/
theorem neighbours_symmetric (cfg : GameConfig) (hv : cfg.valid) :
    ∃ g, Grid.new cfg = some g
      ∧ ∀ p q, g.inRange p → g.inRange q →
          (g.deref p).neighbors.length = 8
          ∧ (g.deref p).neighbors.count q = (g.deref q).neighbors.count p := by
  refine ⟨Grid.built cfg, Grid_new_eq cfg hv, ?_⟩
  intro p q hp hq
  obtain ⟨p1, p2⟩ := (built_inRange cfg p).mp hp
  obtain ⟨q1, q2⟩ := (built_inRange cfg q).mp hq
  rw [show p = (p.1, p.2) from rfl, show q = (q.1, q.2) from rfl,
    built_deref cfg p.1 p.2 p1 p2, built_deref cfg q.1 q.2 q1 q2]
  exact ⟨by simp [torusNeighbors, mooreOffsets], torus_count _ _ _ _ _ _ p1 p2 q1 q2⟩

theorem neighbours_symmetric_witness :
    (modeConfig GameMode.BASIC 2 3).valid
    ∧ ∃ g, Grid.new (modeConfig GameMode.BASIC 2 3) = some g
      ∧ g.inRange (0, 0) ∧ g.inRange (1, 1)
      ∧ (g.deref (0, 0)).neighbors.count (1, 1) = (g.deref (1, 1)).neighbors.count (0, 0) :=
  ⟨by decide,
    (neighbours_symmetric (modeConfig GameMode.BASIC 2 3) (by decide)).elim
      (fun g h => by
        have e : g = Grid.built (modeConfig GameMode.BASIC 2 3) :=
          Option.some.inj (h.1.symm.trans (Grid_new_eq _ (by decide)))
        subst e
        exact ⟨_, h.1, by decide, by decide, (h.2 (0, 0) (1, 1) (by decide) (by decide)).2⟩)⟩

/-! ## Theorems: the age invariant of the Aging grid -/

theorem aging_step (c : Cell) (nbrs : List Cell) (hc : c.cls = CellClass.aging) (h : ageInv c) :
    ((c.callComputeNextState nbrs).update).cls = CellClass.aging
    ∧ ageInv ((c.callComputeNextState nbrs).update)
    ∧ (c.callIsAlive = true → ((c.callComputeNextState nbrs).update).callIsAlive = true →
        ((c.callComputeNextState nbrs).update).age = c.age + 1) := by
  have e : c.callComputeNextState nbrs = AgingCell.computeNextState c nbrs := by
    unfold Cell.callComputeNextState
    rw [hc]
  have hcls : (AgingCell.computeNextState c nbrs).cls = CellClass.aging := by
    rw [(aging_compute_fields c nbrs).2.1, hc]
  obtain ⟨k1, k2, k3, k4, k5⟩ := aging_computeNextState_state_age c nbrs hc
  have ha : ∀ x : Cell, x.cls = CellClass.aging →
      (x.callIsAlive = true ↔ (x.state = 1 ∨ x.state = 2)) := by
    intro x hx
    unfold Cell.callIsAlive
    rw [hx]
    exact aging_isAlive_eq_true x
  rw [e]
  have hu : (AgingCell.computeNextState c nbrs).update.cls = CellClass.aging := hcls
  refine ⟨hu, ?_, ?_⟩
  · unfold ageInv at h ⊢
    show ((AgingCell.computeNextState c nbrs).nextState = CellState.DEAD
        ∧ (AgingCell.computeNextState c nbrs).age = 0)
      ∨ ((AgingCell.computeNextState c nbrs).nextState = CellState.ALIVE
        ∧ 0 ≤ (AgingCell.computeNextState c nbrs).age
        ∧ (AgingCell.computeNextState c nbrs).age ≤ 2)
      ∨ ((AgingCell.computeNextState c nbrs).nextState = CellState.OLD
        ∧ (AgingCell.computeNextState c nbrs).age = 3)
    simp only [CellState.DEAD, CellState.ALIVE, CellState.OLD] at h ⊢
    rcases h with ⟨hs, hg⟩ | ⟨hs, hg0, hg2⟩ | ⟨hs, hg⟩
    · have hn : ¬ (c.state = 1 ∨ c.state = 2) := by rw [hs]; decide
      by_cases hl : liveCount nbrs = 3
      · obtain ⟨a1, a2⟩ := k4 hn hl
        rw [a1, a2, hg]
        simp
      · obtain ⟨a1, a2⟩ := k5 hn hl
        rw [a1, a2, hs]
        simp
    · by_cases hl : liveCount nbrs < 2 ∨ liveCount nbrs > 3
      · obtain ⟨a1, a2⟩ := k1 hs hl
        rw [a1, a2]
        simp
      · obtain ⟨a1, a2⟩ := k2 hs hl
        have hw : intWrap (c.age + 1) = c.age + 1 :=
          intWrap_of_range _ (by omega) (by omega)
        rw [a1, a2, hw]
        by_cases h3 : c.age + 1 = 3
        · rw [if_pos h3]
          right; right
          exact ⟨rfl, h3⟩
        · rw [if_neg h3]
          right; left
          exact ⟨rfl, by omega, by omega⟩
    · obtain ⟨a1, a2⟩ := k3 hs
      rw [a1, a2]
      simp
  · intro h1 h2
    rw [ha c hc] at h1
    rw [ha _ hu] at h2
    show (AgingCell.computeNextState c nbrs).age = c.age + 1
    have h2' : (AgingCell.computeNextState c nbrs).nextState = 1
        ∨ (AgingCell.computeNextState c nbrs).nextState = 2 := h2
    unfold ageInv at h
    simp only [CellState.DEAD, CellState.ALIVE, CellState.OLD] at h
    rcases h1 with hs | hs
    · by_cases hl : liveCount nbrs < 2 ∨ liveCount nbrs > 3
      · obtain ⟨a1, _⟩ := k1 hs hl
        rw [a1] at h2'
        exact absurd h2' (by decide)
      · rw [(k2 hs hl).2]
        have hb : 0 ≤ c.age ∧ c.age ≤ 3 := by
          rcases h with ⟨_, hg⟩ | ⟨_, hg0, hg2⟩ | ⟨_, hg⟩ <;> omega
        exact intWrap_of_range _ (by omega) (by omega)
    · obtain ⟨a1, _⟩ := k3 hs
      rw [a1] at h2'
      exact absurd h2' (by decide)


theorem cellAt_inRange (g : Grid) (y x : Int) (p : Nat × Nat) (h : cellAt g.cells y x = some p) :
    g.inRange p := by
  unfold cellAt at h
  split_ifs at h with hc
  rw [← Option.some.inj h]
  exact hc

theorem init_keeps_fresh (coords : List CellCoord) :
    ∀ (g g1 : Grid), (∀ a ∈ coords, a.state = CellState.DEAD ∨ a.state = CellState.ALIVE) →
      g.initializeCells coords = some g1 →
      (∀ p, g.inRange p → (g.deref p).cls = CellClass.aging ∧ (g.deref p).age = 0
          ∧ ((g.deref p).state = CellState.DEAD ∨ (g.deref p).state = CellState.ALIVE)) →
      (∀ p, g1.inRange p → (g1.deref p).cls = CellClass.aging ∧ (g1.deref p).age = 0
          ∧ ((g1.deref p).state = CellState.DEAD ∨ (g1.deref p).state = CellState.ALIVE)) := by
  induction coords with
  | nil =>
    intro g g1 _ h hg
    rw [← Option.some.inj h]
    exact hg
  | cons a rest ih =>
    intro g g1 hs h hg
    unfold Grid.initializeCells at h
    cases hc : cellAt g.cells a.row a.col with
    | none => rw [hc] at h; exact absurd h (by simp)
    | some p =>
      rw [hc] at h
      simp only at h
      apply ih _ g1 (fun b hb => hs b (List.mem_cons_of_mem _ hb)) h
      intro q hq
      have hq' : g.inRange q := (inRange_of_shape g _ (store_shape g p _) q).mp hq
      rw [deref_store]
      split_ifs with hqp
      · obtain ⟨f1, f2, _, _, _, f6, _⟩ := callSetState_fields (g.deref p) a.state
        obtain ⟨g1', g2', _⟩ := hg p hqp.2
        rw [f1, f2, f6]
        exact ⟨g1', g2', hs a (List.mem_cons_self _ _)⟩
      · exact hg q hq'

theorem built_aging_fresh (numRows numCols : Int) (p : Nat × Nat)
    (h : (Grid.built (modeConfig GameMode.AGING numRows numCols)).inRange p) :
    ((Grid.built (modeConfig GameMode.AGING numRows numCols)).deref p).cls = CellClass.aging
    ∧ ((Grid.built (modeConfig GameMode.AGING numRows numCols)).deref p).age = 0
    ∧ (((Grid.built (modeConfig GameMode.AGING numRows numCols)).deref p).state = CellState.DEAD
      ∨ ((Grid.built (modeConfig GameMode.AGING numRows numCols)).deref p).state
          = CellState.ALIVE) := by
  obtain ⟨h1, h2⟩ := (built_inRange _ p).mp h
  rw [show p = (p.1, p.2) from rfl, built_deref _ p.1 p.2 h1 h2]
  exact ⟨rfl, rfl, Or.inl rfl⟩

theorem update_keeps_ageInv (g : Grid)
    (h : ∀ p, g.inRange p → (g.deref p).cls = CellClass.aging ∧ ageInv (g.deref p)) :
    (∀ p, g.updateCells.inRange p →
        (g.updateCells.deref p).cls = CellClass.aging ∧ ageInv (g.updateCells.deref p))
    ∧ (∀ p, (g.deref p).callIsAlive = true → (g.updateCells.deref p).callIsAlive = true →
        (g.updateCells.deref p).age = (g.deref p).age + 1) := by
  rw [updateCells_eq]
  have hr : ∀ p, g.synchronous.inRange p ↔ g.inRange p :=
    inRange_of_shape g _ (synchronous_shape g)
  constructor
  · intro p hp
    have hp' := (hr p).mp hp
    rw [synchronous_deref g p hp']
    obtain ⟨a1, a2, _⟩ := aging_step (g.deref p) ((g.deref p).neighbors.map g.deref)
      (h p hp').1 (h p hp').2
    exact ⟨a1, a2⟩
  · intro p h1 h2
    by_cases hp : g.inRange p
    · rw [synchronous_deref g p hp] at h2 ⊢
      exact (aging_step (g.deref p) ((g.deref p).neighbors.map g.deref)
        (h p hp).1 (h p hp).2).2.2 h1 h2
    · rw [deref_default g p hp] at h1
      exact absurd h1 (by decide)

theorem iterate_keeps_ageInv (N : Nat) : ∀ (g : Grid),
    (∀ p, g.inRange p → (g.deref p).cls = CellClass.aging ∧ ageInv (g.deref p)) →
    (∀ p, (Grid.updateCells^[N] g).inRange p →
      ((Grid.updateCells^[N] g).deref p).cls = CellClass.aging
      ∧ ageInv ((Grid.updateCells^[N] g).deref p)) := by
  induction N with
  | zero => intro g h; exact h
  | succ n ih =>
    intro g h
    rw [Function.iterate_succ_apply']
    exact (update_keeps_ageInv _ (ih g h)).1

theorem ageInv_deref (g : Grid)
    (h : ∀ p, g.inRange p → (g.deref p).cls = CellClass.aging ∧ ageInv (g.deref p))
    (p : Nat × Nat) : ageInv (g.deref p) := by
  by_cases hp : g.inRange p
  · exact (h p hp).2
  · rw [deref_default g p hp]
    decide

theorem alive_age_bounds (c : Cell) (h : ageInv c) : 0 ≤ c.age ∧ c.age ≤ 3 := by
  unfold ageInv at h
  rcases h with ⟨_, h⟩ | ⟨_, h0, h2⟩ | ⟨_, h⟩ <;> omega

theorem dies_within_four (g : Grid)
    (h : ∀ p, g.inRange p → (g.deref p).cls = CellClass.aging ∧ ageInv (g.deref p))
    (p : Nat × Nat) :
    ∃ k, k ≤ 4 ∧ ((Grid.updateCells^[k] g).deref p).callIsAlive = false := by
  by_contra hno
  have hal : ∀ k, k ≤ 4 → ((Grid.updateCells^[k] g).deref p).callIsAlive = true := by
    intro k hk
    by_contra hk'
    exact hno ⟨k, hk, by simpa using hk'⟩
  have hstep : ∀ k, k < 4 → ((Grid.updateCells^[k + 1] g).deref p).age
      = ((Grid.updateCells^[k] g).deref p).age + 1 := by
    intro k hk
    have := (update_keeps_ageInv _ (iterate_keeps_ageInv k g h)).2 p (hal k (by omega))
      (by rw [← Function.iterate_succ_apply' Grid.updateCells k g]; exact hal (k + 1) (by omega))
    rw [← Function.iterate_succ_apply' Grid.updateCells k g] at this
    exact this
  have b0 := alive_age_bounds _ (ageInv_deref _ (iterate_keeps_ageInv 0 g h) p)
  have b4 := alive_age_bounds _ (ageInv_deref _ (iterate_keeps_ageInv 4 g h) p)
  have s0 := hstep 0 (by omega)
  have s1 := hstep 1 (by omega)
  have s2 := hstep 2 (by omega)
  have s3 := hstep 3 (by omega)
  simp only [Nat.reduceAdd] at s0 s1 s2 s3
  omega


/-- C23: an Aging grid built by the constructor (`int` dimensions), seeded once by
`initializeCells` with Dead and Alive entries inside the grid, and advanced by `N` calls of
`updateCells`, exists, and every cell of it is Dead with age 0, Alive with age 0, 1 or 2, or
Old with age 3; from any such generation on, every cell is not alive in at least one of the
next 5 generations (so it is alive in at most 4 consecutive generations). -/
theorem aging_age_invariant (numRows numCols : Int) (h1 : isInt32 numRows)
    (h2 : isInt32 numCols) (coords : List CellCoord)
    (hc : ∀ a ∈ coords, (a.state = CellState.DEAD ∨ a.state = CellState.ALIVE)
      ∧ 0 ≤ a.row ∧ a.row < numRows ∧ 0 ≤ a.col ∧ a.col < numCols) (N : Nat) :
    ∃ g, agingRun numRows numCols coords N = some g
      ∧ (∀ p, ageInv (g.deref p))
      ∧ (∀ k, agingRun numRows numCols coords (N + k) = some (Grid.updateCells^[k] g))
      ∧ (∀ p, ∃ k, k ≤ 4 ∧ ((Grid.updateCells^[k] g).deref p).callIsAlive = false) := by
  have hv : (modeConfig GameMode.AGING numRows numCols).valid :=
    ⟨h1, h2, by simp [modeConfig]⟩
  obtain ⟨d1, d2⟩ := built_dims _ hv
  have hval : ∀ a ∈ coords, a.valid := by
    intro a ha
    obtain ⟨_, r0, r1, c0, c1⟩ := hc a ha
    unfold isInt32 at h1 h2
    unfold CellCoord.valid isInt32
    omega
  have hsome : (Grid.built (modeConfig GameMode.AGING numRows numCols)).initializeCells coords
      ≠ none := by
    intro hnone
    obtain ⟨a, ha, hnb⟩ := (initializeCells_none_iff coords _ d1 d2 hval).mp hnone
    apply hnb
    rw [built_inBounds]
    obtain ⟨_, r0, r1, c0, c1⟩ := hc a ha
    exact ⟨r0, r1, c0, c1⟩
  obtain ⟨g1, hg1⟩ := Option.ne_none_iff_exists'.mp hsome
  have hfresh := init_keeps_fresh coords _ g1 (fun a ha => (hc a ha).1) hg1
    (built_aging_fresh numRows numCols)
  have hinv : ∀ p, g1.inRange p → (g1.deref p).cls = CellClass.aging ∧ ageInv (g1.deref p) := by
    intro p hp
    obtain ⟨f1, f2, f3⟩ := hfresh p hp
    refine ⟨f1, ?_⟩
    unfold ageInv
    rcases f3 with f3 | f3
    · exact Or.inl ⟨f3, f2⟩
    · exact Or.inr (Or.inl ⟨f3, by omega, by omega⟩)
  have hrun : ∀ M, agingRun numRows numCols coords M = some (Grid.updateCells^[M] g1) := by
    intro M
    unfold agingRun
    rw [Grid_new_eq _ hv]
    simp only [hg1]
  have hN := iterate_keeps_ageInv N g1 hinv
  refine ⟨Grid.updateCells^[N] g1, hrun N, ageInv_deref _ hN, ?_, dies_within_four _ hN⟩
  intro k
  rw [hrun (N + k), add_comm, Function.iterate_add_apply]

theorem aging_age_invariant_witness :
    isInt32 3 ∧ isInt32 3
    ∧ (∀ a ∈ seedsOf CellState.ALIVE [(0, 0), (0, 1), (1, 0), (1, 1)],
        (a.state = CellState.DEAD ∨ a.state = CellState.ALIVE)
        ∧ 0 ≤ a.row ∧ a.row < 3 ∧ 0 ≤ a.col ∧ a.col < 3)
    ∧ ∃ g, agingRun 3 3 (seedsOf CellState.ALIVE [(0, 0), (0, 1), (1, 0), (1, 1)]) 2 = some g
      ∧ ageInv (g.deref (0, 0))
      ∧ ∃ k, k ≤ 4 ∧ ((Grid.updateCells^[k] g).deref (0, 0)).callIsAlive = false :=
  ⟨by decide, by decide, by decide,
    (aging_age_invariant 3 3 (by decide) (by decide)
      (seedsOf CellState.ALIVE [(0, 0), (0, 1), (1, 0), (1, 1)]) (by decide) 2).elim
      (fun g h => ⟨g, h.1, h.2.1 (0, 0), h.2.2.2 (0, 0)⟩)⟩

end GameOfLife
